import Mathlib

/-!
# gambatte-speedrun: the real-time driving loop

A shallow embedding of the Go front-end (package `application`) and the
properties of its input aggregator, joypad bitmask, pacing rule, reset state
machine and quicksave reader.

Conventions of the embedding.

* Go `int`, `time.Duration` are `Int`; bytes, key modifiers (`uint16`) are `Nat`.
* A Go `map[K]V` is an association list read with the zero value as default.
* A Go fixed array indexed by `InputId` is a function on `InputId`.
* A run-time panic (nil dereference, index or slice bounds) is an explicit
  outcome, never silently skipped.
* Calls that leave the Go program (SDL, the emulation core, the file system,
  the clock, the random source) take their answer from an argument and, where
  a claim is about which calls are made, append to an effect trace.
-/

namespace GambatteSpeedrun

/-! ## input.go -/

/-- The thirteen logical inputs, in the order of the `iota` block. -/
inductive InputId where
  | A | B | Select | Start | Right | Left | Up | Down
  | Reset | SaveState | LoadState | PreviousStateSlot | NextStateSlot
  deriving DecidableEq, Repr, Fintype

/-- The integer value of an `InputId` (`A = 0`, ..., `NextStateSlot = 12`). -/
def InputId.toNat : InputId → Nat
  | .A => 0 | .B => 1 | .Select => 2 | .Start => 3
  | .Right => 4 | .Left => 5 | .Up => 6 | .Down => 7
  | .Reset => 8 | .SaveState => 9 | .LoadState => 10
  | .PreviousStateSlot => 11 | .NextStateSlot => 12

/-- The constant `InputCount` closing the `iota` block. -/
def InputCount : Nat := 13

/-- The inputs visited by `for input := A; input < InputCount; input++`. -/
def allInputs : List InputId :=
  [.A, .B, .Select, .Start, .Right, .Left, .Up, .Down,
   .Reset, .SaveState, .LoadState, .PreviousStateSlot, .NextStateSlot]

/-- The inputs visited by `for input := A; input <= Down; input++`. -/
def joypadInputs : List InputId :=
  [.A, .B, .Select, .Start, .Right, .Left, .Up, .Down]

/-- Go map read `m[k]`: the first binding of `k`, or the zero value. -/
def mapGet {K V : Type} [DecidableEq K] (m : List (K × V)) (k : K) (zero : V) : V :=
  match m.find? (fun kv => decide (kv.1 = k)) with
  | some kv => kv.2
  | none => zero

/-- Go map write `m[k] = v`. -/
def mapSet {K V : Type} (m : List (K × V)) (k : K) (v : V) : List (K × V) :=
  (k, v) :: m

structure AxisState where
  Positive : Bool
  Negative : Bool
  deriving DecidableEq, Repr

/-- SDL's `KMOD_NONE`. -/
def KMOD_NONE : Nat := 0
/-- SDL's `KMOD_CTRL` (`KMOD_LCTRL | KMOD_RCTRL`). -/
def KMOD_CTRL : Nat := 0x00c0

/-- SDL key codes used by the built-in bindings. -/
def K_r : Int := 114
def K_s : Int := 115
def K_l : Int := 108
def K_z : Int := 122
def K_x : Int := 120

def K_BACKSPACE : Int := 8
def K_RETURN : Int := 13
def K_RIGHT : Int := 1073741903
def K_LEFT : Int := 1073741904
def K_DOWN : Int := 1073741905
def K_UP : Int := 1073741906
def K_F1 : Int := 1073741882
def K_F2 : Int := 1073741883
def K_F3 : Int := 1073741884
def K_F4 : Int := 1073741885

/-- `KeyInput` without its display label (`BaseInput.Name`), which no
computation reads. -/
structure KeyInput where
  Keycode : Int
  Modifiers : Nat
  deriving DecidableEq, Repr

structure JoyButtonInput where
  Button : Nat
  deriving DecidableEq, Repr

structure JoyAxisInput where
  Axis : Nat
  Positive : Bool
  deriving DecidableEq, Repr

/-- The three implementations of the `Input` interface. -/
inductive Input where
  | key (k : KeyInput)
  | joyButton (b : JoyButtonInput)
  | joyAxis (a : JoyAxisInput)
  deriving DecidableEq, Repr

/-- `InputArray`: one interface value per input, `none` for a nil interface. -/
abbrev InputArray := InputId → Option Input

structure InputManager where
  Inputs : InputArray
  Builtins : InputArray
  IsDown : InputId → Bool
  IsPressed : InputId → Bool
  DownPrevious : InputId → Bool
  Keyboard : List (Int × Bool)
  Keymodifiers : Nat
  JoyButtons : List (Nat × Bool)
  JoyAxes : List (Nat × AxisState)
  OpenedJoystick : Option Nat
  OpenedJoystickName : String
  AvailableJoysticks : List String

def NewKeyInput (keycode : Int) (modifiers : Nat) : Input :=
  .key { Keycode := keycode, Modifiers := modifiers }

def NewJoyButtonInput (button : Nat) : Input :=
  .joyButton { Button := button }

def NewJoyAxisInput (axis : Nat) (positive : Bool) : Input :=
  .joyAxis { Axis := axis, Positive := positive }

def KeyInput.IsDown (input : KeyInput) (manager : InputManager) : Bool :=
  let isKeysymDown := mapGet manager.Keyboard input.Keycode false
  let areModifiersRequired := input.Modifiers != KMOD_NONE
  let areModifierMatching := (manager.Keymodifiers &&& input.Modifiers) != 0
  isKeysymDown && (!areModifiersRequired || areModifierMatching)

def JoyButtonInput.IsDown (input : JoyButtonInput) (manager : InputManager) : Bool :=
  mapGet manager.JoyButtons input.Button false

def JoyAxisInput.IsDown (input : JoyAxisInput) (manager : InputManager) : Bool :=
  let stickState := mapGet manager.JoyAxes input.Axis ⟨false, false⟩
  if input.Positive then stickState.Positive else stickState.Negative

/-- Interface dispatch of `Input.IsDown`. -/
def Input.IsDown : Input → InputManager → Bool
  | .key k, manager => k.IsDown manager
  | .joyButton b, manager => b.IsDown manager
  | .joyAxis a, manager => a.IsDown manager

/-- The composite literal `[InputCount]Input{Reset: ..., ...}` of
`NewInputManager`: five entries, the others nil. -/
def builtinInputs : InputArray
  | .Reset => some (NewKeyInput K_r KMOD_CTRL)
  | .SaveState => some (NewKeyInput K_s KMOD_CTRL)
  | .LoadState => some (NewKeyInput K_l KMOD_CTRL)
  | .PreviousStateSlot => some (NewKeyInput K_z KMOD_CTRL)
  | .NextStateSlot => some (NewKeyInput K_x KMOD_CTRL)
  | _ => none

/-- `slices.Index`. -/
def slicesIndex (xs : List String) (name : String) : Option Nat :=
  let i := xs.indexOf name
  if i < xs.length then some i else none

/-- `OpenJoystick`; the opened device is named by its index in
`AvailableJoysticks` and reports the name SDL listed for that index. -/
def InputManager.OpenJoystick (manager : InputManager) (name : String) : InputManager :=
  let joystickId : Option Nat :=
    match slicesIndex manager.AvailableJoysticks name with
    | some i => some i
    | none => if manager.AvailableJoysticks.length > 0 then some 0 else none
  match joystickId with
  | none => { manager with OpenedJoystick := none, OpenedJoystickName := "" }
  | some i =>
    { manager with
      OpenedJoystick := some i
      OpenedJoystickName := manager.AvailableJoysticks.getD i "" }

/-- `NewInputManager`; `sdlJoysticks` is what SDL enumerates in
`QueryJoysticks`. -/
def NewInputManager (inputs : InputArray) (joystickName : String)
    (sdlJoysticks : List String) : InputManager :=
  let inputManager : InputManager :=
    { Inputs := inputs
      Builtins := builtinInputs
      IsDown := fun _ => false
      IsPressed := fun _ => false
      DownPrevious := fun _ => false
      Keyboard := []
      Keymodifiers := KMOD_NONE
      JoyButtons := []
      JoyAxes := []
      OpenedJoystick := none
      OpenedJoystickName := ""
      AvailableJoysticks := [] }
  let inputManager := { inputManager with AvailableJoysticks := sdlJoysticks }
  inputManager.OpenJoystick joystickName

/-- One iteration of the loop of `Update`; `none` is the nil-interface panic
of `manager.Inputs[input].IsDown`. -/
def InputManager.updateInput (manager : InputManager) (input : InputId) :
    Option InputManager :=
  match manager.Inputs input with
  | none => none
  | some user =>
    let isDown := false
    let isDown := isDown || user.IsDown manager
    let isDown :=
      match manager.Builtins input with
      | some builtin => isDown || builtin.IsDown manager
      | none => isDown
    some { manager with
      IsDown := Function.update manager.IsDown input isDown
      IsPressed := Function.update manager.IsPressed input
        (isDown && !manager.DownPrevious input) }

/-- The loop of `Update` over a list of inputs. -/
def InputManager.updateLoop (manager : InputManager) : List InputId → Option InputManager
  | [] => some manager
  | input :: rest =>
    match manager.updateInput input with
    | none => none
    | some manager1 => manager1.updateLoop rest

/-- `InputManager.Update`; `modState` is the answer of `sdl.GetModState()`. -/
def InputManager.Update (manager : InputManager) (modState : Nat) : Option InputManager :=
  let manager := { manager with Keymodifiers := modState }
  match manager.updateLoop allInputs with
  | none => none
  | some manager1 => some { manager1 with DownPrevious := manager1.IsDown }

/-- What the devices report between two `Update` calls: the three maps kept by
`ProcessEvent` and the modifier mask read by `Update`. -/
structure RawState where
  Keyboard : List (Int × Bool)
  JoyButtons : List (Nat × Bool)
  JoyAxes : List (Nat × AxisState)
  ModState : Nat

/-- The manager as events have left it when the next `Update` starts. -/
def InputManager.observe (manager : InputManager) (raw : RawState) : InputManager :=
  { manager with
    Keyboard := raw.Keyboard
    JoyButtons := raw.JoyButtons
    JoyAxes := raw.JoyAxes }

/-- One tick: the devices are in state `raw`, then `Update` runs. -/
def InputManager.tick (manager : InputManager) (raw : RawState) : Option InputManager :=
  (manager.observe raw).Update raw.ModState

/-- The managers after each of a sequence of ticks. -/
def runTicks (manager : InputManager) : List RawState → Option (List InputManager)
  | [] => some []
  | raw :: rest =>
    match manager.tick raw with
    | none => none
    | some manager1 =>
      match runTicks manager1 rest with
      | none => none
      | some ms => some (manager1 :: ms)

/-- `IsDown[i]` after tick `t` of a run (false outside the run). -/
def heldAt (ms : List InputManager) (t : Nat) (i : InputId) : Bool :=
  match ms[t]? with
  | some m => m.IsDown i
  | none => false

/-- `IsPressed[i]` after tick `t` of a run (false outside the run). -/
def pressedAt (ms : List InputManager) (t : Nat) (i : InputId) : Bool :=
  match ms[t]? with
  | some m => m.IsPressed i
  | none => false

/-! ## gambatte.go -/

def GbSampleSize : Int := 4
def GbSamplesPerFrame : Int := 35112
def GbAudioBufferOverhead : Int := 2064
def GbVideoWidth : Int := 160
def GbVideoHeight : Int := 144
def SamplesToFadeFor : Int := 1234567
def SamplesToStallFor : Int := 101 * (2 * 2 ^ 14)

inductive ResetStage where
  | NotResetting | FadeToBlack | Stalling | ResetDone
  deriving DecidableEq, Repr

structure Cartridge where
  Title : List Nat
  Crc32 : Nat
  deriving DecidableEq, Repr

/-- The Go struct `Gambatte` without the handle `Gb` of the C core; the two
buffers are read by index. -/
structure Gambatte where
  VideoBuffer : Nat → Nat
  AudioBuffer : Nat → Nat
  CurrentInputs : Int
  FrameOverflow : Int
  ResetStage : ResetStage
  FadeSamplesTotal : Int
  FadeSamplesLeft : Int
  StallSamplesLeft : Int
  RomLoaded : Bool
  BiosLoaded : Bool
  Cartridge : Cartridge

/-- Length of `Gambatte.AudioBuffer`. -/
def AudioBufferLen : Int := (GbSamplesPerFrame + GbAudioBufferOverhead) * 2 * 2

/-- `NewGambatte`: the zero value of every field. -/
def NewGambatte : Gambatte :=
  { VideoBuffer := fun _ => 0
    AudioBuffer := fun _ => 0
    CurrentInputs := 0
    FrameOverflow := 0
    ResetStage := .NotResetting
    FadeSamplesTotal := 0
    FadeSamplesLeft := 0
    StallSamplesLeft := 0
    RomLoaded := false
    BiosLoaded := false
    Cartridge := { Title := List.replicate 16 0, Crc32 := 0 } }

/-- Calls that leave the Go program, with the arguments that matter here. -/
inductive Effect where
  /-- `C.gambatte_runfor` with the sample budget passed in `samples`. -/
  | runFor (budget : Int)
  /-- `C.gambatte_reset` with its stall budget. -/
  | coreReset (samples : Int)
  /-- `Resampler.Put` with the bytes put. -/
  | resamplerPut (samples : List Nat)
  /-- `Resampler.Get` for the number of bytes available. -/
  | resamplerGet (available : Int)
  /-- `sdl.QueueAudio` of a resampled chunk scaled for the given volume. -/
  | queueAudio (resampled : List Nat) (volume : Int)
  /-- `time.Sleep`. -/
  | sleep (d : Int)
  /-- `Resampler.Free` of the stream with the given handle. -/
  | freeStream (stream : Nat)
  /-- `sdl.CloseAudioDevice`. -/
  | closeAudioDevice (device : Nat)
  /-- `sdl.OpenAudioDevice` with the device name requested (empty for the
  platform default). -/
  | openAudioDevice (name : String)
  /-- `sdl.NewAudioStream` towards the given format, channel count and rate. -/
  | newAudioStream (format : Nat) (channels : Nat) (freq : Int)
  /-- `sdl.PauseAudioDevice(device, false)`. -/
  | pauseAudioDevice (device : Nat)
  deriving DecidableEq, Repr

/-- The result of running a method: the state it leaves, the outside calls it
made, and whether it stopped in a run-time panic. -/
structure Outcome (σ : Type) where
  state : σ
  trace : List Effect
  panicked : Bool

def Gambatte.IsReady (gambatte : Gambatte) : Bool :=
  gambatte.RomLoaded && gambatte.BiosLoaded

/-- What one call of `C.gambatte_runfor` does: its return value, the 32-bit
count it stores through the `samples` pointer, and the buffers it fills. -/
structure CoreRun where
  offset : Int
  samples : Nat
  video : Nat → Nat
  audio : Nat → Nat

/-- The Go `int` `v` after a C `unsigned` store of `w` through a pointer to it
(the low 32 bits are replaced, little-endian 64-bit `int`). -/
def storeLowWord (v : Int) (w : Nat) : Int :=
  let u : Int := v % 2 ^ 64
  let u1 : Int := (u / 2 ^ 32) * 2 ^ 32 + (w % 2 ^ 32 : Nat)
  if u1 < 2 ^ 63 then u1 else u1 - 2 ^ 64

/-- `math.MinInt64`. -/
def MinInt64 : Int := -9223372036854775808

/-- `math.MaxInt64`. -/
def MaxInt64 : Int := 9223372036854775807

/-- Whether an integer is a value of Go's `int` (64 bits). -/
def isInt (x : Int) : Bool := decide (MinInt64 ≤ x ∧ x ≤ MaxInt64)

/-- The `int` holding the low 64 bits of `x`, two's complement. -/
def wrapInt (x : Int) : Int := (x + 2 ^ 63) % 2 ^ 64 - 2 ^ 63

/-- Go's `a - b` (and `a -= b`) on `int`: the difference of two `int` values,
wrapped to 64 bits when it is not representable. Integers that are not `int`
values do not arise in Go; for them the difference is kept as it is. -/
def subInt (a b : Int) : Int :=
  if isInt a ∧ isInt b then wrapInt (a - b) else a - b

def Gambatte.HandleFade (gambatte : Gambatte) (samplesElapsed : Int) :
    Gambatte × List Effect :=
  let gambatte :=
    { gambatte with FadeSamplesLeft := subInt gambatte.FadeSamplesLeft samplesElapsed }
  if gambatte.FadeSamplesLeft ≤ 0 then
    let gambatte := { gambatte with FadeSamplesLeft := 0 }
    ({ gambatte with StallSamplesLeft := SamplesToStallFor, ResetStage := .Stalling },
      [.coreReset SamplesToStallFor])
  else (gambatte, [])

def Gambatte.HandleStalling (gambatte : Gambatte) (samplesElapsed : Int) : Gambatte :=
  let gambatte :=
    { gambatte with StallSamplesLeft := subInt gambatte.StallSamplesLeft samplesElapsed }
  if gambatte.StallSamplesLeft ≤ 0 then
    { gambatte with StallSamplesLeft := 0, ResetStage := .ResetDone }
  else gambatte

def Gambatte.HandleReset (gambatte : Gambatte) (samplesElapsed : Int) :
    Gambatte × List Effect :=
  if gambatte.ResetStage = .ResetDone then
    ({ gambatte with ResetStage := .NotResetting }, [])
  else if gambatte.ResetStage = .FadeToBlack then
    gambatte.HandleFade samplesElapsed
  else if gambatte.ResetStage = .Stalling then
    (gambatte.HandleStalling samplesElapsed, [])
  else (gambatte, [])

/-- `AdvanceFrame`: the new state, the returned `samplesElapsed`, the calls
into the core. -/
def Gambatte.AdvanceFrame (gambatte : Gambatte) (core : CoreRun) :
    Gambatte × Int × List Effect :=
  let samples : Int := GbSamplesPerFrame - gambatte.FrameOverflow
  let gambatte := { gambatte with VideoBuffer := core.video, AudioBuffer := core.audio }
  let samplesElapsed := storeLowWord samples core.samples
  let gambatte := { gambatte with FrameOverflow := gambatte.FrameOverflow + samplesElapsed }
  let gambatte :=
    if core.offset ≥ 0 ∨ gambatte.FrameOverflow ≥ GbSamplesPerFrame then
      { gambatte with FrameOverflow := 0 }
    else gambatte
  let (gambatte, resetCalls) := gambatte.HandleReset samplesElapsed
  (gambatte, samplesElapsed, .runFor samples :: resetCalls)

/-- `Gambatte.Reset`; `r` is the answer of `rand.Intn(GbSamplesPerFrame)`. -/
def Gambatte.Reset (gambatte : Gambatte) (r : Int) : Gambatte :=
  let samples := SamplesToFadeFor + r
  { gambatte with
    ResetStage := .FadeToBlack
    FadeSamplesTotal := samples
    FadeSamplesLeft := samples }

/-! ## audio.go -/

/-- `SystemDefaultAudioDevice`. -/
def SystemDefaultAudioDevice : String := "[System Default]"

/-- `GbSamplesPerSecond`. -/
def GbSamplesPerSecond : Int := 2097152

/-- The fields of `sdl.AudioSpec` the program reads. -/
structure AudioSpec where
  Freq : Int
  Format : Nat
  Channels : Nat
  deriving DecidableEq, Repr

/-- The Go struct `Audio`; `Resampler` is the handle of the SDL audio stream,
`none` for a nil pointer. -/
structure Audio where
  Device : Nat
  Spec : AudioSpec
  Resampler : Option Nat
  AvailableDevices : List String
  OpenedDeviceName : String
  Volume : Int
  deriving DecidableEq, Repr

/-- The answers of SDL during one `OpenDevice`: the device id and the spec
obtained from `sdl.OpenAudioDevice`, and the stream from `sdl.NewAudioStream`;
`none` for an error. -/
structure OpenAnswer where
  device : Option (Nat × AudioSpec)
  stream : Option Nat

/-- `Audio.CloseCurrentDevice` on a non-nil resampler: the outside calls. -/
def closeCurrentDeviceCalls (audio : Audio) (stream : Nat) : List Effect :=
  [.freeStream stream, .closeAudioDevice audio.Device]

/-- The device name `OpenDevice` passes to `sdl.OpenAudioDevice`. -/
def obtainedDeviceName (audio : Audio) (desiredDeviceName : String) : String :=
  let obtainedDeviceName := ""
  if desiredDeviceName ≠ SystemDefaultAudioDevice ∧
      desiredDeviceName ∈ audio.AvailableDevices then
    desiredDeviceName
  else obtainedDeviceName

/-- The result of `Audio.OpenDevice`: the state it leaves, the outside calls it
made, and whether the error it returns is non-nil. -/
structure OpenResult where
  state : Audio
  trace : List Effect
  failed : Bool

/-- `Audio.OpenDevice`. -/
def Audio.OpenDevice (audio : Audio) (desiredDeviceName : String) (sdl : OpenAnswer) :
    OpenResult :=
  let closing : List Effect :=
    match audio.Resampler with
    | some stream => closeCurrentDeviceCalls audio stream
    | none => []
  let obtained := obtainedDeviceName audio desiredDeviceName
  match sdl.device with
  | none => { state := audio, trace := closing ++ [.openAudioDevice obtained], failed := true }
  | some (device, obtainedSpec) =>
    match sdl.stream with
    | none =>
      { state := audio
        trace := closing ++ [.openAudioDevice obtained,
          .newAudioStream obtainedSpec.Format obtainedSpec.Channels obtainedSpec.Freq]
        failed := true }
    | some resampler =>
      let openedDeviceName := obtained
      let openedDeviceName :=
        if openedDeviceName = "" then SystemDefaultAudioDevice else openedDeviceName
      { state := { audio with
          Device := device
          Resampler := some resampler
          Spec := obtainedSpec
          OpenedDeviceName := openedDeviceName }
        trace := closing ++ [.openAudioDevice obtained,
          .newAudioStream obtainedSpec.Format obtainedSpec.Channels obtainedSpec.Freq,
          .pauseAudioDevice device]
        failed := false }

/-- The answers of the SDL audio stream during one `QueueSamples`. -/
structure ResamplerAnswer where
  putOk : Bool
  available : Int
  get : Option (List Nat)

/-- `Audio.QueueSamples`: the outside calls made and whether an error is
returned. -/
def Audio.QueueSamples (audio : Audio) (samples : List Nat) (r : ResamplerAnswer) :
    List Effect × Bool :=
  if !r.putOk then ([.resamplerPut samples], true)
  else if r.available > 0 then
    match r.get with
    | none => ([.resamplerPut samples, .resamplerGet r.available], true)
    | some resampled =>
      ([.resamplerPut samples, .resamplerGet r.available,
        .queueAudio resampled audio.Volume], false)
  else ([.resamplerPut samples], false)

/-! ## gambatte_driver.go -/

structure GambatteDriver where
  Gambatte : Gambatte
  Audio : Audio
  InputManager : InputManager
  BufferSize : Int

/-- One iteration of the loop of `UpdateJoypad`,
`CurrentInputs |= 1 << uint(input)` when the input is held. -/
def joypadStep (isDown : InputId → Bool) (currentInputs : Int) (input : InputId) : Int :=
  if isDown input then Int.lor currentInputs ((1 <<< input.toNat : Nat) : Int) else currentInputs

def GambatteDriver.UpdateJoypad (driver : GambatteDriver) : GambatteDriver :=
  let gambatte := { driver.Gambatte with CurrentInputs := 0 }
  { driver with
    Gambatte := { gambatte with
      CurrentInputs :=
        joypadInputs.foldl (joypadStep driver.InputManager.IsDown) gambatte.CurrentInputs } }

/-- The slice expression `AudioBuffer[:n]`; `none` when out of range. -/
def audioSlice (buffer : Nat → Nat) (n : Int) : Option (List Nat) :=
  if 0 ≤ n ∧ n ≤ AudioBufferLen then some ((List.range n.toNat).map buffer) else none

def GambatteDriver.PlayAudio (driver : GambatteDriver) (samplesToPlay : Int)
    (r : ResamplerAnswer) : Outcome GambatteDriver :=
  let bytesToPlay := samplesToPlay * GbSampleSize
  match audioSlice driver.Gambatte.AudioBuffer bytesToPlay with
  | none => { state := driver, trace := [], panicked := true }
  | some samples =>
    { state := driver, trace := (driver.Audio.QueueSamples samples r).1, panicked := false }

/-- The answers from outside during one `UpdateEmulator`: the value of
`Audio.GetQueuedDuration()` in nanoseconds, the core, the resampler. -/
structure DriverEnv where
  queuedDuration : Int
  core : CoreRun
  resampler : ResamplerAnswer

def GambatteDriver.UpdateEmulator (driver : GambatteDriver) (env : DriverEnv) :
    Outcome GambatteDriver :=
  if env.queuedDuration < driver.BufferSize then
    let driver := driver.UpdateJoypad
    let (gambatte, samplesToPlay, coreCalls) := driver.Gambatte.AdvanceFrame env.core
    let driver := { driver with Gambatte := gambatte }
    let played := driver.PlayAudio samplesToPlay env.resampler
    { played with trace := coreCalls ++ played.trace }
  else
    { state := driver, trace := [.sleep (driver.BufferSize.tdiv 4)], panicked := false }

/-! ## settings.go -/

/-- `time.Millisecond` in nanoseconds. -/
def Millisecond : Int := 1000000

/-- `DefaultSettings().BufferSize`. -/
def DefaultBufferSize : Int := 68 * Millisecond

/-- `DefaultSettings().Inputs`. -/
def DefaultInputs : InputArray
  | .A => some (NewKeyInput K_z KMOD_NONE)
  | .B => some (NewKeyInput K_x KMOD_NONE)
  | .Select => some (NewKeyInput K_BACKSPACE KMOD_NONE)
  | .Start => some (NewKeyInput K_RETURN KMOD_NONE)
  | .Right => some (NewKeyInput K_RIGHT KMOD_NONE)
  | .Left => some (NewKeyInput K_LEFT KMOD_NONE)
  | .Up => some (NewKeyInput K_UP KMOD_NONE)
  | .Down => some (NewKeyInput K_DOWN KMOD_NONE)
  | .Reset => some (NewKeyInput K_r KMOD_NONE)
  | .SaveState => some (NewKeyInput K_F1 KMOD_NONE)
  | .LoadState => some (NewKeyInput K_F2 KMOD_NONE)
  | .PreviousStateSlot => some (NewKeyInput K_F3 KMOD_NONE)
  | .NextStateSlot => some (NewKeyInput K_F4 KMOD_NONE)

/-! ## gambatte_source.go -/

/-- A Go `[]byte`: the `len` visible bytes and the cells of the backing array
between `len` and `cap`. -/
structure GoSlice where
  data : List Nat
  spare : List Nat
  deriving DecidableEq, Repr

/-- The nil slice. -/
def GoSlice.nil : GoSlice := { data := [], spare := [] }

/-- Go `len(s)`. -/
def GoSlice.len (s : GoSlice) : Nat := s.data.length

/-- Go `cap(s)`. -/
def GoSlice.cap (s : GoSlice) : Nat := s.data.length + s.spare.length

/-- The index expression `s[i]`, a byte; `none` is the index-out-of-range
panic. -/
def GoSlice.index (s : GoSlice) (i : Nat) : Option Nat :=
  match s.data[i]? with
  | some b => some (b % 256)
  | none => none

/-- The slice expression `s[lo:hi]`; `none` is the slice-bounds panic, raised
unless `lo <= hi <= cap(s)`. -/
def GoSlice.slice (s : GoSlice) (lo hi : Nat) : Option GoSlice :=
  if lo ≤ hi ∧ hi ≤ s.cap then
    some { data := ((s.data ++ s.spare).drop lo).take (hi - lo)
           spare := (s.data ++ s.spare).drop hi }
  else none

structure ElementTimer where
  DisappearTime : Int
  deriving DecidableEq, Repr

/-- `time.Second` in nanoseconds. -/
def Second : Int := 1000000000

/-- `ElementTimer.Start`; `now` is the answer of `time.Now()`. -/
def ElementTimer.Start (_et : ElementTimer) (now : Int) (duration : Int) : ElementTimer :=
  { DisappearTime := now + duration }

structure TextElement where
  Text : String
  Timer : ElementTimer
  deriving DecidableEq, Repr

def TextElement.Show (te : TextElement) (now : Int) (text : String) : TextElement :=
  { te with Text := text, Timer := te.Timer.Start now (4 * Second) }

structure StateElement where
  Slot : Int
  State : GoSlice
  Snapshot : GoSlice
  ValidState : Bool
  Timer : ElementTimer
  RomDirectory : String
  RomFileName : String
  deriving DecidableEq, Repr

/-- A method that ran to its end, or stopped in a run-time panic; either way
with the state it had reached. -/
inductive Exec (σ : Type) where
  | done (s : σ)
  | panic (s : σ)
  deriving DecidableEq, Repr

/-- The state reached, finished or not. -/
def Exec.state {σ : Type} : Exec σ → σ
  | .done s => s
  | .panic s => s

/-- Whether the method stopped in a panic. -/
def Exec.panicked {σ : Type} : Exec σ → Bool
  | .done _ => false
  | .panic _ => true

/-- `StateElement.UpdateState`; `read` is the answer of
`os.ReadFile(se.StatePath())`, `none` for an error. -/
def StateElement.UpdateState (se : StateElement) (read : Option GoSlice) :
    Exec StateElement :=
  let se := { se with ValidState := false }
  match read with
  | none => .done se
  | some gqs =>
    match gqs.index 0 with
    | none => .panic se
    | some signature =>
    match gqs.index 1 with
    | none => .panic se
    | some version =>
    if signature != 0xff || version != 0x02 then .done se
    else
      let se := { se with ValidState := true, State := gqs }
      match gqs.index 3, gqs.index 4, gqs.index 5 with
      | some b3, some b4, some b5 =>
        let snapshotSize := b3 <<< 16 ||| b4 <<< 8 ||| b5
        match gqs.slice 6 (6 + snapshotSize) with
        | none => .panic se
        | some snapshot => .done { se with Snapshot := snapshot }
      | _, _, _ => .panic se

def StateElement.Show (se : StateElement) (now : Int) : StateElement :=
  { se with Timer := se.Timer.Start now (4 * Second) }

/-- `StateElement.Advance`; a panic of `UpdateState` ends it before `Show`. -/
def StateElement.Advance (se : StateElement) (amount : Int) (read : Option GoSlice)
    (now : Int) : Exec StateElement :=
  let minSlot : Int := 1
  let maxSlot : Int := 100
  let se := { se with Slot := se.Slot + amount }
  let se :=
    if se.Slot < minSlot then { se with Slot := maxSlot }
    else if se.Slot > maxSlot then { se with Slot := minSlot }
    else se
  match se.UpdateState read with
  | .panic se => .panic se
  | .done se => .done (se.Show now)

/-- The part of `GambatteSource` that `ProcessInputs` reads and writes. -/
structure GambatteSource where
  Gambatte : Gambatte
  InputManager : InputManager
  SetupText : String
  TextElement : TextElement
  StateElement : StateElement

/-- The answers from outside during one `ProcessInputs`, one per call site:
the two `os.ReadFile` of the slot changes, the size reported by
`C.gambatte_savestate` and whether `os.WriteFile` succeeds, the
`os.ReadFile` of `LoadState` and whether `C.gambatte_loadstate` succeeds,
`rand.Intn(GbSamplesPerFrame)`, and the clock. -/
structure SourceEnv where
  readPrevious : Option GoSlice
  readNext : Option GoSlice
  saveSize : Int
  saveWritten : Bool
  loadRead : Option GoSlice
  loadAccepted : Bool
  randIntn : Int
  now : Int

/-- `Gambatte.SaveState` as seen by its caller: `none` is the panic of
`&stateBuffer[0]` on an empty buffer (or of `make` on a negative size),
otherwise whether the returned error is nil. -/
def saveStateResult (env : SourceEnv) : Option Bool :=
  if env.saveSize ≤ 0 then none else some env.saveWritten

/-- `Gambatte.LoadState` as seen by its caller: `none` is the panic of
`&stateBuffer[0]` on an empty file, otherwise whether the returned error is
nil. -/
def loadStateResult (env : SourceEnv) : Option Bool :=
  match env.loadRead with
  | none => some false
  | some buf => if buf.len = 0 then none else some env.loadAccepted

/-- `fmt.Sprintf` with one `%d`. -/
def sprintfInt (before : String) (n : Int) (after : String) : String :=
  before ++ toString n ++ after

/-- The body of `if src.Gambatte.ResetStage == NotResetting` in
`ProcessInputs`. -/
def GambatteSource.processWhenNotResetting (src : GambatteSource) (env : SourceEnv) :
    Exec GambatteSource :=
  -- PreviousStateSlot
  let step1 : Exec GambatteSource :=
    if src.InputManager.IsPressed .PreviousStateSlot then
      match src.StateElement.Advance (-1) env.readPrevious env.now with
      | .panic se => .panic { src with StateElement := se }
      | .done se =>
        .done { src with
          StateElement := se
          TextElement := src.TextElement.Show env.now (sprintfInt "State " se.Slot "") }
    else .done src
  match step1 with
  | .panic src => .panic src
  | .done src =>
  -- NextStateSlot
  let step2 : Exec GambatteSource :=
    if src.InputManager.IsPressed .NextStateSlot then
      match src.StateElement.Advance 1 env.readNext env.now with
      | .panic se => .panic { src with StateElement := se }
      | .done se =>
        .done { src with
          StateElement := se
          TextElement := src.TextElement.Show env.now (sprintfInt "State " se.Slot "") }
    else .done src
  match step2 with
  | .panic src => .panic src
  | .done src =>
  -- SaveState
  let step3 : Exec GambatteSource :=
    if src.InputManager.IsPressed .SaveState then
      match saveStateResult env with
      | none => .panic src
      | some true =>
        .done { src with
          TextElement := src.TextElement.Show env.now
            (sprintfInt "State " src.StateElement.Slot " saved") }
      | some false =>
        .done { src with TextElement := src.TextElement.Show env.now "Failure" }
    else .done src
  match step3 with
  | .panic src => .panic src
  | .done src =>
  -- LoadState
  let step4 : Exec GambatteSource :=
    if src.InputManager.IsPressed .LoadState then
      match loadStateResult env with
      | none => .panic src
      | some true =>
        .done { src with
          TextElement := src.TextElement.Show env.now
            (sprintfInt "State " src.StateElement.Slot " loaded") }
      | some false =>
        .done { src with TextElement := src.TextElement.Show env.now "Failure" }
    else .done src
  match step4 with
  | .panic src => .panic src
  | .done src =>
  -- Reset
  if src.InputManager.IsPressed .Reset then
    .done { src with Gambatte := src.Gambatte.Reset env.randIntn }
  else .done src

def GambatteSource.ProcessInputs (src : GambatteSource) (env : SourceEnv) :
    Exec GambatteSource :=
  if src.Gambatte.ResetStage = .NotResetting then src.processWhenNotResetting env
  else .done src

/-- The string constant indexed by `DrawCrc`. -/
def hexAlphabet : List Char := "0123456789ABCDEF".toList

/-- The value `checksumPart` of round `i` of the loop of `DrawCrc`, for the
`uint32` checksum `crc`. -/
def checksumPart (crc : Nat) (i : Nat) : Nat :=
  (crc >>> (28 - i * 4)) &&& 0xf

/-- The loop of `DrawCrc` over the rounds listed, appending to the builder
`checksum`; `none` is the index panic of the string constant. -/
def checksumLoop (crc : Nat) : List Nat → List Char → Option (List Char)
  | [], checksum => some checksum
  | i :: rest, checksum =>
    match hexAlphabet.get? (checksumPart crc i) with
    | none => none
    | some c => checksumLoop crc rest (checksum ++ [c])

/-- The content of the builder `checksum` after the loop of `DrawCrc`. -/
def crcChecksum (crc : Nat) : Option (List Char) :=
  checksumLoop crc (List.range 8) []

/-- `GambatteSource.DrawCrc`; `revision` is the answer of
`GambatteRevision()` and `now` that of `time.Now()`. -/
def GambatteSource.DrawCrc (src : GambatteSource) (revision : Int) (now : Int) :
    Exec GambatteSource :=
  match crcChecksum src.Gambatte.Cartridge.Crc32 with
  | none => .panic src
  | some checksum =>
    .done { src with
      TextElement := src.TextElement.Show now
        ("Reset r" ++ toString revision ++ " " ++ String.mk checksum) }

/-! ## texture.go -/

/-- The fields of `image.NRGBA` used by the pixel copy: the bytes of `Pix`,
the length of `Pix`, and `Stride`. -/
structure NRGBA where
  Pix : Nat → Nat
  PixLen : Nat
  Stride : Int

/-- `image.NewNRGBA(image.Rect(0, 0, width, height))`. -/
def NewNRGBA (width height : Int) : NRGBA :=
  { Pix := fun _ => 0, PixLen := (4 * width * height).toNat, Stride := 4 * width }

/-- The image of a `Backbuffer`. -/
structure Backbuffer where
  Image : NRGBA

/-- `NewBackbuffer`; `created` tells whether `CreateTexture` succeeded, and
`none` is the panic raised when it did not. -/
def NewBackbuffer (created : Bool) (width height : Int) : Option Backbuffer :=
  if created then some { Image := NewNRGBA width height } else none

/-- The index expression `pixels[i]` with an `int` index. -/
def byteAt (pixels : GoSlice) (i : Int) : Option Nat :=
  if 0 ≤ i then pixels.index i.toNat else none

/-- The assignment `Pix[i] = v`; `none` is the index-out-of-range panic. -/
def NRGBA.setPix (img : NRGBA) (i : Int) (v : Nat) : Option NRGBA :=
  if 0 ≤ i ∧ i < img.PixLen then
    some { img with Pix := Function.update img.Pix i.toNat v }
  else none

/-- The body of the inner loop of `CopyPixelsRGBANative`. -/
def copyPixel (img : NRGBA) (pixels : GoSlice) (src dest : Int) : Option NRGBA :=
  match byteAt pixels (src + 2) with
  | none => none
  | some b2 =>
  match img.setPix (dest + 0) b2 with
  | none => none
  | some img =>
  match byteAt pixels (src + 1) with
  | none => none
  | some b1 =>
  match img.setPix (dest + 1) b1 with
  | none => none
  | some img =>
  match byteAt pixels (src + 0) with
  | none => none
  | some b0 =>
  match img.setPix (dest + 2) b0 with
  | none => none
  | some img =>
  match byteAt pixels (src + 3) with
  | none => none
  | some b3 => img.setPix (dest + 3) b3

/-- The inner loop of `CopyPixelsRGBANative` with the given number of rounds
left. -/
def copyRow (pixels : GoSlice) : Nat → NRGBA → Int → Int → Option NRGBA
  | 0, img, _, _ => some img
  | n + 1, img, src, dest =>
    match copyPixel img pixels src dest with
    | none => none
    | some img1 => copyRow pixels n img1 (src + 4) (dest + 4)

/-- The outer loop of `CopyPixelsRGBANative` with the given number of rounds
left. -/
def copyRows (pixels : GoSlice) (width : Int) : Nat → NRGBA → Int → Int → Option NRGBA
  | 0, img, _, _ => some img
  | n + 1, img, srcRow, destRow =>
    match copyRow pixels width.toNat img srcRow destRow with
    | none => none
    | some img1 => copyRows pixels width n img1 (srcRow + width * 4) (destRow + img1.Stride)

/-- `Backbuffer.CopyPixelsRGBANative`; `none` is an index-out-of-range
panic. -/
def Backbuffer.CopyPixelsRGBANative (backbuffer : Backbuffer) (pixels : GoSlice)
    (destX destY width height : Int) : Option Backbuffer :=
  let srcRow : Int := 0
  let destRow := destX * 4 + destY * backbuffer.Image.Stride
  match copyRows pixels width height.toNat backbuffer.Image srcRow destRow with
  | none => none
  | some img => some { backbuffer with Image := img }

/-- `ElementTimer.ShouldShow`; `now` is the answer of `time.Now()`. -/
def ElementTimer.ShouldShow (et : ElementTimer) (now : Int) : Bool :=
  decide (et.DisappearTime > now)

/-- `StateElement.Draw`; `drawEmpty` stands for the `FillRect` and
`DrawTextCentered` calls of an empty slot, which go through the clipping
drawing routines of the image library. -/
def StateElement.Draw (se : StateElement) (target : Backbuffer) (now : Int)
    (drawEmpty : Backbuffer → Int → Int → Int → Int → Backbuffer) : Option Backbuffer :=
  if !se.Timer.ShouldShow now then some target
  else
    let gridSize : Int := 10
    let margin : Int := 10
    let offsetX : Int := 11
    let offsetY : Int := 6
    let width := GbVideoWidth >>> 2
    let height := GbVideoHeight >>> 2
    let slot := se.Slot - 1
    let x := (slot.tmod gridSize) * offsetX + margin
    let y := (slot.tdiv gridSize) * offsetY + margin
    if se.ValidState then target.CopyPixelsRGBANative se.Snapshot x y width height
    else some (drawEmpty target x y width height)

/-! ## gambatte_source.go: the path of a state file -/

/-- `strings.IndexRune(s, r)`: the position of the first `r` in `s`, or -1.
Positions are counted in characters here and in `stringPrefix`; for the
one-byte rune `.` this gives the same prefix as the byte positions of Go. -/
def IndexRune (s : String) (r : Char) : Int :=
  if s.toList.indexOf r < s.toList.length then (s.toList.indexOf r : Int) else -1

/-- The slice expression `s[:hi]` on a string; `none` is the slice-bounds
panic, raised unless `0 <= hi <= len(s)`. -/
def stringPrefix (s : String) (hi : Int) : Option String :=
  if 0 ≤ hi ∧ hi ≤ s.toList.length then some (String.mk (s.toList.take hi.toNat)) else none

/-- `StateElement.UpdatePath`; `dir` and `base` are the answers of
`filepath.Dir(romPath)` and `filepath.Base(romPath)`, and `read` that of the
`os.ReadFile` in `UpdateState`. -/
def StateElement.UpdatePath (se : StateElement) (dir base : String)
    (read : Option GoSlice) : Exec StateElement :=
  let se := { se with RomDirectory := dir }
  let se := { se with RomFileName := base }
  match stringPrefix se.RomFileName (IndexRune se.RomFileName '.') with
  | none => .panic se
  | some name => ({ se with RomFileName := name }).UpdateState read

/-- `StateElement.StatePath`; `join` stands for `filepath.Join`. -/
def StateElement.StatePath (se : StateElement) (join : String → String → String) : String :=
  join se.RomDirectory (se.RomFileName ++ "_" ++ toString se.Slot ++ ".gqs")

/-! ## Events: input.go and window_manager.go -/

/-- SDL's `WINDOWEVENT_CLOSE`. -/
def WINDOWEVENT_CLOSE : Nat := 14

/-- `math.MinInt16`. -/
def MinInt16 : Int := -32768

/-- The `sdl.Event` values the program tells apart: a key with its key code
and whether `State == sdl.PRESSED`, a joystick button likewise, a joystick
axis with its `int16` value, a window event with its window id and kind, the
quit event, and every other event. -/
inductive Event where
  | keyboard (sym : Int) (pressed : Bool)
  | joyButton (button : Nat) (pressed : Bool)
  | joyAxis (axis : Nat) (value : Int)
  | window (windowId : Nat) (event : Nat)
  | quit
  | other
  deriving DecidableEq, Repr

/-- The test `event.GetType() == sdl.QUIT`. -/
def Event.isQuit : Event → Bool
  | .quit => true
  | _ => false

/-- `InputManager.ProcessEvent`; `axisInitialState` is the answer of
`OpenedJoystick.AxisInitialState`, `none` when it reports not ok. -/
def InputManager.ProcessEvent (manager : InputManager) (event : Event)
    (axisInitialState : Option Int) : InputManager :=
  match event with
  | .keyboard sym pressed =>
    { manager with Keyboard := mapSet manager.Keyboard sym pressed }
  | .joyButton button pressed =>
    { manager with JoyButtons := mapSet manager.JoyButtons button pressed }
  | .joyAxis axis value =>
    if axisInitialState = some MinInt16 then
      let threshold : Int := 0
      { manager with
        JoyAxes := mapSet manager.JoyAxes axis
          { Positive := decide (value > threshold), Negative := false } }
    else
      let threshold : Int := 8000
      { manager with
        JoyAxes := mapSet manager.JoyAxes axis
          { Positive := decide (value > threshold), Negative := decide (value < -threshold) } }
  | _ => manager

/-- The SDL window of a `GuiWindow`: its id and whether it is shown. -/
structure GuiWindow where
  Id : Nat
  Visible : Bool
  deriving DecidableEq, Repr

structure WindowManager where
  MainWindow : GuiWindow
  OptionalWindows : List GuiWindow
  deriving DecidableEq, Repr

/-- `window.SetVisible(false)` for the window with the given id. -/
def hideIfId (windowId : Nat) (window : GuiWindow) : GuiWindow :=
  if windowId = window.Id then { window with Visible := false } else window

/-- `WindowManager.DispatchEventToAllGuiWindows`: the manager afterwards and
the value returned. What the user-interface library does with the event is
not part of the state kept here. -/
def WindowManager.DispatchEventToAllGuiWindows (manager : WindowManager) (event : Event) :
    WindowManager × Bool :=
  match event with
  | .window windowId e =>
    if e = WINDOWEVENT_CLOSE then
      if windowId = manager.MainWindow.Id then (manager, false)
      else
        ({ MainWindow := hideIfId windowId manager.MainWindow
           OptionalWindows := manager.OptionalWindows.map (hideIfId windowId) }, true)
    else (manager, true)
  | _ => (manager, true)

/-! ## application.go -/

/-- The Go struct `Application`: the events waiting in `EventChannel`
(oldest first), the window manager, the driver with the input manager, the
audio pipeline and the core it points to, and
`MainWindow.PopupOpenLastFrame`. -/
structure Application where
  EventChannel : List Event
  WindowManager : WindowManager
  GambatteDriver : GambatteDriver
  PopupOpenLastFrame : Bool

/-- `Application.Draw`; `drawAllGuiWindows` stands for
`WindowManager.DrawAllGuiWindows`, which runs the user interface. -/
def Application.Draw (app : Application) (env : DriverEnv)
    (drawAllGuiWindows : Application → Outcome Application) : Outcome Application :=
  let emulated : Outcome Application :=
    if !app.PopupOpenLastFrame then
      let r := app.GambatteDriver.UpdateEmulator env
      { state := { app with GambatteDriver := r.state }, trace := r.trace,
        panicked := r.panicked }
    else { state := app, trace := [], panicked := false }
  if emulated.panicked then emulated
  else
    let drawn := drawAllGuiWindows emulated.state
    { drawn with trace := emulated.trace ++ drawn.trace }

/-- The answers from outside during one `Application.Update`. -/
structure UpdateEnv where
  axisInitialState : Option Int
  modState : Nat
  driver : DriverEnv
  drawAllGuiWindows : Application → Outcome Application

/-- `Application.Update`: the outcome and the value of `keepRunning`
returned. The `select` takes the oldest waiting event when there is one and
its `default` branch otherwise. -/
def Application.Update (app : Application) (env : UpdateEnv) : Outcome Application × Bool :=
  let keepRunning := true
  match app.EventChannel with
  | event :: rest =>
    let manager := app.GambatteDriver.InputManager.ProcessEvent event env.axisInitialState
    let (windowManager, dispatched) :=
      app.WindowManager.DispatchEventToAllGuiWindows event
    let keepRunning := dispatched
    let keepRunning := if event.isQuit then false else keepRunning
    ({ state := { app with
          EventChannel := rest
          WindowManager := windowManager
          GambatteDriver := { app.GambatteDriver with InputManager := manager } }
       trace := [], panicked := false }, keepRunning)
  | [] =>
    match app.GambatteDriver.InputManager.Update env.modState with
    | none => ({ state := app, trace := [], panicked := true }, keepRunning)
    | some manager =>
      let app := { app with GambatteDriver := { app.GambatteDriver with InputManager := manager } }
      (app.Draw env.driver env.drawAllGuiWindows, keepRunning)

/-! ## Start-up: settings.go, audio.go, application.go and main.go -/

/-- The fields of `Settings` that `NewApplication` hands to the input
manager, the audio pipeline and the driver. -/
structure Settings where
  AudioDeviceName : String
  Volume : Int
  Inputs : InputArray
  JoystickName : String
  BufferSize : Int

/-- `DefaultSettings`. -/
def DefaultSettings : Settings :=
  { AudioDeviceName := SystemDefaultAudioDevice
    Volume := 1
    Inputs := DefaultInputs
    JoystickName := ""
    BufferSize := 68 * Millisecond }

/-- `Audio.QueryDevices`; `names` is what SDL enumerates. -/
def Audio.QueryDevices (audio : Audio) (names : List String) : Audio :=
  { audio with AvailableDevices := names }

/-- `NewAudio`: the `Audio` returned, the outside calls, and whether the
error returned with it is non-nil. -/
def NewAudio (deviceName : String) (volume : Int) (names : List String)
    (sdl : OpenAnswer) : OpenResult :=
  let audio : Audio :=
    { Device := 0, Spec := { Freq := 0, Format := 0, Channels := 0 }, Resampler := none,
      AvailableDevices := [], OpenedDeviceName := "", Volume := volume }
  let audio := audio.QueryDevices names
  audio.OpenDevice deviceName sdl

/-- The answers from outside during `NewApplication`: the settings read by
`SettingsFromFile`, the joysticks and audio devices SDL enumerates, the
answers to `OpenDevice`, the id of the window each `NewWindow` creates
(`none` for an error), and whether `NewMainWindow` and `NewInputDisplay`
return without an error. -/
structure StartAnswers where
  settings : Settings
  joysticks : List String
  audioDevices : List String
  openAudio : OpenAnswer
  mainWindowWindow : Option Nat
  mainWindow : Bool
  inputDisplayWindow : Option Nat
  inputDisplay : Bool

/-- `NewApplication`; `none` is the result `nil, err`. Windows are created
hidden; `SetMainWindow` shows the main window and `AddOptionalWindow` appends
the input display to the empty list of `NewWindowManager`. -/
def NewApplication (eventChannel : List Event) (sdl : StartAnswers) : Option Application :=
  let settings := sdl.settings
  let inputManager := NewInputManager settings.Inputs settings.JoystickName sdl.joysticks
  let opened := NewAudio settings.AudioDeviceName settings.Volume sdl.audioDevices sdl.openAudio
  if opened.failed then none
  else
    let audio := opened.state
    let gambatte := NewGambatte
    let gambatteDriver : GambatteDriver :=
      { Gambatte := gambatte, Audio := audio, InputManager := inputManager,
        BufferSize := settings.BufferSize }
    match sdl.mainWindowWindow with
    | none => none
    | some mainId =>
      if !sdl.mainWindow then none
      else
        match sdl.inputDisplayWindow with
        | none => none
        | some displayId =>
          if !sdl.inputDisplay then none
          else
            some
              { EventChannel := eventChannel
                WindowManager :=
                  { MainWindow := { Id := mainId, Visible := true }
                    OptionalWindows := [] ++ [{ Id := displayId, Visible := false }] }
                GambatteDriver := gambatteDriver
                PopupOpenLastFrame := false }

/-! ## settings_modal.go -/

/-- `SettingsModal.DrawAudioDevice` on the audio pipeline: `comboOpen` is the
answer of `imgui.BeginCombo`, `selected` that of `imgui.SelectableBoolV` for
each device listed, and `sdl` the answers of SDL when that device is opened.
The error `OpenDevice` returns is dropped. The result is the `Audio` left and
the outside calls made. -/
def SettingsModal.DrawAudioDevice (audio : Audio) (comboOpen : Bool)
    (selected : String → Bool) (sdl : String → OpenAnswer) : Audio × List Effect :=
  if comboOpen then
    let devices := [SystemDefaultAudioDevice] ++ audio.AvailableDevices
    devices.foldl
      (fun (acc : Audio × List Effect) deviceName =>
        if selected deviceName then
          let opened := acc.1.OpenDevice deviceName (sdl deviceName)
          (opened.state, acc.2 ++ opened.trace)
        else acc)
      (audio, [])
  else (audio, [])

/-! ## main.go -/

/-- How `main` reaches its loop: stopped by the `panic(err)` of
`unrecoverableError`, or running with the application it built. -/
inductive Start where
  | aborted
  | running (app : Application)

/-- Whether the process was stopped by `unrecoverableError`. -/
def Start.isAborted : Start → Bool
  | .aborted => true
  | .running _ => false

/-- `main` up to the start of its loop; `initOk` tells whether `sdl.Init`
succeeded. The event channel is created empty. -/
def main (initOk : Bool) (sdl : StartAnswers) : Start :=
  if !initOk then .aborted
  else
    let eventChannel : List Event := []
    match NewApplication eventChannel sdl with
    | none => .aborted
    | some app => .running app

/-! ## Auxiliary definitions and sample data -/

/-- `b.IsDown(manager)` for a built-in binding, false when the entry is nil
(the `if builtin != nil` of `Update`). -/
def builtinDown (b : Option Input) (manager : InputManager) : Bool :=
  match b with
  | some builtin => builtin.IsDown manager
  | none => false

/-- A manager as the application creates it: default bindings, no joystick. -/
def sampleManager : InputManager := NewInputManager DefaultInputs "" []

/-- Devices at rest. -/
def rawIdle : RawState :=
  { Keyboard := [], JoyButtons := [], JoyAxes := [], ModState := 0 }

/-- The key `z` (default binding of `A`) is down. -/
def rawZ : RawState :=
  { Keyboard := [(K_z, true)], JoyButtons := [], JoyAxes := [], ModState := 0 }

/-- Whether an outside call is `C.gambatte_runfor`. -/
def Effect.isRunFor : Effect → Bool
  | .runFor _ => true
  | _ => false

/-- Whether an outside call is `time.Sleep`. -/
def Effect.isSleep : Effect → Bool
  | .sleep _ => true
  | _ => false

/-- Whether an outside call feeds or reads the audio pipeline. -/
def Effect.isAudio : Effect → Bool
  | .resamplerPut _ => true
  | .resamplerGet _ => true
  | .queueAudio _ _ => true
  | _ => false

/-- The snapshot length a quicksave declares in its bytes 3..5, big-endian
(0 when the sequence has fewer than 6 bytes). -/
def declaredLength (g : GoSlice) : Nat :=
  match g.index 3, g.index 4, g.index 5 with
  | some b3, some b4, some b5 => b3 * 65536 + b4 * 256 + b5
  | _, _, _ => 0

/-- A slot element before any state was read. -/
def sampleStateElement : StateElement :=
  { Slot := 1, State := GoSlice.nil, Snapshot := GoSlice.nil, ValidState := false,
    Timer := { DisappearTime := 0 }, RomDirectory := "roms", RomFileName := "game" }

/-- The same element after a valid state was shown. -/
def sampleValidElement : StateElement :=
  { sampleStateElement with
    ValidState := true
    State := { data := [0xff, 0x02, 0, 0, 0, 1, 5], spare := [] }
    Snapshot := { data := [5], spare := [] } }

/-- A two-byte file holding only the signature and the version, as
`os.ReadFile` returns it (capacity 512). -/
def fileHeaderOnly : GoSlice :=
  { data := [0xff, 0x02], spare := List.replicate 510 0 }

/-- An empty file as `os.ReadFile` returns it. -/
def fileEmpty : GoSlice :=
  { data := [], spare := List.replicate 512 0 }

/-- A seven-byte file declaring a four-byte snapshot of which one byte is
present, as `os.ReadFile` returns it. -/
def fileTruncated : GoSlice :=
  { data := [0xff, 0x02, 0, 0, 0, 4, 9], spare := List.replicate 505 0 }

/-- A 600-byte file declaring a snapshot of `0x010000` bytes. -/
def fileTruncatedLong : GoSlice :=
  { data := [0xff, 0x02, 0, 1, 0, 0] ++ List.replicate 594 7, spare := [0] }

/-- A file with a wrong version byte. -/
def fileWrongVersion : GoSlice :=
  { data := [0xff, 0x01, 0, 0, 0, 1, 5], spare := [] }

/-- A well-formed file: a two-byte snapshot followed by core state. -/
def fileWellFormed : GoSlice :=
  { data := [0xff, 0x02, 7, 0, 0, 2, 10, 11, 12], spare := [0, 0] }

/-- The audio pipeline with the default device. -/
def sampleAudio : Audio :=
  { Device := 2, Spec := { Freq := 48000, Format := 0x8010, Channels := 2 },
    Resampler := some 1, AvailableDevices := [], OpenedDeviceName := "[System Default]",
    Volume := 1 }

/-- The driver as `NewApplication` builds it from the default settings: no ROM
and no BIOS loaded. -/
def startDriver : GambatteDriver :=
  { Gambatte := NewGambatte, Audio := sampleAudio, InputManager := sampleManager,
    BufferSize := DefaultBufferSize }

/-- The application right after start. -/
def startApplication : Application :=
  { EventChannel := []
    WindowManager :=
      { MainWindow := { Id := 1, Visible := true }
        OptionalWindows := [{ Id := 2, Visible := false }] }
    GambatteDriver := startDriver, PopupOpenLastFrame := false }

/-- A core that runs 2 samples without completing a frame. -/
def coreRunning : CoreRun :=
  { offset := -1, samples := 2, video := fun _ => 0, audio := fun _ => 0 }

/-- A resampler with nothing to hand out yet. -/
def resamplerEmpty : ResamplerAnswer :=
  { putOk := true, available := 0, get := none }

/-- An empty device queue. -/
def envQueueEmpty : DriverEnv :=
  { queuedDuration := 0, core := coreRunning, resampler := resamplerEmpty }

/-- A device queue holding 70 ms of audio. -/
def envQueueFull : DriverEnv :=
  { queuedDuration := 70 * Millisecond, core := coreRunning, resampler := resamplerEmpty }

/-- A user interface that draws and changes nothing. -/
def drawNothing (app : Application) : Outcome Application :=
  { state := app, trace := [], panicked := false }

/-- A source in the middle of a fade, with the Reset input just pressed. -/
def sampleFadingSource : GambatteSource :=
  { Gambatte := { NewGambatte with
      ResetStage := .FadeToBlack, FadeSamplesTotal := 1240000, FadeSamplesLeft := 600000 }
    InputManager := { sampleManager with
      IsDown := fun i => decide (i = .Reset), IsPressed := fun i => decide (i = .Reset) }
    SetupText := ""
    TextElement := { Text := "", Timer := { DisappearTime := 0 } }
    StateElement := sampleStateElement }

/-- Answers from outside for one `ProcessInputs`. -/
def sampleSourceEnv : SourceEnv :=
  { readPrevious := none, readNext := none, saveSize := 1, saveWritten := true,
    loadRead := none, loadAccepted := false, randIntn := 17, now := 0 }

/-- What the loop of `Update` has done after visiting the inputs of `l`. -/
structure LoopSpec (m m1 : InputManager) (l : List InputId) : Prop where
  inputs : m1.Inputs = m.Inputs
  builtins : m1.Builtins = m.Builtins
  previous : m1.DownPrevious = m.DownPrevious
  keyboard : m1.Keyboard = m.Keyboard
  modifiers : m1.Keymodifiers = m.Keymodifiers
  buttons : m1.JoyButtons = m.JoyButtons
  axes : m1.JoyAxes = m.JoyAxes
  down : ∀ i user, m.Inputs i = some user →
    m1.IsDown i =
      if i ∈ l then (user.IsDown m || builtinDown (m.Builtins i) m) else m.IsDown i
  pressed : ∀ i user, m.Inputs i = some user →
    m1.IsPressed i =
      if i ∈ l then ((user.IsDown m || builtinDown (m.Builtins i) m) && !m.DownPrevious i)
      else m.IsPressed i

/-! ### The reset state machine over time -/

/-- The state after `n` successive `HandleReset` calls fed the elapsed sample
counts `s 0`, ..., `s (n - 1)`. -/
def resetRun (g : Gambatte) (s : Nat → Int) : Nat → Gambatte
  | 0 => g
  | n + 1 => ((resetRun g s n).HandleReset (s n)).1

/-- The samples elapsed over the first `n` ticks, `s 0 + ... + s (n - 1)`. -/
def elapsedTotal (s : Nat → Int) : Nat → Int
  | 0 => 0
  | n + 1 => elapsedTotal s n + s n

/-- The states the reset fields can be in: from `NewGambatte`, by `Reset`
issued in stage `NotResetting` with a draw of `rand.Intn(GbSamplesPerFrame)`,
by `HandleReset` with a non-negative sample count, and by anything else the
program does, which leaves the four reset fields alone. -/
inductive Reachable : Gambatte → Prop where
  | init : Reachable NewGambatte
  | reset (g : Gambatte) (r : Int) : Reachable g → g.ResetStage = .NotResetting →
      0 ≤ r → r < GbSamplesPerFrame → Reachable (g.Reset r)
  | tick (g : Gambatte) (s : Int) : Reachable g → 0 ≤ s → Reachable (g.HandleReset s).1
  | other (g g1 : Gambatte) : Reachable g → g1.ResetStage = g.ResetStage →
      g1.FadeSamplesTotal = g.FadeSamplesTotal → g1.FadeSamplesLeft = g.FadeSamplesLeft →
      g1.StallSamplesLeft = g.StallSamplesLeft → Reachable g1

/-- The invariant of the reset countdowns. -/
structure ResetInvariant (g : Gambatte) : Prop where
  fade_nonneg : 0 ≤ g.FadeSamplesLeft
  stall_nonneg : 0 ≤ g.StallSamplesLeft
  fade_done : g.ResetStage = .Stalling ∨ g.ResetStage = .ResetDone → g.FadeSamplesLeft = 0
  stall_done : g.ResetStage = .ResetDone → g.StallSamplesLeft = 0

/-- A core state in the middle of a fade. -/
def sampleFading : Gambatte :=
  { NewGambatte with
    ResetStage := .FadeToBlack, FadeSamplesTotal := 1240000, FadeSamplesLeft := 600000 }

/-- A core state in the middle of the stall. -/
def sampleStalling : Gambatte :=
  { NewGambatte with
    ResetStage := .Stalling, FadeSamplesTotal := 1240000, FadeSamplesLeft := 0,
    StallSamplesLeft := 50000 }

/-- A core state on the tick the reset completed. -/
def sampleResetDone : Gambatte :=
  { NewGambatte with
    ResetStage := .ResetDone, FadeSamplesTotal := 1240000, FadeSamplesLeft := 0,
    StallSamplesLeft := 0 }

/-- A core that reports a full frame of samples without a completed video
frame. -/
def coreFullFrame : CoreRun :=
  { offset := -1, samples := 35112, video := fun _ => 0, audio := fun _ => 0 }

/-- `StateElement{Slot: 1}` of `NewGambatteSource`. -/
def NewStateElement : StateElement :=
  { Slot := 1, State := GoSlice.nil, Snapshot := GoSlice.nil, ValidState := false,
    Timer := { DisappearTime := 0 }, RomDirectory := "", RomFileName := "" }

/-- The element after successive `Advance(amount)` calls, one per answer of
`os.ReadFile` and of the clock. -/
def advanceRun (se : StateElement) (amount : Int) : List (Option GoSlice × Int) → StateElement
  | [] => se
  | (read, now) :: rest => advanceRun (se.Advance amount read now).state amount rest

/-- An audio state whose device list holds a device SDL could not name. -/
def audioUnnamedDevice : Audio :=
  { Device := 0, Spec := { Freq := 0, Format := 0, Channels := 0 }, Resampler := none,
    AvailableDevices := ["Speakers", ""], OpenedDeviceName := "", Volume := 1 }

/-- SDL opens the device and creates the stream. -/
def openSucceeds : OpenAnswer :=
  { device := some (2, { Freq := 48000, Format := 0x8010, Channels := 2 }), stream := some 1 }

/-! ### The `float32` arithmetic of `ChangeVolumeOfSamples` -/

/-- A finite `float32` value, `man * 2 ^ exp`. -/
structure F32 where
  man : Int
  exp : Int
  deriving DecidableEq, Repr

/-- The quotient `a / b` rounded to the nearest integer, ties to even. -/
def roundEvenDiv (a b : Nat) : Nat :=
  let q := a / b
  let r := a % b
  if 2 * r < b then q
  else if b < 2 * r then q + 1
  else if q % 2 = 0 then q else q + 1

/-- The position of the highest set bit of `n` (0 for `n < 2`), found by
halving at most `fuel` times. -/
def log2Fuel : Nat → Nat → Nat
  | 0, _ => 0
  | fuel + 1, n => if n < 2 then 0 else log2Fuel fuel (n / 2) + 1

/-- The `l` with `2 ^ l ≤ n < 2 ^ (l + 1)` for positive `n`. -/
def floorLog2 (n : Nat) : Nat := log2Fuel n n

/-- The binary exponent of `a / b` for positive `a` and `b`: the `e` with
`2 ^ e ≤ a / b < 2 ^ (e + 1)`. -/
def ratioExponent (a b : Nat) : Int :=
  let d : Int := (floorLog2 a : Int) - (floorLog2 b : Int)
  if b * 2 ^ d.toNat ≤ a * 2 ^ (-d).toNat then d else d - 1

/-- The rational `a / b` (negated when `negative`) rounded to `float32`: 24
significant bits, nearest value, ties to even, exponents from -126 up. Values
beyond the largest `float32` do not arise from an `int32` volume. -/
def roundF32 (negative : Bool) (a b : Nat) : F32 :=
  if a = 0 then { man := 0, exp := 0 }
  else
    let e := max (ratioExponent a b) (-126)
    let k := e - 23
    let m := roundEvenDiv (a * 2 ^ (-k).toNat) (b * 2 ^ k.toNat)
    { man := if negative then -(m : Int) else m, exp := k }

/-- The conversion `float32(v)` of an integer. -/
def F32.ofInt (v : Int) : F32 := roundF32 (decide (v < 0)) v.natAbs 1

/-- The `float32` quotient `x / y`, `y` not zero. -/
def F32.div (x y : F32) : F32 :=
  let d := x.exp - y.exp
  roundF32 (decide (x.man < 0) != decide (y.man < 0))
    (x.man.natAbs * 2 ^ d.toNat) (y.man.natAbs * 2 ^ (-d).toNat)

/-- The `float32` product `x * y`. -/
def F32.mul (x y : F32) : F32 :=
  let e := x.exp + y.exp
  roundF32 (decide (x.man < 0) != decide (y.man < 0))
    ((x.man * y.man).natAbs * 2 ^ e.toNat) (2 ^ (-e).toNat)

/-- The comparison `x < y`. -/
def F32.lt (x y : F32) : Bool :=
  let d := x.exp - y.exp
  decide (x.man * 2 ^ d.toNat < y.man * 2 ^ (-d).toNat)

/-- Go's built-in `max` on two `float32` values. -/
def F32.max (x y : F32) : F32 := if y.lt x then x else y

/-- Go's built-in `min` on two `float32` values. -/
def F32.min (x y : F32) : F32 := if x.lt y then x else y

/-- The conversion `int(x)`: truncation towards zero. -/
def F32.toInt (x : F32) : Int :=
  (x.man * 2 ^ x.exp.toNat).tdiv (2 ^ (-x.exp).toNat)

/-! ### math.go -/

/-- `Clamp` at type `float32`. -/
def Clamp (a minValue maxValue : F32) : F32 :=
  F32.min (F32.max a minValue) maxValue

/-- SDL's `MIX_MAXVOLUME`. -/
def MIX_MAXVOLUME : Int := 128

/-- The level `int(sdlVolume)` that `ChangeVolumeOfSamples` passes to the
mixer, `sdlVolume := Clamp(float32(volume)/100.0, 0.0, 1.0) * sdl.MIX_MAXVOLUME`. -/
def sdlVolume (volume : Int) : Int :=
  (F32.mul (Clamp (F32.div (F32.ofInt volume) (F32.ofInt 100)) (F32.ofInt 0) (F32.ofInt 1))
    (F32.ofInt MIX_MAXVOLUME)).toInt

/-- Modelled from the spec: SDL's mixer on one signed 16-bit sample,
`out = dst + src * volume / 128` with C's truncating division, saturated to
the 16-bit range. -/
def mixSample (dst src volume : Int) : Int :=
  min (max (dst + (src * volume).tdiv MIX_MAXVOLUME) (-32768)) 32767

/-- Modelled from the spec: `sdl.MixAudioFormat` on buffers of signed 16-bit
samples, sample by sample. -/
def MixAudioFormat (dst src : List Int) (volume : Int) : List Int :=
  List.zipWith (fun d s => mixSample d s volume) dst src

/-- `Audio.ChangeVolumeOfSamples` on a buffer read as signed 16-bit samples;
`none` is the index panic of `&volumeAdjustedSamples[0]` on an empty
buffer. -/
def Audio.ChangeVolumeOfSamples (_audio : Audio) (samples : List Int) (volume : Int) :
    Option (List Int) :=
  let size := samples.length
  let volumeAdjustedSamples := List.replicate size (0 : Int)
  let sdlVolume := sdlVolume volume
  if size = 0 then none
  else some (MixAudioFormat volumeAdjustedSamples samples sdlVolume)

/-- An application with a key press waiting, then a quit event. -/
def queuedApplication : Application :=
  { startApplication with EventChannel := [.keyboard K_z true, .quit] }

/-- The answers used with `queuedApplication` and `startApplication`. -/
def sampleUpdateEnv : UpdateEnv :=
  { axisInitialState := none, modState := 0, driver := envQueueFull,
    drawAllGuiWindows := drawNothing }

/-- A shown element in slot 100 holding a valid state with a full preview. -/
def samplePreviewElement : StateElement :=
  { sampleStateElement with
    Slot := 100
    ValidState := true
    Snapshot := { data := List.replicate 5760 7, spare := [] }
    Timer := { DisappearTime := 10 } }

/-- The backbuffer of the video output. -/
def sampleBackbuffer : Backbuffer :=
  { Image := NewNRGBA GbVideoWidth GbVideoHeight }

/-- An empty-slot drawing that changes nothing. -/
def drawEmptyNothing (target : Backbuffer) (_x _y _width _height : Int) : Backbuffer :=
  target

/-- The joining of a plain directory and a file name by `filepath.Join`. -/
def joinPlain (dir file : String) : String := dir ++ "/" ++ file

/-- Whether an outside call is `sdl.QueueAudio`. -/
def Effect.isQueueAudio : Effect → Bool
  | .queueAudio _ _ => true
  | _ => false

/-- One cycle of the driving loop as the device queue sees it: the duration
the device played since the cycle before, the duration the chunk of this
cycle adds if one is queued, and the answers of the core and the resampler. -/
structure QueueCycle where
  drained : Int
  added : Int
  core : CoreRun
  resampler : ResamplerAnswer

/-- The queued duration after each of the cycles listed, from a queue holding
`queued`: the device drains, `UpdateEmulator` reads what is left as
`GetQueuedDuration()`, and a `sdl.QueueAudio` call of the cycle adds its
chunk. The run ends with a cycle that panics. -/
def queueRun (driver : GambatteDriver) (queued : Int) : List QueueCycle → List Int
  | [] => []
  | c :: rest =>
    let left := max 0 (queued - c.drained)
    let r := driver.UpdateEmulator
      { queuedDuration := left, core := c.core, resampler := c.resampler }
    let queued1 := if r.trace.any Effect.isQueueAudio then left + c.added else left
    queued1 :: (if r.panicked then [] else queueRun r.state queued1 rest)

/-- A resampler handing out a chunk of four bytes. -/
def resamplerChunk : ResamplerAnswer :=
  { putOk := true, available := 4, get := some [0, 0, 0, 0] }

/-- A cycle whose chunk lasts 17 ms, with nothing played before it. -/
def cycleFill : QueueCycle :=
  { drained := 0, added := 17 * Millisecond, core := coreRunning, resampler := resamplerChunk }

/-- A cycle before which the device played 30 ms. -/
def cycleDrain : QueueCycle :=
  { drained := 30 * Millisecond, added := 17 * Millisecond, core := coreRunning,
    resampler := resamplerChunk }

/-- SDL cannot open an audio device. -/
def openFails : OpenAnswer := { device := none, stream := none }

/-- The keys `Ctrl` (left) and `s` are down. -/
def rawCtrlS : RawState :=
  { Keyboard := [(K_s, true)], JoyButtons := [], JoyAxes := [], ModState := 0x0040 }

/-- A start on a machine where everything but the audio device works. -/
def startNoAudio : StartAnswers :=
  { settings := DefaultSettings, joysticks := [], audioDevices := [],
    openAudio := openFails, mainWindowWindow := some 1, mainWindow := true,
    inputDisplayWindow := some 2, inputDisplay := true }

/-- A start on a machine where everything works. -/
def startAllFine : StartAnswers :=
  { startNoAudio with openAudio := openSucceeds }

/-! ### gambatte_source.go: the fade overlay -/

/-- `color.RGBA`. -/
structure RGBA where
  R : Int
  G : Int
  B : Int
  A : Int
  deriving DecidableEq, Repr

/-- The local `percentage` of `ApplyFade`,
`float32(samplesPassed) / float32(FadeSamplesTotal)`. -/
def fadePercentage (gambatte : Gambatte) : F32 :=
  let samplesPassed := gambatte.FadeSamplesTotal - gambatte.FadeSamplesLeft
  F32.div (F32.ofInt samplesPassed) (F32.ofInt gambatte.FadeSamplesTotal)

/-- `GambatteSource.ApplyFade`: the colour it fills the whole backbuffer
with, `alpha := byte(255 * percentage)`. -/
def GambatteSource.ApplyFade (src : GambatteSource) : RGBA :=
  let percentage := fadePercentage src.Gambatte
  let alpha := (F32.mul (F32.ofInt 255) percentage).toInt % 256
  { R := 0, G := 0, B := 0, A := alpha }

/-- The part of `DrawBackbuffer` that decides on the overlay: the colour
filled over the video frame, `none` when `ApplyFade` is not called. -/
def GambatteSource.fadeOverlay (src : GambatteSource) : Option RGBA :=
  if src.Gambatte.ResetStage = .FadeToBlack ∨ src.Gambatte.ResetStage = .Stalling then
    some src.ApplyFade
  else none

/-! ## Theorems: the input aggregator -/

theorem mapGet_absent {K V : Type} [DecidableEq K] (m : List (K × V)) (k : K) (zero : V)
    (h : ∀ kv ∈ m, kv.1 ≠ k) : mapGet m k zero = zero := by
  unfold mapGet
  have hnone : m.find? (fun kv => decide (kv.1 = k)) = none := by
    rw [List.find?_eq_none]
    intro kv hkv
    simpa using h kv hkv
  rw [hnone]

/-- A binding reads the keyboard, the modifier mask, the buttons and the axes,
and nothing else of the manager. -/
theorem Input.IsDown_congr (input : Input) (m1 m2 : InputManager)
    (hk : m2.Keyboard = m1.Keyboard) (hm : m2.Keymodifiers = m1.Keymodifiers)
    (hb : m2.JoyButtons = m1.JoyButtons) (ha : m2.JoyAxes = m1.JoyAxes) :
    input.IsDown m2 = input.IsDown m1 := by
  cases input with
  | key k => simp [Input.IsDown, KeyInput.IsDown, hk, hm]
  | joyButton b => simp [Input.IsDown, JoyButtonInput.IsDown, hb]
  | joyAxis a => simp [Input.IsDown, JoyAxisInput.IsDown, ha]

theorem builtinDown_congr (b : Option Input) (m1 m2 : InputManager)
    (hk : m2.Keyboard = m1.Keyboard) (hm : m2.Keymodifiers = m1.Keymodifiers)
    (hb : m2.JoyButtons = m1.JoyButtons) (ha : m2.JoyAxes = m1.JoyAxes) :
    builtinDown b m2 = builtinDown b m1 := by
  cases b with
  | none => rfl
  | some x => exact Input.IsDown_congr x m1 m2 hk hm hb ha

theorem updateInput_spec (m : InputManager) (input : InputId) (user : Input)
    (hu : m.Inputs input = some user) :
    m.updateInput input = some { m with
      IsDown := Function.update m.IsDown input
        (user.IsDown m || builtinDown (m.Builtins input) m)
      IsPressed := Function.update m.IsPressed input
        ((user.IsDown m || builtinDown (m.Builtins input) m) && !m.DownPrevious input) } := by
  unfold InputManager.updateInput
  rw [hu]
  cases hb : m.Builtins input <;> simp [builtinDown]

theorem updateLoop_spec (l : List InputId) :
    ∀ m : InputManager, (∀ i, (m.Inputs i).isSome = true) →
      ∃ m1, m.updateLoop l = some m1 ∧ LoopSpec m m1 l := by
  induction l with
  | nil =>
    intro m _
    exact ⟨m, rfl, ⟨rfl, rfl, rfl, rfl, rfl, rfl, rfl, by simp, by simp⟩⟩
  | cons input rest ih =>
    intro m hbound
    obtain ⟨user, hu⟩ := Option.isSome_iff_exists.mp (hbound input)
    have hstep := updateInput_spec m input user hu
    generalize hm0 : ({ m with
      IsDown := Function.update m.IsDown input
        (user.IsDown m || builtinDown (m.Builtins input) m)
      IsPressed := Function.update m.IsPressed input
        ((user.IsDown m || builtinDown (m.Builtins input) m) && !m.DownPrevious input) }
      : InputManager) = m0 at hstep
    have e1 : m0.Inputs = m.Inputs := by subst hm0; rfl
    have e2 : m0.Builtins = m.Builtins := by subst hm0; rfl
    have e3 : m0.DownPrevious = m.DownPrevious := by subst hm0; rfl
    have e4 : m0.Keyboard = m.Keyboard := by subst hm0; rfl
    have e5 : m0.Keymodifiers = m.Keymodifiers := by subst hm0; rfl
    have e6 : m0.JoyButtons = m.JoyButtons := by subst hm0; rfl
    have e7 : m0.JoyAxes = m.JoyAxes := by subst hm0; rfl
    have e8 : m0.IsDown = Function.update m.IsDown input
        (user.IsDown m || builtinDown (m.Builtins input) m) := by subst hm0; rfl
    have e9 : m0.IsPressed = Function.update m.IsPressed input
        ((user.IsDown m || builtinDown (m.Builtins input) m) && !m.DownPrevious input) := by
      subst hm0; rfl
    obtain ⟨m1, hrun, hs⟩ := ih m0 (by intro i; rw [e1]; exact hbound i)
    refine ⟨m1, ?_, ?_⟩
    · simp only [InputManager.updateLoop, hstep]
      exact hrun
    · refine ⟨hs.inputs.trans e1, hs.builtins.trans e2, hs.previous.trans e3,
        hs.keyboard.trans e4, hs.modifiers.trans e5, hs.buttons.trans e6,
        hs.axes.trans e7, ?_, ?_⟩
      · intro i u hi
        have hd := hs.down i u (by rw [e1]; exact hi)
        rw [hd, e2, Input.IsDown_congr u m m0 e4 e5 e6 e7,
          builtinDown_congr (m.Builtins i) m m0 e4 e5 e6 e7, e8]
        by_cases hir : i ∈ rest
        · simp [hir]
        · by_cases hii : i = input
          · subst hii
            rw [hu] at hi
            cases hi
            simp [hir]
          · simp [hir, hii, Function.update_noteq hii]
      · intro i u hi
        have hp := hs.pressed i u (by rw [e1]; exact hi)
        rw [hp, e2, e3, Input.IsDown_congr u m m0 e4 e5 e6 e7,
          builtinDown_congr (m.Builtins i) m m0 e4 e5 e6 e7, e9]
        by_cases hir : i ∈ rest
        · simp [hir]
        · by_cases hii : i = input
          · subst hii
            rw [hu] at hi
            cases hi
            simp [hir]
          · simp [hir, hii, Function.update_noteq hii]

theorem mem_allInputs (i : InputId) : i ∈ allInputs := by
  cases i <;> simp [allInputs]

/-- The effect of one `Update` on a manager whose user bindings are all set. -/
theorem Update_spec (m : InputManager) (modState : Nat)
    (hbound : ∀ i, (m.Inputs i).isSome = true) :
    ∃ m1, m.Update modState = some m1 ∧
      m1.Inputs = m.Inputs ∧ m1.Builtins = m.Builtins ∧
      m1.Keyboard = m.Keyboard ∧ m1.JoyButtons = m.JoyButtons ∧
      m1.JoyAxes = m.JoyAxes ∧ m1.Keymodifiers = modState ∧
      m1.DownPrevious = m1.IsDown ∧
      (∀ i user, m.Inputs i = some user →
        m1.IsDown i = (user.IsDown { m with Keymodifiers := modState } ||
          builtinDown (m.Builtins i) { m with Keymodifiers := modState })) ∧
      (∀ i, m1.IsPressed i = (m1.IsDown i && !m.DownPrevious i)) := by
  obtain ⟨m1, hrun, hs⟩ :=
    updateLoop_spec allInputs { m with Keymodifiers := modState } hbound
  refine ⟨{ m1 with DownPrevious := m1.IsDown }, ?_, hs.inputs, hs.builtins, hs.keyboard,
    hs.buttons, hs.axes, hs.modifiers, rfl, ?_, ?_⟩
  · simp only [InputManager.Update, hrun]
  · intro i user hi
    have := hs.down i user hi
    simpa [mem_allInputs] using this
  · intro i
    obtain ⟨user, hu⟩ := Option.isSome_iff_exists.mp (hbound i)
    have hd := hs.down i user hu
    have hp := hs.pressed i user hu
    simp only [mem_allInputs, if_true] at hd hp
    show m1.IsPressed i = (m1.IsDown i && !m.DownPrevious i)
    rw [hp, hd]

theorem tick_spec (m : InputManager) (raw : RawState)
    (hbound : ∀ i, (m.Inputs i).isSome = true) :
    ∃ m1, m.tick raw = some m1 ∧ m1.Inputs = m.Inputs ∧
      m1.DownPrevious = m1.IsDown ∧
      (∀ i, m1.IsPressed i = (m1.IsDown i && !m.DownPrevious i)) := by
  obtain ⟨m1, hrun, hi, _, _, _, _, _, hprev, _, hpress⟩ :=
    Update_spec (m.observe raw) raw.ModState hbound
  exact ⟨m1, hrun, hi, hprev, hpress⟩

theorem heldAt_cons_zero (m1 : InputManager) (ms : List InputManager) (i : InputId) :
    heldAt (m1 :: ms) 0 i = m1.IsDown i := by
  simp [heldAt]

theorem heldAt_cons_succ (m1 : InputManager) (ms : List InputManager) (t : Nat)
    (i : InputId) : heldAt (m1 :: ms) (t + 1) i = heldAt ms t i := by
  simp [heldAt]

theorem pressedAt_cons_zero (m1 : InputManager) (ms : List InputManager) (i : InputId) :
    pressedAt (m1 :: ms) 0 i = m1.IsPressed i := by
  simp [pressedAt]

theorem pressedAt_cons_succ (m1 : InputManager) (ms : List InputManager) (t : Nat)
    (i : InputId) : pressedAt (m1 :: ms) (t + 1) i = pressedAt ms t i := by
  simp [pressedAt]

/-- A run of ticks from any manager with all user bindings set: every tick
succeeds, and `IsPressed` is the rising edge of `IsDown` against the snapshot
the run started with. -/
theorem runTicks_spec (raws : List RawState) :
    ∀ m : InputManager, (∀ i, (m.Inputs i).isSome = true) →
      ∃ ms, runTicks m raws = some ms ∧ ms.length = raws.length ∧
        (∀ i, pressedAt ms 0 i = (heldAt ms 0 i && !m.DownPrevious i)) ∧
        (∀ t i, pressedAt ms (t + 1) i = (heldAt ms (t + 1) i && !heldAt ms t i)) ∧
        (∀ m1 ∈ ms, m1.DownPrevious = m1.IsDown) := by
  induction raws with
  | nil =>
    intro m _
    refine ⟨[], rfl, rfl, ?_, ?_, ?_⟩
    · intro i; simp [pressedAt, heldAt]
    · intro t i; simp [pressedAt, heldAt]
    · intro m1 h; cases h
  | cons raw rest ih =>
    intro m hbound
    obtain ⟨m1, htick, hin, hprev, hpress⟩ := tick_spec m raw hbound
    obtain ⟨ms, hrun, hlen, h0, hsucc, hsnap⟩ :=
      ih m1 (by intro i; rw [hin]; exact hbound i)
    refine ⟨m1 :: ms, ?_, ?_, ?_, ?_, ?_⟩
    · simp only [runTicks, htick, hrun]
    · simp [hlen]
    · intro i
      rw [pressedAt_cons_zero, heldAt_cons_zero]
      exact hpress i
    · intro t i
      cases t with
      | zero =>
        rw [pressedAt_cons_succ, heldAt_cons_succ, heldAt_cons_zero, h0 i, hprev]
      | succ t =>
        rw [pressedAt_cons_succ, heldAt_cons_succ, heldAt_cons_succ]
        exact hsucc t i
    · intro m2 hm2
      rcases List.mem_cons.mp hm2 with h | h
      · rw [h]; exact hprev
      · exact hsnap m2 h

/-- C1: from a fresh manager (`DownPrevious` all false) every sequence of
`Update` calls succeeds; after tick `t`, `IsPressed[i]` is `IsDown[i]` now and
not `IsDown[i]` after tick `t - 1` (just `IsDown[i]` at tick 0), and
`DownPrevious` equals `IsDown`; hence in a run of ticks `a..b` on which input
`i` is held and which is not preceded by a held tick, `IsPressed[i]` is true at
tick `a` and at no other tick of the run. -/
theorem pressed_is_rising_edge (m : InputManager) (raws : List RawState)
    (hfresh : ∀ i, m.DownPrevious i = false)
    (hbound : ∀ i, (m.Inputs i).isSome = true) :
    ∃ ms, runTicks m raws = some ms ∧ ms.length = raws.length ∧
      (∀ i, pressedAt ms 0 i = heldAt ms 0 i) ∧
      (∀ t i, pressedAt ms (t + 1) i = (heldAt ms (t + 1) i && !heldAt ms t i)) ∧
      (∀ m1 ∈ ms, m1.DownPrevious = m1.IsDown) ∧
      (∀ i a b, a ≤ b → b < ms.length →
        (∀ t, a ≤ t → t ≤ b → heldAt ms t i = true) →
        (a = 0 ∨ heldAt ms (a - 1) i = false) →
        ∀ t, a ≤ t → t ≤ b → (pressedAt ms t i = true ↔ t = a)) := by
  obtain ⟨ms, hrun, hlen, h0, hsucc, hsnap⟩ := runTicks_spec raws m hbound
  have h0f : ∀ i, pressedAt ms 0 i = heldAt ms 0 i := by
    intro i
    rw [h0 i, hfresh i]
    simp
  refine ⟨ms, hrun, hlen, h0f, hsucc, hsnap, ?_⟩
  intro i a b _ _ hheld hstart t hat htb
  constructor
  · intro hp
    by_contra hne
    obtain ⟨t1, rfl⟩ : ∃ t1, t = t1 + 1 := ⟨t - 1, by omega⟩
    have hprevHeld : heldAt ms t1 i = true := hheld t1 (by omega) (by omega)
    rw [hsucc t1 i, hprevHeld] at hp
    simp at hp
  · intro hta
    subst hta
    cases t with
    | zero => rw [h0f i]; exact hheld 0 (le_refl 0) htb
    | succ t1 =>
      have hnow : heldAt ms (t1 + 1) i = true := hheld (t1 + 1) (le_refl _) htb
      have hbefore : heldAt ms t1 i = false := by
        rcases hstart with h | h
        · omega
        · simpa using h
      rw [hsucc t1 i, hnow, hbefore]
      rfl

/-- C1, on a run: `z` up, down, down, up, down gives `A` pressed at ticks 1
and 4 only. -/
theorem pressed_is_rising_edge_witness :
    (∀ i, sampleManager.DownPrevious i = false) ∧
    (∀ i, (sampleManager.Inputs i).isSome = true) ∧
    ∃ ms, runTicks sampleManager [rawIdle, rawZ, rawZ, rawIdle, rawZ] = some ms ∧
      ms.length = [rawIdle, rawZ, rawZ, rawIdle, rawZ].length ∧
      (∀ i, pressedAt ms 0 i = heldAt ms 0 i) ∧
      (∀ t i, pressedAt ms (t + 1) i = (heldAt ms (t + 1) i && !heldAt ms t i)) ∧
      (∀ m1 ∈ ms, m1.DownPrevious = m1.IsDown) ∧
      (∀ i a b, a ≤ b → b < ms.length →
        (∀ t, a ≤ t → t ≤ b → heldAt ms t i = true) →
        (a = 0 ∨ heldAt ms (a - 1) i = false) →
        ∀ t, a ≤ t → t ≤ b → (pressedAt ms t i = true ↔ t = a)) :=
  ⟨fun _ => rfl, fun i => by cases i <;> rfl,
    pressed_is_rising_edge sampleManager [rawIdle, rawZ, rawZ, rawIdle, rawZ]
      (fun _ => rfl) (fun i => by cases i <;> rfl)⟩

/-- C2: after `Update` (which succeeds when every user binding is set)
`IsDown[i]` is the user binding or the built-in binding evaluated on the
device state of that call, a nil built-in counting as false; a new manager has
built-ins exactly for Reset, SaveState, LoadState, PreviousStateSlot and
NextStateSlot, and none for the eight game inputs. -/
theorem held_is_user_or_builtin (m : InputManager) (modState : Nat)
    (hbound : ∀ i, (m.Inputs i).isSome = true) :
    (∃ m1, m.Update modState = some m1 ∧
      ∀ i user, m.Inputs i = some user →
        m1.IsDown i = (user.IsDown { m with Keymodifiers := modState } ||
          builtinDown (m.Builtins i) { m with Keymodifiers := modState })) ∧
    (∀ inputs name joysticks i,
      ((NewInputManager inputs name joysticks).Builtins i).isSome = true ↔
        i ∈ [InputId.Reset, .SaveState, .LoadState, .PreviousStateSlot, .NextStateSlot]) ∧
    (∀ inputs name joysticks i, i ∈ joypadInputs →
      (NewInputManager inputs name joysticks).Builtins i = none) := by
  have hb : ∀ inputs name joysticks,
      (NewInputManager inputs name joysticks).Builtins = builtinInputs := by
    intro inputs name joysticks
    unfold NewInputManager InputManager.OpenJoystick
    dsimp only
    split <;> rfl
  refine ⟨?_, ?_, ?_⟩
  · obtain ⟨m1, hrun, _, _, _, _, _, _, _, hdown, _⟩ := Update_spec m modState hbound
    exact ⟨m1, hrun, hdown⟩
  · intro inputs name joysticks i
    rw [hb]
    cases i <;> simp [builtinInputs]
  · intro inputs name joysticks i hi
    rw [hb]
    cases i <;> simp [joypadInputs] at hi <;> rfl

/-- C2, on the default bindings with `Ctrl+S` down: SaveState, which the user
bound to F1, is held through its built-in binding, and A is not held. -/
theorem held_is_user_or_builtin_witness :
    (∀ i, ((sampleManager.observe rawCtrlS).Inputs i).isSome = true) ∧
    ∃ m1, (sampleManager.observe rawCtrlS).Update rawCtrlS.ModState = some m1 ∧
      m1.IsDown .SaveState = true ∧ m1.IsDown .A = false :=
  ⟨fun i => by cases i <;> rfl,
    (fun ⟨m1, h, hd⟩ =>
      ⟨m1, h, (hd .SaveState _ rfl).trans (by decide), (hd .A _ rfl).trans (by decide)⟩)
    (held_is_user_or_builtin (sampleManager.observe rawCtrlS) rawCtrlS.ModState
      (fun i => by cases i <;> rfl)).1⟩

/-- C3: a key binding is down exactly when the keyboard map marks its key as
down and it requires no modifier or the active modifier mask meets the
required one; a key with no entry in the map is not down. -/
theorem KeyInput_IsDown_iff (input : KeyInput) (manager : InputManager) :
    (input.IsDown manager = true ↔
      mapGet manager.Keyboard input.Keycode false = true ∧
        (input.Modifiers = KMOD_NONE ∨ manager.Keymodifiers &&& input.Modifiers ≠ 0)) ∧
    ((∀ kv ∈ manager.Keyboard, kv.1 ≠ input.Keycode) → input.IsDown manager = false) := by
  constructor
  · unfold KeyInput.IsDown
    simp only [Bool.and_eq_true, Bool.or_eq_true, Bool.not_eq_true', bne_iff_ne, ne_eq,
      bne_eq_false_iff_eq]
  · intro h
    unfold KeyInput.IsDown
    rw [mapGet_absent _ _ _ h]
    rfl

/-- C3, on a keyboard without an entry for `r`: the built-in Reset binding is
not down even with Ctrl active. -/
theorem KeyInput_IsDown_iff_witness :
    (∀ kv ∈ ({ sampleManager with Keyboard := [(K_z, true)], Keymodifiers := KMOD_CTRL }
        : InputManager).Keyboard, kv.1 ≠ (KeyInput.mk K_r KMOD_CTRL).Keycode) ∧
    (KeyInput.mk K_r KMOD_CTRL).IsDown
      { sampleManager with Keyboard := [(K_z, true)], Keymodifiers := KMOD_CTRL } = false :=
  ⟨by decide,
    (KeyInput_IsDown_iff (KeyInput.mk K_r KMOD_CTRL)
      { sampleManager with Keyboard := [(K_z, true)], Keymodifiers := KMOD_CTRL }).2
      (by decide)⟩

/-! ## Theorems: the joypad bitmask -/

theorem joypad_fold (f : InputId → Bool) :
    ∃ k : Nat, joypadInputs.foldl (joypadStep f) 0 = (k : Int) ∧ k < 256 ∧
      k.testBit 0 = f .A ∧ k.testBit 1 = f .B ∧ k.testBit 2 = f .Select ∧
      k.testBit 3 = f .Start ∧ k.testBit 4 = f .Right ∧ k.testBit 5 = f .Left ∧
      k.testBit 6 = f .Up ∧ k.testBit 7 = f .Down := by
  simp only [joypadInputs, List.foldl, joypadStep, InputId.toNat]
  generalize f .A = a
  generalize f .B = b
  generalize f .Select = c
  generalize f .Start = d
  generalize f .Right = e
  generalize f .Left = g
  generalize f .Up = h
  generalize f .Down = j
  cases a <;> cases b <;> cases c <;> cases d <;> cases e <;> cases g <;> cases h <;>
    cases j <;> exact ⟨_, rfl, by decide⟩

theorem joypad_fold_congr (f1 f2 : InputId → Bool)
    (h : ∀ i ∈ joypadInputs, f2 i = f1 i) :
    joypadInputs.foldl (joypadStep f2) 0 = joypadInputs.foldl (joypadStep f1) 0 := by
  have hA := h .A (by simp [joypadInputs])
  have hB := h .B (by simp [joypadInputs])
  have hC := h .Select (by simp [joypadInputs])
  have hD := h .Start (by simp [joypadInputs])
  have hE := h .Right (by simp [joypadInputs])
  have hF := h .Left (by simp [joypadInputs])
  have hG := h .Up (by simp [joypadInputs])
  have hH := h .Down (by simp [joypadInputs])
  simp only [joypadInputs, List.foldl, joypadStep, hA, hB, hC, hD, hE, hF, hG, hH]

/-- C4: after `UpdateJoypad`, bit `i` of `CurrentInputs` is `IsDown[i]` for the
eight inputs A, B, Select, Start, Right, Left, Up, Down (values 0..7), no
higher bit is set, the value lies in `[0, 255]`, and it is the same for any
other driver state that agrees on those eight `IsDown` entries, whatever its
previous `CurrentInputs` and whatever the held state of the five other
inputs. -/
theorem UpdateJoypad_bitmask (driver : GambatteDriver) :
    (∀ i ∈ joypadInputs,
      Int.testBit driver.UpdateJoypad.Gambatte.CurrentInputs i.toNat =
        driver.InputManager.IsDown i) ∧
    (∀ n, 8 ≤ n → Int.testBit driver.UpdateJoypad.Gambatte.CurrentInputs n = false) ∧
    0 ≤ driver.UpdateJoypad.Gambatte.CurrentInputs ∧
    driver.UpdateJoypad.Gambatte.CurrentInputs ≤ 255 ∧
    (∀ other : GambatteDriver,
      (∀ i ∈ joypadInputs, other.InputManager.IsDown i = driver.InputManager.IsDown i) →
      other.UpdateJoypad.Gambatte.CurrentInputs =
        driver.UpdateJoypad.Gambatte.CurrentInputs) := by
  obtain ⟨k, hk, hlt, h0, h1, h2, h3, h4, h5, h6, h7⟩ :=
    joypad_fold driver.InputManager.IsDown
  have hcur : driver.UpdateJoypad.Gambatte.CurrentInputs = (k : Int) := hk
  refine ⟨?_, ?_, ?_, ?_, ?_⟩
  · intro i hi
    rw [hcur]
    show Nat.testBit k i.toNat = _
    cases i <;> simp [joypadInputs] at hi <;> simp only [InputId.toNat] <;> assumption
  · intro n hn
    rw [hcur]
    show Nat.testBit k n = false
    apply Nat.testBit_lt_two_pow
    calc k < 256 := hlt
      _ = 2 ^ 8 := by norm_num
      _ ≤ 2 ^ n := Nat.pow_le_pow_right (by norm_num) hn
  · rw [hcur]; exact Int.ofNat_nonneg k
  · rw [hcur]; exact_mod_cast Nat.le_of_lt_succ hlt
  · intro other hsame
    exact joypad_fold_congr driver.InputManager.IsDown other.InputManager.IsDown hsame

/-- C4, on a driver holding A and Start: the mask is 9. -/
theorem UpdateJoypad_bitmask_witness :
    ({ startDriver with InputManager := { sampleManager with
        IsDown := fun i => decide (i = .A ∨ i = .Start ∨ i = .Reset) } }
      : GambatteDriver).UpdateJoypad.Gambatte.CurrentInputs = 9 ∧
    (∀ i ∈ joypadInputs, startDriver.InputManager.IsDown i =
      ({ startDriver with Gambatte := { NewGambatte with CurrentInputs := 77 } }
        : GambatteDriver).InputManager.IsDown i) ∧
    startDriver.UpdateJoypad.Gambatte.CurrentInputs =
      ({ startDriver with Gambatte := { NewGambatte with CurrentInputs := 77 } }
        : GambatteDriver).UpdateJoypad.Gambatte.CurrentInputs :=
  ⟨by decide, fun _ _ => rfl,
    (UpdateJoypad_bitmask
      { startDriver with Gambatte := { NewGambatte with CurrentInputs := 77 } }).2.2.2.2
      startDriver (fun _ _ => rfl)⟩

/-! ## Theorems: pacing against the audio queue -/

theorem HandleReset_trace (g : Gambatte) (s : Int) :
    ∀ e ∈ (g.HandleReset s).2, e.isRunFor = false ∧ e.isSleep = false ∧ e.isAudio = false := by
  intro e he
  unfold Gambatte.HandleReset Gambatte.HandleFade at he
  dsimp only at he
  split_ifs at he <;> simp at he
  subst he
  exact ⟨rfl, rfl, rfl⟩

theorem AdvanceFrame_trace (g : Gambatte) (core : CoreRun) :
    ∃ rest, (g.AdvanceFrame core).2.2 =
        .runFor (GbSamplesPerFrame - g.FrameOverflow) :: rest ∧
      ∀ e ∈ rest, e.isRunFor = false ∧ e.isSleep = false ∧ e.isAudio = false := by
  unfold Gambatte.AdvanceFrame
  dsimp only
  exact ⟨_, rfl, HandleReset_trace _ _⟩

theorem QueueSamples_trace (audio : Audio) (samples : List Nat) (r : ResamplerAnswer) :
    ∃ rest, (audio.QueueSamples samples r).1 = .resamplerPut samples :: rest ∧
      ∀ e ∈ rest, e.isRunFor = false ∧ e.isSleep = false := by
  unfold Audio.QueueSamples
  split_ifs
  · exact ⟨[], rfl, by simp⟩
  · cases r.get with
    | none => exact ⟨_, rfl, by simp [Effect.isRunFor, Effect.isSleep]⟩
    | some resampled => exact ⟨_, rfl, by simp [Effect.isRunFor, Effect.isSleep]⟩
  · exact ⟨[], rfl, by simp⟩

theorem PlayAudio_spec (driver : GambatteDriver) (n : Int) (r : ResamplerAnswer) :
    (driver.PlayAudio n r).state = driver ∧
    (∀ e ∈ (driver.PlayAudio n r).trace, e.isRunFor = false ∧ e.isSleep = false) ∧
    (∀ samples, audioSlice driver.Gambatte.AudioBuffer (n * GbSampleSize) = some samples →
      (driver.PlayAudio n r).panicked = false ∧
      (driver.PlayAudio n r).trace.head? = some (.resamplerPut samples)) ∧
    (audioSlice driver.Gambatte.AudioBuffer (n * GbSampleSize) = none →
      (driver.PlayAudio n r).panicked = true ∧ (driver.PlayAudio n r).trace = []) := by
  unfold GambatteDriver.PlayAudio
  dsimp only
  cases hs : audioSlice driver.Gambatte.AudioBuffer (n * GbSampleSize) with
  | none => simp
  | some samples =>
    obtain ⟨rest, hq, hrest⟩ := QueueSamples_trace driver.Audio samples r
    refine ⟨rfl, ?_, ?_, by simp⟩
    · intro e he
      simp only [hq, List.mem_cons] at he
      rcases he with h | h
      · subst h; exact ⟨rfl, rfl⟩
      · exact hrest e h
    · intro s hsome
      cases hsome
      simp [hq]

/-- The branch of `UpdateEmulator` taken when the audio queue is at or above
the buffer target. -/
theorem UpdateEmulator_above (driver : GambatteDriver) (env : DriverEnv)
    (h : driver.BufferSize ≤ env.queuedDuration) :
    (driver.UpdateEmulator env).state = driver ∧
    (driver.UpdateEmulator env).trace = [.sleep (driver.BufferSize.tdiv 4)] ∧
    (driver.UpdateEmulator env).panicked = false := by
  unfold GambatteDriver.UpdateEmulator
  rw [if_neg (not_lt.mpr h)]
  exact ⟨rfl, rfl, rfl⟩

/-- The branch of `UpdateEmulator` taken when the audio queue is below the
buffer target. -/
theorem UpdateEmulator_below (driver : GambatteDriver) (env : DriverEnv)
    (h : env.queuedDuration < driver.BufferSize) :
    (driver.UpdateEmulator env).state.Gambatte =
      (driver.UpdateJoypad.Gambatte.AdvanceFrame env.core).1 ∧
    (driver.UpdateEmulator env).trace.head? =
      some (.runFor (GbSamplesPerFrame - driver.Gambatte.FrameOverflow)) ∧
    ((driver.UpdateEmulator env).trace.filter Effect.isRunFor).length = 1 ∧
    (driver.UpdateEmulator env).trace.filter Effect.isSleep = [] ∧
    (∀ samples,
      audioSlice env.core.audio
        ((driver.UpdateJoypad.Gambatte.AdvanceFrame env.core).2.1 * GbSampleSize)
        = some samples →
      (driver.UpdateEmulator env).panicked = false ∧
      Effect.resamplerPut samples ∈ (driver.UpdateEmulator env).trace) := by
  obtain ⟨rest, hadv, hrest⟩ := AdvanceFrame_trace driver.UpdateJoypad.Gambatte env.core
  have hbudget : driver.UpdateJoypad.Gambatte.FrameOverflow = driver.Gambatte.FrameOverflow :=
    rfl
  rw [hbudget] at hadv
  have haudio : (driver.UpdateJoypad.Gambatte.AdvanceFrame env.core).1.AudioBuffer =
      env.core.audio := by
    unfold Gambatte.AdvanceFrame Gambatte.HandleReset Gambatte.HandleFade
      Gambatte.HandleStalling
    dsimp only
    split_ifs <;> rfl
  generalize hd1 : ({ driver.UpdateJoypad with
    Gambatte := (driver.UpdateJoypad.Gambatte.AdvanceFrame env.core).1 } : GambatteDriver)
    = d1
  have hd1g : d1.Gambatte = (driver.UpdateJoypad.Gambatte.AdvanceFrame env.core).1 := by
    subst hd1; rfl
  obtain ⟨hst, hpt, hsome, _⟩ :=
    PlayAudio_spec d1 (driver.UpdateJoypad.Gambatte.AdvanceFrame env.core).2.1 env.resampler
  have hrun : driver.UpdateEmulator env =
      { d1.PlayAudio (driver.UpdateJoypad.Gambatte.AdvanceFrame env.core).2.1 env.resampler
        with trace := (driver.UpdateJoypad.Gambatte.AdvanceFrame env.core).2.2 ++
          (d1.PlayAudio (driver.UpdateJoypad.Gambatte.AdvanceFrame env.core).2.1
            env.resampler).trace } := by
    unfold GambatteDriver.UpdateEmulator
    rw [if_pos h, ← hd1]
  rw [hrun]
  dsimp only
  rw [hadv]
  refine ⟨by rw [hst, hd1g], rfl, ?_, ?_, ?_⟩
  · have h1 : rest.filter Effect.isRunFor = [] :=
      List.filter_eq_nil_iff.mpr (fun e he => by simp [(hrest e he).1])
    have h2 : (d1.PlayAudio (driver.UpdateJoypad.Gambatte.AdvanceFrame env.core).2.1
        env.resampler).trace.filter Effect.isRunFor = [] :=
      List.filter_eq_nil_iff.mpr (fun e he => by simp [(hpt e he).1])
    simp [List.filter_cons, Effect.isRunFor, h1, h2]
  · have h1 : rest.filter Effect.isSleep = [] :=
      List.filter_eq_nil_iff.mpr (fun e he => by simp [(hrest e he).2.1])
    have h2 : (d1.PlayAudio (driver.UpdateJoypad.Gambatte.AdvanceFrame env.core).2.1
        env.resampler).trace.filter Effect.isSleep = [] :=
      List.filter_eq_nil_iff.mpr (fun e he => by simp [(hpt e he).2])
    simp [List.filter_cons, Effect.isSleep, h1, h2]
  · intro samples hs
    rw [← haudio, ← hd1g] at hs
    obtain ⟨hp, hhead⟩ := hsome samples hs
    refine ⟨hp, ?_⟩
    have hmem : Effect.resamplerPut samples ∈
        (d1.PlayAudio (driver.UpdateJoypad.Gambatte.AdvanceFrame env.core).2.1
          env.resampler).trace := List.mem_of_mem_head? hhead
    simp [hmem]

/-- C5: when the queued duration is below the buffer target, `UpdateEmulator`
updates the joypad, calls `AdvanceFrame` exactly once (first outside call, with
the budget left of the frame), hands the elapsed samples to the audio pipeline
and does not sleep; when the queued duration is at or above the target it
leaves the driver as it is and its only outside call is a sleep of a quarter
of the target, which is 17 ms for the default target of 68 ms. -/
theorem UpdateEmulator_pacing (driver : GambatteDriver) (env : DriverEnv) :
    (env.queuedDuration < driver.BufferSize →
      (driver.UpdateEmulator env).state.Gambatte =
        (driver.UpdateJoypad.Gambatte.AdvanceFrame env.core).1 ∧
      (driver.UpdateEmulator env).trace.head? =
        some (.runFor (GbSamplesPerFrame - driver.Gambatte.FrameOverflow)) ∧
      ((driver.UpdateEmulator env).trace.filter Effect.isRunFor).length = 1 ∧
      (driver.UpdateEmulator env).trace.filter Effect.isSleep = [] ∧
      (∀ samples,
        audioSlice env.core.audio
          ((driver.UpdateJoypad.Gambatte.AdvanceFrame env.core).2.1 * GbSampleSize)
          = some samples →
        (driver.UpdateEmulator env).panicked = false ∧
        Effect.resamplerPut samples ∈ (driver.UpdateEmulator env).trace)) ∧
    (driver.BufferSize ≤ env.queuedDuration →
      (driver.UpdateEmulator env).state = driver ∧
      (driver.UpdateEmulator env).trace = [.sleep (driver.BufferSize.tdiv 4)] ∧
      (driver.UpdateEmulator env).panicked = false) ∧
    (driver.BufferSize = DefaultBufferSize → driver.BufferSize ≤ env.queuedDuration →
      (driver.UpdateEmulator env).trace = [.sleep (17 * Millisecond)]) := by
  refine ⟨UpdateEmulator_below driver env, UpdateEmulator_above driver env, ?_⟩
  intro hB h
  rw [(UpdateEmulator_above driver env h).2.1, hB]
  rfl

/-- C5, on the default driver: with an empty queue one frame is emulated, with
70 ms queued the step sleeps 17 ms. -/
theorem UpdateEmulator_pacing_witness :
    envQueueEmpty.queuedDuration < startDriver.BufferSize ∧
    (startDriver.UpdateEmulator envQueueEmpty).trace.head? = some (.runFor 35112) ∧
    startDriver.BufferSize = DefaultBufferSize ∧
    startDriver.BufferSize ≤ envQueueFull.queuedDuration ∧
    (startDriver.UpdateEmulator envQueueFull).trace = [.sleep (17 * Millisecond)] :=
  ⟨by decide,
    ((UpdateEmulator_pacing startDriver envQueueEmpty).1 (by decide)).2.1,
    rfl, by decide,
    (UpdateEmulator_pacing startDriver envQueueFull).2.2 rfl (by decide)⟩

/-! ## Theorems: the quicksave reader -/

theorem GoSlice.index_lt (g : GoSlice) (i b : Nat) (h : g.index i = some b) :
    b < 256 ∧ i < g.len := by
  unfold GoSlice.index at h
  cases hd : g.data[i]? with
  | none => rw [hd] at h; cases h
  | some x =>
    rw [hd] at h
    cases h
    refine ⟨Nat.mod_lt _ (by norm_num), ?_⟩
    obtain ⟨hlt, _⟩ := List.getElem?_eq_some_iff.mp hd
    exact hlt

theorem GoSlice.index_of_lt (g : GoSlice) (i : Nat) (h : i < g.len) :
    ∃ b, g.index i = some b := by
  unfold GoSlice.index
  have : g.data[i]? = some (g.data[i]) := List.getElem?_eq_getElem h
  rw [this]
  exact ⟨_, rfl⟩

theorem bigEndian24 (b3 b4 b5 : Nat) (h4 : b4 < 256) (h5 : b5 < 256) :
    b3 <<< 16 ||| b4 <<< 8 ||| b5 = b3 * 65536 + b4 * 256 + b5 := by
  have e1 : b3 <<< 16 ||| b4 <<< 8 = 2 ^ 16 * b3 + b4 * 256 := by
    have := Nat.mul_add_lt_is_or (i := 16) (b := b4 <<< 8)
      (by rw [Nat.shiftLeft_eq]; omega) b3
    rw [Nat.shiftLeft_eq b3 16, Nat.mul_comm b3 (2 ^ 16), ← this, Nat.shiftLeft_eq]
  have e2 : 2 ^ 16 * b3 + b4 * 256 = 2 ^ 8 * (b3 * 256 + b4) := by ring
  rw [e1, e2, ← Nat.mul_add_lt_is_or (i := 8) (b := b5) (by omega) (b3 * 256 + b4)]
  ring

/-- The result of `UpdateState` on a sequence with the valid header that is at
least as long as it declares. -/
theorem UpdateState_valid_eq (se : StateElement) (g : GoSlice)
    (hsig : g.index 0 = some 0xff) (hver : g.index 1 = some 0x02)
    (hlen : 6 + declaredLength g ≤ g.len) :
    se.UpdateState (some g) = .done { se with
      ValidState := true
      State := g
      Snapshot := { data := (g.data.drop 6).take (declaredLength g)
                    spare := (g.data ++ g.spare).drop (6 + declaredLength g) } } ∧
    declaredLength g < 2 ^ 24 := by
  obtain ⟨b3, h3⟩ := g.index_of_lt 3 (by omega)
  obtain ⟨b4, h4⟩ := g.index_of_lt 4 (by omega)
  obtain ⟨b5, h5⟩ := g.index_of_lt 5 (by omega)
  have l3 := (g.index_lt 3 b3 h3).1
  have l4 := (g.index_lt 4 b4 h4).1
  have l5 := (g.index_lt 5 b5 h5).1
  have hL : declaredLength g = b3 * 65536 + b4 * 256 + b5 := by
    unfold declaredLength
    rw [h3, h4, h5]
  have hlen6 : 6 ≤ g.data.length := by unfold GoSlice.len at hlen; omega
  have hlenL : declaredLength g ≤ (g.data.drop 6).length := by
    unfold GoSlice.len at hlen
    rw [List.length_drop]
    omega
  refine ⟨?_, by rw [hL]; omega⟩
  unfold StateElement.UpdateState
  simp only [hsig, hver, h3, h4, h5, bigEndian24 b3 b4 b5 l4 l5, ← hL]
  have hcond : (6 ≤ 6 + declaredLength g ∧ 6 + declaredLength g ≤ g.cap) := by
    unfold GoSlice.cap
    unfold GoSlice.len at hlen
    omega
  have hslice : g.slice 6 (6 + declaredLength g) = some
      { data := (g.data.drop 6).take (declaredLength g)
        spare := (g.data ++ g.spare).drop (6 + declaredLength g) } := by
    unfold GoSlice.slice
    rw [if_pos hcond, List.drop_append_of_le_length hlen6, Nat.add_sub_cancel_left,
      List.take_append_of_le_length hlenL]
  rw [hslice]
  simp

set_option maxRecDepth 20000 in
/-- C6, the code on truncated files: a file holding only the two header bytes
panics with `ValidState` already true; an empty file panics; a file declaring
four snapshot bytes but holding one is accepted as valid with a snapshot that
reads three bytes beyond the file; a file declaring more than its capacity
panics with `ValidState` true. -/
theorem UpdateState_truncated_files :
    sampleStateElement.UpdateState (some fileHeaderOnly) =
      .panic { sampleStateElement with ValidState := true, State := fileHeaderOnly } ∧
    (sampleStateElement.UpdateState (some fileEmpty)).panicked = true ∧
    fileTruncated.len < 6 + declaredLength fileTruncated ∧
    (sampleStateElement.UpdateState (some fileTruncated)).panicked = false ∧
    (sampleStateElement.UpdateState (some fileTruncated)).state.ValidState = true ∧
    (sampleStateElement.UpdateState (some fileTruncated)).state.Snapshot.data = [9, 0, 0, 0] ∧
    fileTruncatedLong.len < 6 + declaredLength fileTruncatedLong ∧
    (sampleStateElement.UpdateState (some fileTruncatedLong)).panicked = true ∧
    (sampleStateElement.UpdateState (some fileTruncatedLong)).state.ValidState = true := by
  refine ⟨by rfl, by rfl, by decide, by rfl, by rfl, by rfl, by decide, by rfl, by rfl⟩

/-- C7: a sequence of at least two bytes whose byte 0 is not `0xff` or whose
byte 1 is not `0x02`, and an unreadable file, make `UpdateState` return
normally with `ValidState` false and every other field as before, whatever
`ValidState` was. -/
theorem UpdateState_rejects_bad_header (se : StateElement) :
    (∀ gqs : GoSlice, 2 ≤ gqs.len →
      (gqs.index 0 ≠ some 0xff ∨ gqs.index 1 ≠ some 0x02) →
      se.UpdateState (some gqs) = .done { se with ValidState := false }) ∧
    se.UpdateState none = .done { se with ValidState := false } := by
  refine ⟨?_, rfl⟩
  intro gqs hlen hbad
  obtain ⟨b0, h0⟩ := gqs.index_of_lt 0 (by omega)
  obtain ⟨b1, h1⟩ := gqs.index_of_lt 1 (by omega)
  unfold StateElement.UpdateState
  simp only [h0, h1]
  rw [h0, h1] at hbad
  have hcond : (b0 != 0xff || b1 != 0x02) = true := by
    rcases hbad with h | h
    · have : b0 ≠ 0xff := fun e => h (by rw [e])
      simp [this]
    · have : b1 ≠ 0x02 := fun e => h (by rw [e])
      simp [this]
  rw [if_pos hcond]

/-- C7, on a previously valid element and a file with version byte 1. -/
theorem UpdateState_rejects_bad_header_witness :
    2 ≤ fileWrongVersion.len ∧
    (fileWrongVersion.index 0 ≠ some 0xff ∨ fileWrongVersion.index 1 ≠ some 0x02) ∧
    sampleValidElement.ValidState = true ∧
    sampleValidElement.UpdateState (some fileWrongVersion) =
      .done { sampleValidElement with ValidState := false } :=
  ⟨by decide, by decide, rfl,
    (UpdateState_rejects_bad_header sampleValidElement).1 fileWrongVersion
      (by decide) (by decide)⟩

/-- C8: for a sequence `g` with `g[0] = 0xff`, `g[1] = 0x02` and at least
`6 + L` bytes, `L` the big-endian value of bytes 3..5, `UpdateState` returns
normally with `ValidState` true, `State = g` and `Snapshot` the `L` bytes
`g[6 .. 6+L)`; `L < 2^24`; and replacing byte 2 by any value gives the same
`ValidState` and `Snapshot`. -/
theorem UpdateState_accepts_well_formed (se : StateElement) (g : GoSlice)
    (hsig : g.index 0 = some 0xff) (hver : g.index 1 = some 0x02)
    (hlen : 6 + declaredLength g ≤ g.len) :
    ∃ snapshot,
      se.UpdateState (some g) =
        .done { se with ValidState := true, State := g, Snapshot := snapshot } ∧
      snapshot.data = (g.data.drop 6).take (declaredLength g) ∧
      snapshot.len = declaredLength g ∧
      declaredLength g < 2 ^ 24 ∧
      ∀ v, se.UpdateState (some { g with data := g.data.set 2 v }) =
        .done { se with
          ValidState := true
          State := { g with data := g.data.set 2 v }
          Snapshot := snapshot } := by
  obtain ⟨hrun, hbound⟩ := UpdateState_valid_eq se g hsig hver hlen
  have hlen6 : 6 ≤ g.data.length := by unfold GoSlice.len at hlen; omega
  refine ⟨_, hrun, rfl, ?_, hbound, ?_⟩
  · show ((g.data.drop 6).take (declaredLength g)).length = declaredLength g
    rw [List.length_take, List.length_drop]
    unfold GoSlice.len at hlen
    omega
  · intro v
    have hidx : ∀ i, i ≠ 2 →
        ({ g with data := g.data.set 2 v } : GoSlice).index i = g.index i := by
      intro i hi
      unfold GoSlice.index
      show (match (g.data.set 2 v)[i]? with
        | some b => some (b % 256)
        | none => none) = _
      rw [List.getElem?_set_ne (Ne.symm hi)]
    have hdecl : declaredLength { g with data := g.data.set 2 v } = declaredLength g := by
      unfold declaredLength
      rw [hidx 3 (by decide), hidx 4 (by decide), hidx 5 (by decide)]
    have hlen2 : ({ g with data := g.data.set 2 v } : GoSlice).len = g.len := by
      show (g.data.set 2 v).length = g.data.length
      exact List.length_set _ _ _
    obtain ⟨hrun2, _⟩ := UpdateState_valid_eq se { g with data := g.data.set 2 v }
      (by rw [hidx 0 (by decide)]; exact hsig) (by rw [hidx 1 (by decide)]; exact hver)
      (by rw [hdecl, hlen2]; exact hlen)
    rw [hrun2, hdecl]
    have hd6 : (g.data.set 2 v).drop 6 = g.data.drop 6 :=
      List.drop_set_of_lt _ _ (by decide)
    have hdL : (g.data.set 2 v ++ g.spare).drop (6 + declaredLength g) =
        (g.data ++ g.spare).drop (6 + declaredLength g) := by
      rw [← List.drop_drop, ← List.drop_drop,
        List.drop_append_of_le_length (by rw [List.length_set]; exact hlen6),
        List.drop_append_of_le_length hlen6, hd6]
    show Exec.done _ = Exec.done _
    simp only [hd6, hdL]

/-- C8, on a nine-byte file declaring a two-byte snapshot. -/
theorem UpdateState_accepts_well_formed_witness :
    fileWellFormed.index 0 = some 0xff ∧ fileWellFormed.index 1 = some 0x02 ∧
    6 + declaredLength fileWellFormed ≤ fileWellFormed.len ∧
    (sampleStateElement.UpdateState (some fileWellFormed)).state.Snapshot.data = [10, 11] ∧
    ∃ snapshot,
      sampleStateElement.UpdateState (some fileWellFormed) =
        .done { sampleStateElement with
          ValidState := true, State := fileWellFormed, Snapshot := snapshot } ∧
      snapshot.data = (fileWellFormed.data.drop 6).take (declaredLength fileWellFormed) ∧
      snapshot.len = declaredLength fileWellFormed ∧
      declaredLength fileWellFormed < 2 ^ 24 ∧
      ∀ v, sampleStateElement.UpdateState
          (some { fileWellFormed with data := fileWellFormed.data.set 2 v }) =
        .done { sampleStateElement with
          ValidState := true
          State := { fileWellFormed with data := fileWellFormed.data.set 2 v }
          Snapshot := snapshot } :=
  ⟨by decide, by decide, by decide, by rfl,
    UpdateState_accepts_well_formed sampleStateElement fileWellFormed
      (by decide) (by decide) (by decide)⟩

/-! ## Theorems: the driving-loop step and the reset trigger -/

/-- The first outside call of `Draw` is the first one of `UpdateEmulator` when
no popup was open on the last frame. -/
theorem Draw_trace_head (app : Application) (env : DriverEnv)
    (gui : Application → Outcome Application) (e : Effect)
    (hpop : app.PopupOpenLastFrame = false)
    (hhead : (app.GambatteDriver.UpdateEmulator env).trace.head? = some e) :
    (app.Draw env gui).trace.head? = some e := by
  unfold Application.Draw
  rw [hpop]
  simp only [Bool.not_false, if_true]
  cases ht : (app.GambatteDriver.UpdateEmulator env).trace with
  | nil => rw [ht] at hhead; cases hhead
  | cons e1 rest =>
    rw [ht] at hhead
    have he : e1 = e := by simpa using hhead
    subst he
    split_ifs
    · simp [ht]
    · simp [ht]

/-- C9, the code on a core that is not ready: right after start (no ROM, no
BIOS, empty audio queue, no popup) `Application.Draw` calls `AdvanceFrame`,
whose first outside call is `C.gambatte_runfor` with a full frame budget,
whatever the core answers and whatever the user interface does; with a core
that runs 2 samples, `FrameOverflow` becomes 2 and 8 bytes are put into the
audio pipeline. -/
theorem Draw_advances_unready_core :
    startApplication.GambatteDriver.Gambatte.IsReady = false ∧
    (∀ (core : CoreRun) (resampler : ResamplerAnswer)
        (gui : Application → Outcome Application),
      (startApplication.Draw
        { queuedDuration := 0, core := core, resampler := resampler } gui).trace.head? =
        some (.runFor 35112)) ∧
    (startApplication.Draw envQueueEmpty drawNothing).state.GambatteDriver.Gambatte.FrameOverflow
      = 2 ∧
    (startApplication.Draw envQueueEmpty drawNothing).trace =
      [.runFor 35112, .resamplerPut [0, 0, 0, 0, 0, 0, 0, 0]] := by
  refine ⟨rfl, ?_, by rfl, by rfl⟩
  intro core resampler gui
  have hq : (0 : Int) < DefaultBufferSize := by decide
  have h := (UpdateEmulator_below startDriver
    { queuedDuration := 0, core := core, resampler := resampler } hq).2.1
  have hb : GbSamplesPerFrame - startDriver.Gambatte.FrameOverflow = 35112 := by decide
  rw [hb] at h
  exact Draw_trace_head startApplication _ gui _ rfl h

/-- C10: while the reset stage is FadeToBlack, Stalling or ResetDone,
`ProcessInputs` returns normally and leaves the source as it is, whichever
inputs are pressed, Reset included: `ResetStage`, `FadeSamplesTotal`,
`FadeSamplesLeft` and `StallSamplesLeft` are unchanged. -/
theorem ProcessInputs_ignores_reset_while_resetting (src : GambatteSource)
    (env : SourceEnv)
    (h : src.Gambatte.ResetStage = .FadeToBlack ∨ src.Gambatte.ResetStage = .Stalling ∨
      src.Gambatte.ResetStage = .ResetDone) :
    src.ProcessInputs env = .done src ∧
    (src.ProcessInputs env).state.Gambatte.ResetStage = src.Gambatte.ResetStage ∧
    (src.ProcessInputs env).state.Gambatte.FadeSamplesTotal = src.Gambatte.FadeSamplesTotal ∧
    (src.ProcessInputs env).state.Gambatte.FadeSamplesLeft = src.Gambatte.FadeSamplesLeft ∧
    (src.ProcessInputs env).state.Gambatte.StallSamplesLeft =
      src.Gambatte.StallSamplesLeft := by
  have hne : src.Gambatte.ResetStage ≠ .NotResetting := by
    rcases h with h | h | h <;> rw [h] <;> decide
  have hrun : src.ProcessInputs env = .done src := by
    unfold GambatteSource.ProcessInputs
    rw [if_neg hne]
  rw [hrun]
  exact ⟨rfl, rfl, rfl, rfl, rfl⟩

/-- C10, on a source in the middle of a fade with Reset just pressed. -/
theorem ProcessInputs_ignores_reset_while_resetting_witness :
    sampleFadingSource.InputManager.IsPressed .Reset = true ∧
    (sampleFadingSource.Gambatte.ResetStage = .FadeToBlack ∨
      sampleFadingSource.Gambatte.ResetStage = .Stalling ∨
      sampleFadingSource.Gambatte.ResetStage = .ResetDone) ∧
    (sampleFadingSource.ProcessInputs sampleSourceEnv).state.Gambatte.FadeSamplesLeft =
      600000 :=
  ⟨rfl, Or.inl rfl,
    (ProcessInputs_ignores_reset_while_resetting sampleFadingSource sampleSourceEnv
      (Or.inl rfl)).2.2.2.1⟩

/-! ## Theorems: the reset state machine -/

/-- C11: for a draw `r` in `[0, GbSamplesPerFrame)`, `Reset` sets the stage to
FadeToBlack and both `FadeSamplesTotal` and `FadeSamplesLeft` to
`SamplesToFadeFor + r`, a value in `[1234567, 1234567 + 35112)`;
`StallSamplesLeft` and `FrameOverflow` are unchanged. -/
theorem Reset_begins_fade (g : Gambatte) (r : Int)
    (hstage : g.ResetStage = .NotResetting) (h0 : 0 ≤ r) (hr : r < GbSamplesPerFrame) :
    (g.Reset r).ResetStage = .FadeToBlack ∧
    (g.Reset r).FadeSamplesTotal = SamplesToFadeFor + r ∧
    (g.Reset r).FadeSamplesLeft = SamplesToFadeFor + r ∧
    (g.Reset r).FadeSamplesLeft = (g.Reset r).FadeSamplesTotal ∧
    1234567 ≤ (g.Reset r).FadeSamplesTotal ∧
    (g.Reset r).FadeSamplesTotal < 1234567 + 35112 ∧
    (g.Reset r).StallSamplesLeft = g.StallSamplesLeft ∧
    (g.Reset r).FrameOverflow = g.FrameOverflow ∧
    g.ResetStage ≠ (g.Reset r).ResetStage := by
  have hF : (g.Reset r).FadeSamplesTotal = SamplesToFadeFor + r := rfl
  have hc : SamplesToFadeFor = 1234567 := rfl
  have hp : GbSamplesPerFrame = 35112 := rfl
  refine ⟨rfl, rfl, rfl, rfl, ?_, ?_, rfl, rfl, ?_⟩
  · rw [hF, hc]; omega
  · rw [hF, hc]; rw [hp] at hr; omega
  · rw [hstage]; show ResetStage.NotResetting ≠ ResetStage.FadeToBlack; decide

/-- C11, on the initial core state and the draw 17. -/
theorem Reset_begins_fade_witness :
    NewGambatte.ResetStage = .NotResetting ∧ (0 : Int) ≤ 17 ∧ (17 : Int) < GbSamplesPerFrame ∧
    (NewGambatte.Reset 17).FadeSamplesLeft = 1234584 :=
  ⟨rfl, by decide, by decide,
    (Reset_begins_fade NewGambatte 17 rfl (by decide) (by decide)).2.2.1⟩

/-- A difference that is representable is not wrapped. -/
theorem subInt_of_range (a b : Int) (h0 : MinInt64 ≤ a - b) (h1 : a - b ≤ MaxInt64) :
    subInt a b = a - b := by
  have hmin : MinInt64 = -9223372036854775808 := rfl
  have hmax : MaxInt64 = 9223372036854775807 := rfl
  unfold subInt wrapInt
  split_ifs
  · have e : ((2 : Int) ^ 63) = 9223372036854775808 := by norm_num
    have e2 : ((2 : Int) ^ 64) = 18446744073709551616 := by norm_num
    rw [e, e2]
    omega
  · rfl

/-- The difference of two non-negative counts is not wrapped. -/
theorem subInt_nonneg (a b : Int) (ha : 0 ≤ a) (hb : 0 ≤ b) : subInt a b = a - b := by
  have hmin : MinInt64 = -9223372036854775808 := rfl
  have hmax : MaxInt64 = 9223372036854775807 := rfl
  by_cases h : isInt a = true ∧ isInt b = true
  · obtain ⟨h1, h2⟩ := h
    simp only [isInt, decide_eq_true_eq] at h1 h2
    exact subInt_of_range a b (by omega) (by omega)
  · unfold subInt
    rw [if_neg h]

/-- The difference of two `int` values is an `int` value with the same low 64
bits. -/
theorem subInt_wraps (a b : Int) (ha : isInt a = true) (hb : isInt b = true) :
    subInt a b = wrapInt (a - b) ∧ isInt (subInt a b) = true ∧
    (subInt a b - (a - b)) % 2 ^ 64 = 0 := by
  have hs : subInt a b = wrapInt (a - b) := by
    unfold subInt
    rw [if_pos ⟨ha, hb⟩]
  have hmin : MinInt64 = -9223372036854775808 := rfl
  have hmax : MaxInt64 = 9223372036854775807 := rfl
  have e : ((2 : Int) ^ 63) = 9223372036854775808 := by norm_num
  have e2 : ((2 : Int) ^ 64) = 18446744073709551616 := by norm_num
  refine ⟨hs, ?_, ?_⟩
  · rw [hs]
    simp only [isInt, wrapInt, decide_eq_true_eq, e, e2]
    omega
  · rw [hs]
    simp only [wrapInt, e, e2]
    omega

/-- `HandleReset` in stage FadeToBlack. -/
theorem HandleReset_fade_eq (g : Gambatte) (s : Int) (hstage : g.ResetStage = .FadeToBlack) :
    g.HandleReset s =
      if subInt g.FadeSamplesLeft s ≤ 0 then
        ({ g with FadeSamplesLeft := 0, StallSamplesLeft := SamplesToStallFor,
                  ResetStage := .Stalling }, [.coreReset SamplesToStallFor])
      else ({ g with FadeSamplesLeft := subInt g.FadeSamplesLeft s }, []) := by
  unfold Gambatte.HandleReset Gambatte.HandleFade
  rw [hstage]
  simp only [reduceCtorEq, if_false, if_true]

/-- `HandleReset` in stage Stalling. -/
theorem HandleReset_stall_eq (g : Gambatte) (s : Int) (hstage : g.ResetStage = .Stalling) :
    g.HandleReset s =
      if subInt g.StallSamplesLeft s ≤ 0 then
        ({ g with StallSamplesLeft := 0, ResetStage := .ResetDone }, [])
      else ({ g with StallSamplesLeft := subInt g.StallSamplesLeft s }, []) := by
  unfold Gambatte.HandleReset Gambatte.HandleStalling
  rw [hstage]
  simp only [reduceCtorEq, if_false, if_true]
  split_ifs <;> rfl

/-- `HandleReset` in stage ResetDone. -/
theorem HandleReset_done_eq (g : Gambatte) (s : Int) (hstage : g.ResetStage = .ResetDone) :
    g.HandleReset s = ({ g with ResetStage := .NotResetting }, []) := by
  unfold Gambatte.HandleReset
  rw [if_pos hstage]

/-- `HandleReset` in stage NotResetting. -/
theorem HandleReset_idle_eq (g : Gambatte) (s : Int) (hstage : g.ResetStage = .NotResetting) :
    g.HandleReset s = (g, []) := by
  unfold Gambatte.HandleReset
  rw [hstage]
  simp only [reduceCtorEq, if_false]

/-- C12: in stage FadeToBlack, for every `s`, `HandleReset(s)` with
`FadeSamplesLeft - s > 0` stores that difference and keeps the stage,
`StallSamplesLeft` and makes no call into the core; otherwise
`FadeSamplesLeft` becomes 0, the core reset is requested with budget
`SamplesToStallFor`, `StallSamplesLeft` becomes
`SamplesToStallFor = 101 * 32768 = 3309568` and the stage becomes Stalling;
`FadeSamplesTotal` is unchanged either way. The difference is the one Go
computes on `int`: the exact difference whenever that is representable in 64
bits, and the `int` with the same low 64 bits otherwise. -/
theorem HandleReset_fading (g : Gambatte) (s : Int) (hstage : g.ResetStage = .FadeToBlack) :
    (0 < subInt g.FadeSamplesLeft s →
      (g.HandleReset s).1.FadeSamplesLeft = subInt g.FadeSamplesLeft s ∧
      (g.HandleReset s).1.ResetStage = .FadeToBlack ∧
      (g.HandleReset s).1.StallSamplesLeft = g.StallSamplesLeft ∧
      (g.HandleReset s).2 = []) ∧
    (subInt g.FadeSamplesLeft s ≤ 0 →
      (g.HandleReset s).1.FadeSamplesLeft = 0 ∧
      (g.HandleReset s).2 = [.coreReset SamplesToStallFor] ∧
      (g.HandleReset s).1.StallSamplesLeft = SamplesToStallFor ∧
      (g.HandleReset s).1.ResetStage = .Stalling) ∧
    (MinInt64 ≤ g.FadeSamplesLeft - s → g.FadeSamplesLeft - s ≤ MaxInt64 →
      subInt g.FadeSamplesLeft s = g.FadeSamplesLeft - s) ∧
    (isInt g.FadeSamplesLeft = true → isInt s = true →
      subInt g.FadeSamplesLeft s = wrapInt (g.FadeSamplesLeft - s) ∧
      isInt (subInt g.FadeSamplesLeft s) = true ∧
      (subInt g.FadeSamplesLeft s - (g.FadeSamplesLeft - s)) % 2 ^ 64 = 0) ∧
    SamplesToStallFor = 101 * 32768 ∧ SamplesToStallFor = 3309568 ∧
    (g.HandleReset s).1.FadeSamplesTotal = g.FadeSamplesTotal := by
  rw [HandleReset_fade_eq g s hstage]
  refine ⟨?_, ?_, subInt_of_range _ _, subInt_wraps _ _, by decide, by decide, ?_⟩
  · intro h
    rw [if_neg (not_le.mpr h)]
    exact ⟨rfl, hstage, rfl, rfl⟩
  · intro h
    rw [if_pos h]
    exact ⟨rfl, rfl, rfl, rfl⟩
  · split_ifs <;> rfl

/-- C12, on a fade with 600000 samples left: 35112 samples leave 564888,
600000 samples end the fade, and the count `math.MinInt64`, whose difference
wraps to a negative `int`, ends the fade with the core reset requested. -/
theorem HandleReset_fading_witness :
    sampleFading.ResetStage = .FadeToBlack ∧
    (0 : Int) < subInt sampleFading.FadeSamplesLeft 35112 ∧
    (sampleFading.HandleReset 35112).1.FadeSamplesLeft = 600000 - 35112 ∧
    subInt sampleFading.FadeSamplesLeft 600000 ≤ 0 ∧
    (sampleFading.HandleReset 600000).1.ResetStage = .Stalling ∧
    subInt sampleFading.FadeSamplesLeft MinInt64 ≤ 0 ∧
    (sampleFading.HandleReset MinInt64).1.ResetStage = .Stalling ∧
    (sampleFading.HandleReset MinInt64).2 = [.coreReset SamplesToStallFor] :=
  ⟨rfl, by decide,
    (((HandleReset_fading sampleFading 35112 rfl).1 (by decide)).1).trans (by decide),
    by decide,
    ((HandleReset_fading sampleFading 600000 rfl).2.1 (by decide)).2.2.2,
    by decide,
    ((HandleReset_fading sampleFading MinInt64 rfl).2.1 (by decide)).2.2.2,
    ((HandleReset_fading sampleFading MinInt64 rfl).2.1 (by decide)).2.1⟩

/-- C13: in stage Stalling, for every `s`, `HandleReset(s)` with
`StallSamplesLeft - s > 0` stores that difference and keeps the stage;
otherwise `StallSamplesLeft` becomes 0 and the stage becomes ResetDone;
`FadeSamplesTotal` and `FadeSamplesLeft` are unchanged either way and no call
is made into the core. The difference is the one Go computes on `int`: the
exact difference whenever that is representable in 64 bits, and the `int`
with the same low 64 bits otherwise. -/
theorem HandleReset_stalling (g : Gambatte) (s : Int) (hstage : g.ResetStage = .Stalling) :
    (0 < subInt g.StallSamplesLeft s →
      (g.HandleReset s).1.StallSamplesLeft = subInt g.StallSamplesLeft s ∧
      (g.HandleReset s).1.ResetStage = .Stalling) ∧
    (subInt g.StallSamplesLeft s ≤ 0 →
      (g.HandleReset s).1.StallSamplesLeft = 0 ∧
      (g.HandleReset s).1.ResetStage = .ResetDone) ∧
    (MinInt64 ≤ g.StallSamplesLeft - s → g.StallSamplesLeft - s ≤ MaxInt64 →
      subInt g.StallSamplesLeft s = g.StallSamplesLeft - s) ∧
    (isInt g.StallSamplesLeft = true → isInt s = true →
      subInt g.StallSamplesLeft s = wrapInt (g.StallSamplesLeft - s) ∧
      isInt (subInt g.StallSamplesLeft s) = true ∧
      (subInt g.StallSamplesLeft s - (g.StallSamplesLeft - s)) % 2 ^ 64 = 0) ∧
    (g.HandleReset s).1.FadeSamplesTotal = g.FadeSamplesTotal ∧
    (g.HandleReset s).1.FadeSamplesLeft = g.FadeSamplesLeft ∧
    (g.HandleReset s).2 = [] := by
  rw [HandleReset_stall_eq g s hstage]
  refine ⟨?_, ?_, subInt_of_range _ _, subInt_wraps _ _, ?_, ?_, ?_⟩
  · intro h
    rw [if_neg (not_le.mpr h)]
    exact ⟨rfl, hstage⟩
  · intro h
    rw [if_pos h]
    exact ⟨rfl, rfl⟩
  · split_ifs <;> rfl
  · split_ifs <;> rfl
  · split_ifs <;> rfl

/-- C13, on a stall with 50000 samples left: 35112 samples leave 14888, the
next 35112 complete the reset, and the count `math.MinInt64`, whose
difference wraps to a negative `int`, completes it at once. -/
theorem HandleReset_stalling_witness :
    sampleStalling.ResetStage = .Stalling ∧
    (0 : Int) < subInt sampleStalling.StallSamplesLeft 35112 ∧
    (sampleStalling.HandleReset 35112).1.StallSamplesLeft = 50000 - 35112 ∧
    subInt sampleStalling.StallSamplesLeft 50000 ≤ 0 ∧
    (sampleStalling.HandleReset 50000).1.ResetStage = .ResetDone ∧
    subInt sampleStalling.StallSamplesLeft MinInt64 ≤ 0 ∧
    (sampleStalling.HandleReset MinInt64).1.ResetStage = .ResetDone :=
  ⟨rfl, by decide,
    (((HandleReset_stalling sampleStalling 35112 rfl).1 (by decide)).1).trans (by decide),
    by decide,
    ((HandleReset_stalling sampleStalling 50000 rfl).2.1 (by decide)).2,
    by decide,
    ((HandleReset_stalling sampleStalling MinInt64 rfl).2.1 (by decide)).2⟩

/-- The stage `HandleReset` leaves is ResetDone only when it was called in
stage Stalling. -/
theorem HandleReset_done_from_stalling (g : Gambatte) (s : Int)
    (h : (g.HandleReset s).1.ResetStage = .ResetDone) : g.ResetStage = .Stalling := by
  cases hst : g.ResetStage with
  | NotResetting =>
    rw [HandleReset_idle_eq g s hst] at h
    rw [hst] at h
    cases h
  | FadeToBlack =>
    rw [HandleReset_fade_eq g s hst] at h
    split_ifs at h
    simp [hst] at h
  | Stalling => rfl
  | ResetDone =>
    rw [HandleReset_done_eq g s hst] at h
    cases h

/-- C14: in stage ResetDone, `HandleReset` moves to NotResetting, changes no
countdown and calls nothing; in stage NotResetting it changes nothing; and in
every run of `HandleReset` calls a state in stage ResetDone that a call
produced comes right after a state in stage Stalling and is followed, one call
later, by a state in stage NotResetting. -/
theorem ResetDone_lasts_one_tick (g : Gambatte) (s : Nat → Int) :
    (∀ (g1 : Gambatte) (n : Int), g1.ResetStage = .ResetDone →
      (g1.HandleReset n).1.ResetStage = .NotResetting ∧
      (g1.HandleReset n).1.FadeSamplesTotal = g1.FadeSamplesTotal ∧
      (g1.HandleReset n).1.FadeSamplesLeft = g1.FadeSamplesLeft ∧
      (g1.HandleReset n).1.StallSamplesLeft = g1.StallSamplesLeft ∧
      (g1.HandleReset n).2 = []) ∧
    (∀ (g1 : Gambatte) (n : Int), g1.ResetStage = .NotResetting →
      g1.HandleReset n = (g1, [])) ∧
    (∀ t, (resetRun g s (t + 1)).ResetStage = .ResetDone →
      (resetRun g s t).ResetStage = .Stalling) ∧
    (∀ t, (resetRun g s t).ResetStage = .ResetDone →
      (resetRun g s (t + 1)).ResetStage = .NotResetting ∧
      (resetRun g s (t + 2)) = resetRun g s (t + 1)) := by
  have hdone : ∀ (g1 : Gambatte) (n : Int), g1.ResetStage = .ResetDone →
      (g1.HandleReset n).1.ResetStage = .NotResetting ∧
      (g1.HandleReset n).1.FadeSamplesTotal = g1.FadeSamplesTotal ∧
      (g1.HandleReset n).1.FadeSamplesLeft = g1.FadeSamplesLeft ∧
      (g1.HandleReset n).1.StallSamplesLeft = g1.StallSamplesLeft ∧
      (g1.HandleReset n).2 = [] := by
    intro g1 n h
    rw [HandleReset_done_eq g1 n h]
    exact ⟨rfl, rfl, rfl, rfl, rfl⟩
  refine ⟨hdone, HandleReset_idle_eq, ?_, ?_⟩
  · intro t h
    exact HandleReset_done_from_stalling (resetRun g s t) (s t) h
  · intro t h
    have h1 : (resetRun g s (t + 1)).ResetStage = .NotResetting :=
      (hdone (resetRun g s t) (s t) h).1
    refine ⟨h1, ?_⟩
    show ((resetRun g s (t + 1)).HandleReset (s (t + 1))).1 = _
    rw [HandleReset_idle_eq _ _ h1]

/-- C14, on a stall that ends on the first of three ticks. -/
theorem ResetDone_lasts_one_tick_witness :
    (resetRun sampleStalling (fun _ => 50000) 1).ResetStage = .ResetDone ∧
    (resetRun sampleStalling (fun _ => 50000) 0).ResetStage = .Stalling ∧
    (resetRun sampleStalling (fun _ => 50000) 2).ResetStage = .NotResetting ∧
    resetRun sampleStalling (fun _ => 50000) 3 = resetRun sampleStalling (fun _ => 50000) 2 :=
  ⟨by decide,
    (ResetDone_lasts_one_tick sampleStalling (fun _ => 50000)).2.2.1 0 (by decide),
    ((ResetDone_lasts_one_tick sampleStalling (fun _ => 50000)).2.2.2 1 (by decide)).1,
    ((ResetDone_lasts_one_tick sampleStalling (fun _ => 50000)).2.2.2 1 (by decide)).2⟩

theorem resetRun_add (g : Gambatte) (s : Nat → Int) (k n : Nat) :
    resetRun g s (k + n) = resetRun (resetRun g s k) (fun i => s (k + i)) n := by
  induction n with
  | zero => rfl
  | succ n ih =>
    show ((resetRun g s (k + n)).HandleReset (s (k + n))).1 = _
    rw [ih]
    rfl

theorem elapsedTotal_add (s : Nat → Int) (k n : Nat) :
    elapsedTotal s (k + n) = elapsedTotal s k + elapsedTotal (fun i => s (k + i)) n := by
  induction n with
  | zero => simp [elapsedTotal]
  | succ n ih =>
    show elapsedTotal s (k + n) + s (k + n) = _
    rw [ih]
    simp only [elapsedTotal]
    ring

theorem elapsedTotal_ge (s : Nat → Int) (hs : ∀ i, 1 ≤ s i) (n : Nat) :
    (n : Int) ≤ elapsedTotal s n := by
  induction n with
  | zero => simp [elapsedTotal]
  | succ n ih =>
    have := hs n
    simp only [elapsedTotal]
    push_cast
    omega

/-- While a non-negative countdown stays in its stage it has lost exactly the
samples elapsed, and it is positive after every tick spent in the stage. -/
theorem countdown_left (stage : ResetStage) (left : Gambatte → Int)
    (hstep : ∀ (g1 : Gambatte) (n : Int), g1.ResetStage = stage → 0 ≤ left g1 → 0 ≤ n →
      (left g1 - n ≤ 0 → (g1.HandleReset n).1.ResetStage ≠ stage) ∧
      (0 < left g1 - n → (g1.HandleReset n).1.ResetStage = stage ∧
        left (g1.HandleReset n).1 = left g1 - n))
    (g : Gambatte) (s : Nat → Int) (hs : ∀ i, 1 ≤ s i) (hl0 : 0 ≤ left g) (n : Nat)
    (h : ∀ m ≤ n, (resetRun g s m).ResetStage = stage) :
    left (resetRun g s n) = left g - elapsedTotal s n ∧
    (0 < n → 0 < left (resetRun g s n)) ∧ 0 ≤ left (resetRun g s n) := by
  induction n with
  | zero => simp [resetRun, elapsedTotal, hl0]
  | succ n ih =>
    obtain ⟨ihl, _, ihn⟩ := ih (fun m hm => h m (Nat.le_succ_of_le hm))
    have hn := h n (Nat.le_succ n)
    have hn1 : ((resetRun g s n).HandleReset (s n)).1.ResetStage = stage :=
      h (n + 1) (le_refl _)
    have hsn := hs n
    obtain ⟨hout, hin⟩ := hstep (resetRun g s n) (s n) hn ihn (by omega)
    have hpos : 0 < left (resetRun g s n) - s n := by
      by_contra hc
      exact hout (not_lt.mp hc) hn1
    have hl : left (resetRun g s (n + 1)) = left (resetRun g s n) - s n := (hin hpos).2
    refine ⟨?_, fun _ => ?_, ?_⟩
    · rw [hl, ihl]
      simp only [elapsedTotal]
      ring
    · rw [hl]; exact hpos
    · rw [hl]; exact le_of_lt hpos

/-- A non-negative countdown fed at least one sample per tick leaves its stage
after finitely many ticks, and not before the samples elapsed cover it. -/
theorem countdown_finishes (stage : ResetStage) (left : Gambatte → Int)
    (hstep : ∀ (g1 : Gambatte) (n : Int), g1.ResetStage = stage → 0 ≤ left g1 → 0 ≤ n →
      (left g1 - n ≤ 0 → (g1.HandleReset n).1.ResetStage ≠ stage) ∧
      (0 < left g1 - n → (g1.HandleReset n).1.ResetStage = stage ∧
        left (g1.HandleReset n).1 = left g1 - n))
    (g : Gambatte) (s : Nat → Int) (hs : ∀ i, 1 ≤ s i) (h0 : g.ResetStage = stage)
    (hl0 : 0 ≤ left g) :
    ∃ k, (∀ m ≤ k, (resetRun g s m).ResetStage = stage) ∧
      (resetRun g s (k + 1)).ResetStage ≠ stage ∧
      left g ≤ elapsedTotal s (k + 1) := by
  have hex : ∃ n, (resetRun g s n).ResetStage ≠ stage := by
    by_contra hall
    push_neg at hall
    obtain ⟨hl, hp, _⟩ := countdown_left stage left hstep g s hs hl0 ((left g).toNat + 1)
      (fun m _ => hall m)
    have hpos := hp (Nat.succ_pos _)
    have hge := elapsedTotal_ge s hs ((left g).toNat + 1)
    have htn : left g ≤ ((left g).toNat : Int) := Int.self_le_toNat _
    rw [hl] at hpos
    push_cast at hge
    omega
  classical
  have hfind := Nat.find_spec hex
  have hmin := fun m (hm : m < Nat.find hex) => Nat.find_min hex hm
  have hk0 : Nat.find hex ≠ 0 := by
    intro h
    rw [h] at hfind
    exact hfind h0
  obtain ⟨k, hk⟩ := Nat.exists_eq_succ_of_ne_zero hk0
  rw [hk] at hfind hmin
  have hstay : ∀ m ≤ k, (resetRun g s m).ResetStage = stage := by
    intro m hm
    by_contra hc
    exact hmin m (Nat.lt_succ_of_le hm) hc
  refine ⟨k, hstay, hfind, ?_⟩
  obtain ⟨hl, _, hnn⟩ := countdown_left stage left hstep g s hs hl0 k hstay
  have hsk := hs k
  obtain ⟨_, hin⟩ := hstep (resetRun g s k) (s k) (hstay k (le_refl _)) hnn (by omega)
  have hle : left (resetRun g s k) - s k ≤ 0 := by
    by_contra hc
    exact hfind (hin (not_le.mp hc)).1
  rw [hl] at hle
  simp only [elapsedTotal]
  omega

theorem fade_step (g1 : Gambatte) (n : Int) (h : g1.ResetStage = .FadeToBlack)
    (hl : 0 ≤ g1.FadeSamplesLeft) (hn : 0 ≤ n) :
    (g1.FadeSamplesLeft - n ≤ 0 → (g1.HandleReset n).1.ResetStage ≠ .FadeToBlack) ∧
    (0 < g1.FadeSamplesLeft - n → (g1.HandleReset n).1.ResetStage = .FadeToBlack ∧
      (g1.HandleReset n).1.FadeSamplesLeft = g1.FadeSamplesLeft - n) := by
  rw [HandleReset_fade_eq g1 n h, subInt_nonneg _ _ hl hn]
  constructor
  · intro hle
    rw [if_pos hle]
    show ResetStage.Stalling ≠ ResetStage.FadeToBlack
    decide
  · intro hpos
    rw [if_neg (not_le.mpr hpos)]
    exact ⟨h, rfl⟩

theorem stall_step (g1 : Gambatte) (n : Int) (h : g1.ResetStage = .Stalling)
    (hl : 0 ≤ g1.StallSamplesLeft) (hn : 0 ≤ n) :
    (g1.StallSamplesLeft - n ≤ 0 → (g1.HandleReset n).1.ResetStage ≠ .Stalling) ∧
    (0 < g1.StallSamplesLeft - n → (g1.HandleReset n).1.ResetStage = .Stalling ∧
      (g1.HandleReset n).1.StallSamplesLeft = g1.StallSamplesLeft - n) := by
  rw [HandleReset_stall_eq g1 n h, subInt_nonneg _ _ hl hn]
  constructor
  · intro hle
    rw [if_pos hle]
    show ResetStage.ResetDone ≠ ResetStage.Stalling
    decide
  · intro hpos
    rw [if_neg (not_le.mpr hpos)]
    exact ⟨h, rfl⟩

/-- A fade fed at least one sample per tick ends after finitely many ticks, and
not before the samples elapsed cover its countdown, whatever the countdown
holds at the start. -/
theorem fade_finishes (g : Gambatte) (s : Nat → Int) (hs : ∀ i, 1 ≤ s i)
    (h0 : g.ResetStage = .FadeToBlack) :
    ∃ k, (∀ m ≤ k, (resetRun g s m).ResetStage = .FadeToBlack) ∧
      (resetRun g s (k + 1)).ResetStage ≠ .FadeToBlack ∧
      g.FadeSamplesLeft ≤ elapsedTotal s (k + 1) := by
  by_cases hl : 0 ≤ g.FadeSamplesLeft
  · exact countdown_finishes .FadeToBlack (fun g1 => g1.FadeSamplesLeft) fade_step g s hs h0 hl
  · have hneg : g.FadeSamplesLeft < 0 := not_le.mp hl
    by_cases h1 : (resetRun g s 1).ResetStage = .FadeToBlack
    · have hrun1 : resetRun g s 1 = (g.HandleReset (s 0)).1 := rfl
      have hpos : 0 ≤ (resetRun g s 1).FadeSamplesLeft := by
        rw [hrun1, HandleReset_fade_eq g (s 0) h0] at h1 ⊢
        by_cases hc : subInt g.FadeSamplesLeft (s 0) ≤ 0
        · rw [if_pos hc] at h1
          have h2 : ResetStage.Stalling = ResetStage.FadeToBlack := h1
          cases h2
        · rw [if_neg hc]
          show 0 ≤ subInt g.FadeSamplesLeft (s 0)
          omega
      obtain ⟨k, hstay, hleave, _⟩ :=
        countdown_finishes .FadeToBlack (fun g1 => g1.FadeSamplesLeft) fade_step
          (resetRun g s 1) (fun i => s (1 + i)) (fun i => hs (1 + i)) h1 hpos
      refine ⟨k + 1, ?_, ?_, ?_⟩
      · intro m hm
        cases m with
        | zero => exact h0
        | succ j =>
          have e : j + 1 = 1 + j := Nat.add_comm _ _
          rw [e, resetRun_add]
          exact hstay j (by omega)
      · have e : k + 1 + 1 = 1 + (k + 1) := by omega
        rw [e, resetRun_add]
        exact hleave
      · have := elapsedTotal_ge s hs (k + 1 + 1)
        push_cast at this
        omega
    · refine ⟨0, ?_, h1, ?_⟩
      · intro m hm
        have e : m = 0 := by omega
        subst e
        exact h0
      · have := elapsedTotal_ge s hs 1
        show g.FadeSamplesLeft ≤ elapsedTotal s 1
        push_cast at this
        omega

/-- C15: after `Reset` in stage NotResetting with fade budget
`F = SamplesToFadeFor + r`, feeding `HandleReset` at least one sample per tick
brings the stage to ResetDone after finitely many ticks, and on the first tick
`n` in stage ResetDone the samples elapsed `s 0 + ... + s (n - 1)` are at
least `F + SamplesToStallFor`. -/
theorem reset_cycle_completes (g : Gambatte) (r : Int) (s : Nat → Int)
    (hstage : g.ResetStage = .NotResetting) (hs : ∀ i, 1 ≤ s i) :
    g.ResetStage ≠ .ResetDone ∧
    ∃ n, (resetRun (g.Reset r) s n).ResetStage = .ResetDone ∧
      (∀ m < n, (resetRun (g.Reset r) s m).ResetStage ≠ .ResetDone) ∧
      (SamplesToFadeFor + r) + SamplesToStallFor ≤ elapsedTotal s n := by
  refine ⟨by rw [hstage]; decide, ?_⟩
  obtain ⟨k, hfade, hleave, hF⟩ := fade_finishes (g.Reset r) s hs rfl
  -- the tick that ends the fade starts the stall with the full budget
  have hk := hfade k (le_refl _)
  have hrun1 : resetRun (g.Reset r) s (k + 1) =
      ((resetRun (g.Reset r) s k).HandleReset (s k)).1 := rfl
  rw [hrun1, HandleReset_fade_eq _ _ hk] at hleave
  have hstall : (resetRun (g.Reset r) s (k + 1)).ResetStage = .Stalling ∧
      (resetRun (g.Reset r) s (k + 1)).StallSamplesLeft = SamplesToStallFor := by
    rw [hrun1, HandleReset_fade_eq _ _ hk]
    split_ifs with hc
    · exact ⟨rfl, rfl⟩
    · rw [if_neg hc] at hleave
      exact absurd hk hleave
  obtain ⟨k2, hst2, hleave2, hS⟩ :=
    countdown_finishes .Stalling (fun g1 => g1.StallSamplesLeft) stall_step
      (resetRun (g.Reset r) s (k + 1)) (fun i => s (k + 1 + i))
      (fun i => hs (k + 1 + i)) hstall.1
      (by show 0 ≤ (resetRun (g.Reset r) s (k + 1)).StallSamplesLeft
          rw [hstall.2]
          decide)
  have hk2 := hst2 k2 (le_refl _)
  have hdone : (resetRun (resetRun (g.Reset r) s (k + 1)) (fun i => s (k + 1 + i))
      (k2 + 1)).ResetStage = .ResetDone := by
    have hrun2 : resetRun (resetRun (g.Reset r) s (k + 1)) (fun i => s (k + 1 + i))
        (k2 + 1) = ((resetRun (resetRun (g.Reset r) s (k + 1)) (fun i => s (k + 1 + i))
          k2).HandleReset (s (k + 1 + k2))).1 := rfl
    rw [hrun2, HandleReset_stall_eq _ _ hk2] at hleave2 ⊢
    split_ifs with hc
    · rfl
    · rw [if_neg hc] at hleave2
      exact absurd hk2 hleave2
  refine ⟨k + 1 + (k2 + 1), ?_, ?_, ?_⟩
  · rw [resetRun_add]
    exact hdone
  · intro m hm
    by_cases hmk : m ≤ k
    · rw [hfade m hmk]
      decide
    · obtain ⟨j, rfl⟩ : ∃ j, m = k + 1 + j := ⟨m - (k + 1), by omega⟩
      rw [resetRun_add, hst2 j (by omega)]
      decide
  · rw [elapsedTotal_add]
    have hF1 : (g.Reset r).FadeSamplesLeft = SamplesToFadeFor + r := rfl
    simp only [hF1] at hF
    rw [hstall.2] at hS
    omega

/-- C15, on the initial core state, the draw 17 and full frames of 35112
samples. -/
theorem reset_cycle_completes_witness :
    NewGambatte.ResetStage = .NotResetting ∧ (∀ i : Nat, (1 : Int) ≤ (fun _ => 35112) i) ∧
    ∃ n, (resetRun (NewGambatte.Reset 17) (fun _ => 35112) n).ResetStage = .ResetDone ∧
      (∀ m < n, (resetRun (NewGambatte.Reset 17) (fun _ => 35112) m).ResetStage ≠
        .ResetDone) ∧
      (SamplesToFadeFor + 17) + SamplesToStallFor ≤ elapsedTotal (fun _ => 35112) n :=
  ⟨rfl, fun _ => by norm_num,
    (reset_cycle_completes NewGambatte 17 (fun _ => 35112) rfl (fun _ => by norm_num)).2⟩

theorem ResetInvariant_tick (g : Gambatte) (s : Int) (h : ResetInvariant g) :
    ResetInvariant (g.HandleReset s).1 := by
  obtain ⟨hf, hst, hfd, hsd⟩ := h
  cases hstage : g.ResetStage with
  | NotResetting =>
    rw [HandleReset_idle_eq g s hstage]
    exact ⟨hf, hst, hfd, hsd⟩
  | FadeToBlack =>
    rw [HandleReset_fade_eq g s hstage]
    split_ifs with hc
    · have hpos : (0 : Int) ≤ SamplesToStallFor := by decide
      exact ⟨le_refl _, hpos, fun _ => rfl, fun h => by cases h⟩
    · refine ⟨by show 0 ≤ subInt g.FadeSamplesLeft s; omega, hst, ?_, ?_⟩
      · intro h
        have h1 : g.ResetStage = .Stalling ∨ g.ResetStage = .ResetDone := h
        rw [hstage] at h1
        rcases h1 with h1 | h1 <;> cases h1
      · intro h
        have h1 : g.ResetStage = .ResetDone := h
        rw [hstage] at h1
        cases h1
  | Stalling =>
    have hzero : g.FadeSamplesLeft = 0 := hfd (Or.inl hstage)
    rw [HandleReset_stall_eq g s hstage]
    split_ifs with hc
    · exact ⟨hf, le_refl _, fun _ => hzero, fun _ => rfl⟩
    · refine ⟨hf, by show 0 ≤ subInt g.StallSamplesLeft s; omega, fun _ => hzero, ?_⟩
      intro h
      have h1 : g.ResetStage = .ResetDone := h
      rw [hstage] at h1
      cases h1
  | ResetDone =>
    rw [HandleReset_done_eq g s hstage]
    refine ⟨hf, hst, ?_, ?_⟩
    · intro h
      rcases h with h | h <;> cases h
    · intro h
      cases h

theorem Reachable_invariant (g : Gambatte) (h : Reachable g) : ResetInvariant g := by
  induction h with
  | init => exact ⟨le_refl _, le_refl _, fun _ => rfl, fun _ => rfl⟩
  | reset g r _ hstage h0 _ ih =>
    refine ⟨?_, ih.stall_nonneg, ?_, ?_⟩
    · show 0 ≤ SamplesToFadeFor + r
      have : SamplesToFadeFor = 1234567 := rfl
      omega
    · intro h
      rcases h with h | h <;> cases h
    · intro h
      cases h
  | tick g s _ _ ih => exact ResetInvariant_tick g s ih
  | other g g1 _ e1 _ e3 e4 ih =>
    refine ⟨by rw [e3]; exact ih.fade_nonneg, by rw [e4]; exact ih.stall_nonneg, ?_, ?_⟩
    · intro h
      rw [e1] at h
      rw [e3]
      exact ih.fade_done h
    · intro h
      rw [e1] at h
      rw [e4]
      exact ih.stall_done h

/-- C16: in every state reachable from the initial one by `Reset` (in stage
NotResetting) and `HandleReset` with non-negative sample counts, both
countdowns are non-negative; a `HandleReset` call in stage FadeToBlack does
not increase `FadeSamplesLeft` and one in stage Stalling does not increase
`StallSamplesLeft`; `FadeSamplesLeft` is 0 in stage Stalling, also right after
the call that entered it; `StallSamplesLeft` is 0 in stage ResetDone. -/
theorem reset_countdowns_invariant (g : Gambatte) (hreach : Reachable g) :
    0 ≤ g.FadeSamplesLeft ∧ 0 ≤ g.StallSamplesLeft ∧
    (∀ s, 0 ≤ s → g.ResetStage = .FadeToBlack →
      (g.HandleReset s).1.FadeSamplesLeft ≤ g.FadeSamplesLeft) ∧
    (∀ s, 0 ≤ s → g.ResetStage = .Stalling →
      (g.HandleReset s).1.StallSamplesLeft ≤ g.StallSamplesLeft) ∧
    (g.ResetStage = .Stalling → g.FadeSamplesLeft = 0) ∧
    (∀ s, 0 ≤ s → (g.HandleReset s).1.ResetStage = .Stalling →
      (g.HandleReset s).1.FadeSamplesLeft = 0) ∧
    (g.ResetStage = .ResetDone → g.StallSamplesLeft = 0) := by
  have hinv := Reachable_invariant g hreach
  refine ⟨hinv.fade_nonneg, hinv.stall_nonneg, ?_, ?_, fun h => hinv.fade_done (Or.inl h),
    ?_, hinv.stall_done⟩
  · intro s hs hstage
    have hf := hinv.fade_nonneg
    rw [HandleReset_fade_eq g s hstage, subInt_nonneg _ _ hf hs]
    split_ifs with hc
    · exact hf
    · show g.FadeSamplesLeft - s ≤ g.FadeSamplesLeft
      omega
  · intro s hs hstage
    have hst := hinv.stall_nonneg
    rw [HandleReset_stall_eq g s hstage, subInt_nonneg _ _ hst hs]
    split_ifs with hc
    · exact hst
    · show g.StallSamplesLeft - s ≤ g.StallSamplesLeft
      omega
  · intro s _ h
    exact (ResetInvariant_tick g s hinv).fade_done (Or.inl h)

/-- C16, on the state four full frames into a reset begun from the initial
state. -/
theorem reset_countdowns_invariant_witness :
    Reachable (resetRun (NewGambatte.Reset 17) (fun _ => 35112) 4) ∧
    (resetRun (NewGambatte.Reset 17) (fun _ => 35112) 4).FadeSamplesLeft = 1094136 ∧
    0 ≤ (resetRun (NewGambatte.Reset 17) (fun _ => 35112) 4).FadeSamplesLeft :=
  have hreach : Reachable (resetRun (NewGambatte.Reset 17) (fun _ => 35112) 4) :=
    Reachable.tick _ 35112 (Reachable.tick _ 35112 (Reachable.tick _ 35112
      (Reachable.tick _ 35112
        (Reachable.reset NewGambatte 17 Reachable.init rfl (by decide) (by decide))
        (by decide)) (by decide)) (by decide)) (by decide)
  ⟨hreach, by decide, (reset_countdowns_invariant _ hreach).1⟩

/-! ## Theorems: the frame overflow carry -/

theorem storeLowWord_small (v : Int) (w : Nat) (h0 : 0 ≤ v) (h1 : v < 2 ^ 32)
    (hw : w < 2 ^ 32) : storeLowWord v w = w := by
  unfold storeLowWord
  have e1 : v % 2 ^ 64 = v := Int.emod_eq_of_lt h0 (by omega)
  have e2 : v / 2 ^ 32 = 0 := Int.ediv_eq_zero_of_lt h0 h1
  have e3 : w % 2 ^ 32 = w := Nat.mod_eq_of_lt hw
  simp only [e1, e2, e3]
  have hlt : (0 : Int) * 2 ^ 32 + (w : Int) < 2 ^ 63 := by
    have : (w : Int) < 2 ^ 32 := by exact_mod_cast hw
    omega
  rw [if_pos hlt]
  simp

theorem HandleReset_FrameOverflow (g : Gambatte) (s : Int) :
    (g.HandleReset s).1.FrameOverflow = g.FrameOverflow := by
  cases hstage : g.ResetStage with
  | NotResetting => rw [HandleReset_idle_eq g s hstage]
  | FadeToBlack => rw [HandleReset_fade_eq g s hstage]; split_ifs <;> rfl
  | Stalling => rw [HandleReset_stall_eq g s hstage]; split_ifs <;> rfl
  | ResetDone => rw [HandleReset_done_eq g s hstage]

/-- C17: with `FrameOverflow = v` in `[0, GbSamplesPerFrame)` and a core that
reports `samplesElapsed` (a C `unsigned`) and `offset`, `AdvanceFrame` asks
the core for `GbSamplesPerFrame - v` samples, returns `samplesElapsed`, and
leaves `FrameOverflow` at 0 if `offset >= 0` or
`v + samplesElapsed >= GbSamplesPerFrame` and at `v + samplesElapsed`
otherwise; so `FrameOverflow` is again in `[0, GbSamplesPerFrame)`, and it is
0 when `samplesElapsed` is exactly `GbSamplesPerFrame` with `offset < 0`. -/
theorem AdvanceFrame_overflow (g : Gambatte) (core : CoreRun)
    (h0 : 0 ≤ g.FrameOverflow) (h1 : g.FrameOverflow < GbSamplesPerFrame)
    (hc : core.samples < 2 ^ 32) :
    (g.AdvanceFrame core).2.2.head? = some (.runFor (GbSamplesPerFrame - g.FrameOverflow)) ∧
    (g.AdvanceFrame core).2.1 = core.samples ∧
    ((0 ≤ core.offset ∨ GbSamplesPerFrame ≤ g.FrameOverflow + core.samples) →
      (g.AdvanceFrame core).1.FrameOverflow = 0) ∧
    (¬ (0 ≤ core.offset ∨ GbSamplesPerFrame ≤ g.FrameOverflow + core.samples) →
      (g.AdvanceFrame core).1.FrameOverflow = g.FrameOverflow + core.samples) ∧
    0 ≤ (g.AdvanceFrame core).1.FrameOverflow ∧
    (g.AdvanceFrame core).1.FrameOverflow < GbSamplesPerFrame ∧
    (core.offset < 0 → (core.samples : Int) = GbSamplesPerFrame →
      (g.AdvanceFrame core).1.FrameOverflow = 0) := by
  have hp : GbSamplesPerFrame = 35112 := rfl
  have hstore : storeLowWord (GbSamplesPerFrame - g.FrameOverflow) core.samples =
      core.samples :=
    storeLowWord_small _ _ (by omega) (by rw [hp]; omega) hc
  have hover : (g.AdvanceFrame core).1.FrameOverflow =
      if 0 ≤ core.offset ∨ GbSamplesPerFrame ≤ g.FrameOverflow + core.samples then 0
      else g.FrameOverflow + core.samples := by
    unfold Gambatte.AdvanceFrame
    simp only [hstore, HandleReset_FrameOverflow, ge_iff_le]
    split_ifs <;> rfl
  have hnn : (0 : Int) ≤ core.samples := Int.ofNat_nonneg _
  refine ⟨rfl, hstore, ?_, ?_, ?_, ?_, ?_⟩
  · intro h
    rw [hover, if_pos h]
  · intro h
    rw [hover, if_neg h]
  · rw [hover]
    split_ifs
    · exact le_refl _
    · omega
  · rw [hover]
    split_ifs with h
    · rw [hp]; decide
    · push_neg at h
      exact h.2
  · intro _ hs
    rw [hover, if_pos (Or.inr (by omega))]

/-- C17, on the initial state and a core reporting exactly one frame of
samples with a negative offset. -/
theorem AdvanceFrame_overflow_witness :
    (0 : Int) ≤ NewGambatte.FrameOverflow ∧ NewGambatte.FrameOverflow < GbSamplesPerFrame ∧
    coreFullFrame.samples < 2 ^ 32 ∧ coreFullFrame.offset < 0 ∧
    (coreFullFrame.samples : Int) = GbSamplesPerFrame ∧
    (NewGambatte.AdvanceFrame coreFullFrame).1.FrameOverflow = 0 :=
  ⟨by decide, by decide, by decide, by decide, by decide,
    (AdvanceFrame_overflow NewGambatte coreFullFrame (by decide) (by decide)
      (by decide)).2.2.2.2.2.2 (by decide) (by decide)⟩

/-! ## Theorems: the state slot -/

theorem UpdateState_slot (se : StateElement) (read : Option GoSlice) :
    (se.UpdateState read).state.Slot = se.Slot := by
  unfold StateElement.UpdateState
  dsimp only
  repeat' split
  all_goals rfl

theorem showAfterUpdate_slot (se1 : StateElement) (read : Option GoSlice) (now : Int) :
    (match se1.UpdateState read with
      | .panic se => Exec.panic se
      | .done se => Exec.done (se.Show now)).state.Slot = se1.Slot := by
  have hu := UpdateState_slot se1 read
  cases hr : se1.UpdateState read with
  | done s2 => rw [hr] at hu; exact hu
  | panic s2 => rw [hr] at hu; exact hu

theorem Advance_slot (se : StateElement) (amount : Int) (read : Option GoSlice) (now : Int) :
    (se.Advance amount read now).state.Slot =
      if se.Slot + amount < 1 then 100
      else if se.Slot + amount > 100 then 1
      else se.Slot + amount := by
  unfold StateElement.Advance
  dsimp only
  rw [showAfterUpdate_slot]
  split_ifs <;> rfl

theorem advanceRun_slot (answers : List (Option GoSlice × Int)) :
    ∀ se : StateElement, 1 ≤ se.Slot → se.Slot ≤ 100 →
      (advanceRun se 1 answers).Slot = (se.Slot - 1 + answers.length) % 100 + 1 := by
  induction answers with
  | nil =>
    intro se h1 h100
    simp only [advanceRun, List.length_nil, Nat.cast_zero, add_zero]
    omega
  | cons a rest ih =>
    intro se h1 h100
    obtain ⟨read, now⟩ := a
    have hs := Advance_slot se 1 read now
    have hs1 : 1 ≤ (se.Advance 1 read now).state.Slot ∧
        (se.Advance 1 read now).state.Slot ≤ 100 := by
      rw [hs]; split_ifs <;> omega
    show (advanceRun (se.Advance 1 read now).state 1 rest).Slot = _
    rw [ih _ hs1.1 hs1.2, hs]
    simp only [List.length_cons, Nat.cast_add, Nat.cast_one]
    split_ifs <;> omega

/-- C18: with `Slot` in `[1, 100]`, `Advance(+1)` and `Advance(-1)` leave
`Slot` in `[1, 100]`: it becomes `Slot + amount`, except 1 after `+1` from 100
and 100 after `-1` from 1, whatever the slot file holds; `Advance(+1)` then
`Advance(-1)` restores the slot, and 100 `Advance(+1)` calls return to the
starting slot; a new element starts at slot 1. -/
theorem Advance_slot_cycle (se : StateElement) (h1 : 1 ≤ se.Slot) (h100 : se.Slot ≤ 100) :
    (∀ read now,
      1 ≤ (se.Advance 1 read now).state.Slot ∧ (se.Advance 1 read now).state.Slot ≤ 100 ∧
      (se.Advance 1 read now).state.Slot = if se.Slot = 100 then 1 else se.Slot + 1) ∧
    (∀ read now,
      1 ≤ (se.Advance (-1) read now).state.Slot ∧
      (se.Advance (-1) read now).state.Slot ≤ 100 ∧
      (se.Advance (-1) read now).state.Slot = if se.Slot = 1 then 100 else se.Slot + -1) ∧
    (∀ read1 now1 read2 now2,
      ((se.Advance 1 read1 now1).state.Advance (-1) read2 now2).state.Slot = se.Slot) ∧
    (∀ answers : List (Option GoSlice × Int), answers.length = 100 →
      (advanceRun se 1 answers).Slot = se.Slot) ∧
    NewStateElement.Slot = 1 := by
  refine ⟨?_, ?_, ?_, ?_, rfl⟩
  · intro read now
    rw [Advance_slot]
    split_ifs <;> omega
  · intro read now
    rw [Advance_slot]
    split_ifs <;> omega
  · intro read1 now1 read2 now2
    rw [Advance_slot, Advance_slot]
    split_ifs <;> omega
  · intro answers hlen
    rw [advanceRun_slot answers se h1 h100, hlen]
    push_cast
    omega

/-- C18, on slot 100: advancing wraps to slot 1. -/
theorem Advance_slot_cycle_witness :
    (1 : Int) ≤ ({ NewStateElement with Slot := 100 } : StateElement).Slot ∧
    ({ NewStateElement with Slot := 100 } : StateElement).Slot ≤ 100 ∧
    (({ NewStateElement with Slot := 100 } : StateElement).Advance 1 none 0).state.Slot = 1 :=
  ⟨by decide, by decide,
    ((Advance_slot_cycle { NewStateElement with Slot := 100 } (by decide) (by decide)).1
      none 0).2.2⟩

/-! ## Theorems: opening the audio device -/

/-- C20 as stated fails: with the empty name among the available devices,
asking for the empty name meets the condition of the named case and the open
succeeds, yet `OpenedDeviceName` is `"[System Default]"` and not the name
asked for. -/
theorem OpenDevice_empty_name_counterexample :
    ("" ≠ SystemDefaultAudioDevice ∧ "" ∈ audioUnnamedDevice.AvailableDevices) ∧
    (audioUnnamedDevice.OpenDevice "" openSucceeds).failed = false ∧
    (audioUnnamedDevice.OpenDevice "" openSucceeds).state.OpenedDeviceName =
      "[System Default]" ∧
    (audioUnnamedDevice.OpenDevice "" openSucceeds).state.OpenedDeviceName ≠ "" := by
  decide

/-- C20, amended: `OpenDevice` asks SDL for the device named `d` when `d` is
not `"[System Default]"` and occurs in `AvailableDevices`, and for the
platform default (empty name) otherwise, in one `sdl.OpenAudioDevice` call;
on success `OpenedDeviceName` is `d` in the first case unless `d` is the empty
name, and `"[System Default]"` in every other case. -/
theorem OpenDevice_device_choice (audio : Audio) (d : String) (sdl : OpenAnswer) :
    Effect.openAudioDevice
      (if d ≠ SystemDefaultAudioDevice ∧ d ∈ audio.AvailableDevices then d else "")
      ∈ (audio.OpenDevice d sdl).trace ∧
    (∀ name, Effect.openAudioDevice name ∈ (audio.OpenDevice d sdl).trace →
      name = if d ≠ SystemDefaultAudioDevice ∧ d ∈ audio.AvailableDevices then d else "") ∧
    ((audio.OpenDevice d sdl).failed = false →
      (audio.OpenDevice d sdl).state.OpenedDeviceName =
        if (d ≠ SystemDefaultAudioDevice ∧ d ∈ audio.AvailableDevices) ∧ d ≠ "" then d
        else SystemDefaultAudioDevice) := by
  have hob : obtainedDeviceName audio d =
      if d ≠ SystemDefaultAudioDevice ∧ d ∈ audio.AvailableDevices then d else "" := rfl
  rw [← hob]
  have hname : (if obtainedDeviceName audio d = "" then SystemDefaultAudioDevice
      else obtainedDeviceName audio d) =
      if (d ≠ SystemDefaultAudioDevice ∧ d ∈ audio.AvailableDevices) ∧ d ≠ "" then d
      else SystemDefaultAudioDevice := by
    rw [hob]
    by_cases hc : d ≠ SystemDefaultAudioDevice ∧ d ∈ audio.AvailableDevices
    · by_cases he : d = ""
      · simp [hc, he]
      · simp [hc, he]
    · simp [hc]
  unfold Audio.OpenDevice
  dsimp only
  cases audio.Resampler <;> cases hdev : sdl.device with
  | none => simp [closeCurrentDeviceCalls]
  | some dev =>
    obtain ⟨device, spec⟩ := dev
    cases hstr : sdl.stream with
    | none => simp [closeCurrentDeviceCalls]
    | some stream =>
      simp only [closeCurrentDeviceCalls]
      refine ⟨by simp, ?_, fun _ => hname⟩
      intro name hmem
      simpa using hmem

/-- C20 amended, on a device list holding "Speakers": asking for it opens it
by name and records the name. -/
theorem OpenDevice_device_choice_witness :
    (audioUnnamedDevice.OpenDevice "Speakers" openSucceeds).failed = false ∧
    (audioUnnamedDevice.OpenDevice "Speakers" openSucceeds).state.OpenedDeviceName =
      "Speakers" ∧
    Effect.openAudioDevice "Speakers" ∈
      (audioUnnamedDevice.OpenDevice "Speakers" openSucceeds).trace :=
  ⟨rfl,
    ((OpenDevice_device_choice audioUnnamedDevice "Speakers" openSucceeds).2.2 rfl).trans
      (by decide),
    (OpenDevice_device_choice audioUnnamedDevice "Speakers" openSucceeds).1⟩

/-! ## Theorems: the mixing level -/

theorem roundEvenDiv_ge (a b : Nat) : a / b ≤ roundEvenDiv a b := by
  unfold roundEvenDiv
  dsimp only
  split_ifs <;> omega

theorem roundEvenDiv_one (a : Nat) : roundEvenDiv a 1 = a := by
  unfold roundEvenDiv
  simp [Nat.mod_one]

theorem log2Fuel_spec (fuel : Nat) :
    ∀ n, n ≤ fuel → 0 < n → 2 ^ log2Fuel fuel n ≤ n ∧ n < 2 ^ (log2Fuel fuel n + 1) := by
  induction fuel with
  | zero => intro n h0 h1; omega
  | succ fuel ih =>
    intro n hn hpos
    unfold log2Fuel
    split_ifs with h2
    · constructor <;> simp <;> omega
    · obtain ⟨hl, hu⟩ := ih (n / 2) (by omega) (by omega)
      rw [pow_succ] at hu ⊢
      rw [pow_succ]
      constructor <;> omega

theorem floorLog2_spec (n : Nat) (hpos : 0 < n) :
    2 ^ floorLog2 n ≤ n ∧ n < 2 ^ (floorLog2 n + 1) :=
  log2Fuel_spec n n (le_refl _) hpos

theorem sdlVolume_mid (v : Int) (h1 : 1 ≤ v) (h2 : v ≤ 99) : sdlVolume v = v * 128 / 100 := by
  interval_cases v <;> decide

theorem floorLog2_mono (a b : Nat) (hb : 0 < b) (hab : b ≤ a) : floorLog2 b ≤ floorLog2 a := by
  obtain ⟨hbl, _⟩ := floorLog2_spec b hb
  obtain ⟨_, hau⟩ := floorLog2_spec a (by omega)
  have h : 2 ^ floorLog2 b < 2 ^ (floorLog2 a + 1) := by omega
  have := (Nat.pow_lt_pow_iff_right (by norm_num : 1 < 2)).mp h
  omega

/-- For a quotient of at least one the binary exponent is a natural number
`e` with `b * 2 ^ e ≤ a`. -/
theorem ratioExponent_of_le (a b : Nat) (hb : 0 < b) (hab : b ≤ a) :
    ∃ e : Nat, ratioExponent a b = (e : Int) ∧ b * 2 ^ e ≤ a := by
  have hmono := floorLog2_mono a b hb hab
  obtain ⟨_, hbu⟩ := floorLog2_spec b hb
  obtain ⟨hal, _⟩ := floorLog2_spec a (by omega)
  obtain ⟨j, hj⟩ : ∃ j, floorLog2 a = floorLog2 b + j := ⟨floorLog2 a - floorLog2 b, by omega⟩
  have hd : (floorLog2 a : Int) - (floorLog2 b : Int) = (j : Int) := by
    rw [hj]; push_cast; ring
  unfold ratioExponent
  simp only [hd, Int.toNat_ofNat]
  have hneg : (-(j : Int)).toNat = 0 := by omega
  rw [hneg, pow_zero, Nat.mul_one]
  split_ifs with hc
  · exact ⟨j, rfl, hc⟩
  · cases j with
    | zero => simp at hc; omega
    | succ i =>
      refine ⟨i, by push_cast; ring, ?_⟩
      rw [hj] at hal
      have e1 : 2 ^ (floorLog2 b + (i + 1)) = 2 ^ (floorLog2 b + 1) * 2 ^ i := by
        rw [← pow_add]; congr 1; omega
      rw [e1] at hal
      have : b * 2 ^ i ≤ 2 ^ (floorLog2 b + 1) * 2 ^ i :=
        Nat.mul_le_mul_right _ (Nat.le_of_lt hbu)
      omega

/-- Rounding a quotient `a / b` that is at least `c` (with `c ≤ 2 ^ 24`, so
exactly representable) gives a value `m * 2 ^ (e - 23)` that is at least `c`
and at least 1. -/
theorem roundF32_ge (a b c : Nat) (hb : 0 < b) (hab : b ≤ a) (hc : c * b ≤ a)
    (hc24 : c ≤ 2 ^ 24) :
    ∃ m e : Nat, roundF32 false a b = { man := (m : Int), exp := (e : Int) - 23 } ∧
      2 ^ 23 ≤ m * 2 ^ e ∧ c * 2 ^ 23 ≤ m * 2 ^ e ∧ b * 2 ^ e ≤ a := by
  obtain ⟨e, he, hle⟩ := ratioExponent_of_le a b hb hab
  have ha : a ≠ 0 := by omega
  unfold roundF32
  rw [if_neg ha]
  have hmax : max (ratioExponent a b) (-126) = (e : Int) := by rw [he]; omega
  simp only [hmax, Bool.false_eq_true, if_false]
  by_cases h23 : e ≤ 23
  · have hk1 : (-((e : Int) - 23)).toNat = 23 - e := by omega
    have hk2 : ((e : Int) - 23).toNat = 0 := by omega
    rw [hk1, hk2, pow_zero, Nat.mul_one]
    refine ⟨_, e, rfl, ?_, ?_, hle⟩
    · have h1 : 2 ^ (23 - e) ≤ a * 2 ^ (23 - e) / b := by
        rw [Nat.le_div_iff_mul_le hb]
        calc 2 ^ (23 - e) * b = b * 2 ^ (23 - e) := Nat.mul_comm _ _
          _ ≤ a * 2 ^ (23 - e) := Nat.mul_le_mul_right _ hab
      have h2 := roundEvenDiv_ge (a * 2 ^ (23 - e)) b
      have h3 : 2 ^ (23 - e) * 2 ^ e = 2 ^ 23 := by rw [← pow_add]; congr 1; omega
      calc 2 ^ 23 = 2 ^ (23 - e) * 2 ^ e := h3.symm
        _ ≤ roundEvenDiv (a * 2 ^ (23 - e)) b * 2 ^ e :=
          Nat.mul_le_mul_right _ (le_trans h1 h2)
    · have h1 : c * 2 ^ (23 - e) ≤ a * 2 ^ (23 - e) / b := by
        rw [Nat.le_div_iff_mul_le hb]
        calc c * 2 ^ (23 - e) * b = c * b * 2 ^ (23 - e) := by ring
          _ ≤ a * 2 ^ (23 - e) := Nat.mul_le_mul_right _ hc
      have h2 := roundEvenDiv_ge (a * 2 ^ (23 - e)) b
      have h3 : 2 ^ (23 - e) * 2 ^ e = 2 ^ 23 := by rw [← pow_add]; congr 1; omega
      calc c * 2 ^ 23 = c * 2 ^ (23 - e) * 2 ^ e := by rw [← h3]; ring
        _ ≤ roundEvenDiv (a * 2 ^ (23 - e)) b * 2 ^ e :=
          Nat.mul_le_mul_right _ (le_trans h1 h2)
  · have hk1 : (-((e : Int) - 23)).toNat = 0 := by omega
    have hk2 : ((e : Int) - 23).toNat = e - 23 := by omega
    rw [hk1, hk2, pow_zero, Nat.mul_one]
    have h3 : 2 ^ (e - 23) * 2 ^ 23 = 2 ^ e := by rw [← pow_add]; congr 1; omega
    have h1 : 2 ^ 23 ≤ a / (b * 2 ^ (e - 23)) := by
      rw [Nat.le_div_iff_mul_le (Nat.mul_pos hb (Nat.two_pow_pos _))]
      calc 2 ^ 23 * (b * 2 ^ (e - 23)) = b * (2 ^ (e - 23) * 2 ^ 23) := by ring
        _ = b * 2 ^ e := by rw [h3]
        _ ≤ a := hle
    have h2 := roundEvenDiv_ge a (b * 2 ^ (e - 23))
    have hm : 2 ^ 23 ≤ roundEvenDiv a (b * 2 ^ (e - 23)) := le_trans h1 h2
    have hpe : 2 ^ 23 ≤ 2 ^ e := Nat.pow_le_pow_right (by norm_num) (by omega)
    have hpos : 1 ≤ 2 ^ e := Nat.one_le_two_pow
    refine ⟨_, e, rfl, ?_, ?_, hle⟩
    · calc 2 ^ 23 = 2 ^ 23 * 1 := (Nat.mul_one _).symm
        _ ≤ roundEvenDiv a (b * 2 ^ (e - 23)) * 2 ^ e := Nat.mul_le_mul hm hpos
    · calc c * 2 ^ 23 ≤ 2 ^ 24 * 2 ^ 23 := Nat.mul_le_mul_right _ hc24
        _ = 2 ^ 23 * 2 ^ 24 := Nat.mul_comm _ _
        _ ≤ roundEvenDiv a (b * 2 ^ (e - 23)) * 2 ^ e :=
          Nat.mul_le_mul hm (Nat.pow_le_pow_right (by norm_num) (by omega))

theorem roundF32_zero (negative : Bool) (b : Nat) :
    roundF32 negative 0 b = { man := 0, exp := 0 } := by
  unfold roundF32
  rw [if_pos rfl]

theorem roundF32_negative_man (a b : Nat) : (roundF32 true a b).man ≤ 0 := by
  unfold roundF32
  by_cases h : a = 0
  · rw [if_pos h]
  · rw [if_neg h]
    simp

theorem F32.ofInt_man_nonpos (v : Int) (hv : v ≤ 0) : (F32.ofInt v).man ≤ 0 := by
  unfold F32.ofInt
  rcases eq_or_lt_of_le hv with h | h
  · rw [h]
    exact le_of_eq (by decide)
  · have hd : decide (v < 0) = true := by simpa using h
    rw [hd]
    exact roundF32_negative_man _ _

theorem F32.div_man_nonpos (x y : F32) (hx : x.man ≤ 0) (hy : 0 < y.man) :
    (F32.div x y).man ≤ 0 := by
  unfold F32.div
  rcases eq_or_lt_of_le hx with h | h
  · rw [h]
    simp only [Int.natAbs_zero, Nat.zero_mul]
    rw [roundF32_zero]
  · have hd1 : decide (x.man < 0) = true := by simpa using h
    have hd2 : decide (y.man < 0) = false := by simpa using le_of_lt hy
    rw [hd1, hd2]
    exact roundF32_negative_man _ _

theorem F32.zero_lt_false (q : F32) (hq : q.man ≤ 0) :
    F32.lt { man := 0, exp := 0 } q = false := by
  unfold F32.lt
  simp only [Int.zero_mul, decide_eq_false_iff_not, not_lt]
  exact Int.mul_nonpos_of_nonpos_of_nonneg hq (by positivity)

theorem F32.zero_lt_true (m e : Nat) (hm : 0 < m) :
    F32.lt { man := 0, exp := 0 } { man := (m : Int), exp := (e : Int) - 23 } = true := by
  unfold F32.lt
  simp only [Int.zero_mul, decide_eq_true_eq]
  positivity

theorem F32.lt_one_false (m e : Nat) (h : 2 ^ 23 ≤ m * 2 ^ e) :
    F32.lt { man := (m : Int), exp := (e : Int) - 23 } { man := 8388608, exp := -23 }
      = false := by
  unfold F32.lt
  have hd : ((e : Int) - 23 - -23).toNat = e := by omega
  have hn : (-((e : Int) - 23 - -23)).toNat = 0 := by omega
  simp only [hd, hn, pow_zero, Int.mul_one, decide_eq_false_iff_not, not_lt]
  have : ((2 ^ 23 : Nat) : Int) ≤ ((m * 2 ^ e : Nat) : Int) := by exact_mod_cast h
  push_cast at this
  exact this

/-- A volume of zero or less gives level 0. -/
theorem sdlVolume_low (v : Int) (hv : v ≤ 0) : sdlVolume v = 0 := by
  have hq : (F32.div (F32.ofInt v) (F32.ofInt 100)).man ≤ 0 :=
    F32.div_man_nonpos _ _ (F32.ofInt_man_nonpos v hv) (by decide)
  have h0 : F32.ofInt 0 = { man := 0, exp := 0 } := by decide
  unfold sdlVolume Clamp F32.max
  rw [h0, F32.zero_lt_false _ hq]
  simp only [Bool.false_eq_true, if_false]
  decide

/-- A volume of 100 or more gives level 128. -/
theorem sdlVolume_high (v : Int) (hv : 100 ≤ v) (h31 : v < 2 ^ 31) : sdlVolume v = 128 := by
  obtain ⟨n, rfl⟩ : ∃ n : Nat, v = (n : Int) := ⟨v.toNat, by omega⟩
  have hn : 100 ≤ n := by exact_mod_cast hv
  have hn31 : n < 2 ^ 31 := by exact_mod_cast h31
  obtain ⟨m, e, hx, _, h100, hpow⟩ :=
    roundF32_ge n 1 100 (by norm_num) (by omega) (by omega) (by norm_num)
  have he : e ≤ 30 := by
    by_contra hc
    have : 2 ^ 31 ≤ 2 ^ e := Nat.pow_le_pow_right (by norm_num) (by omega)
    omega
  have hofInt : F32.ofInt (n : Int) = { man := (m : Int), exp := (e : Int) - 23 } := by
    unfold F32.ofInt
    have hd : decide ((n : Int) < 0) = false := by simp
    rw [hd, Int.natAbs_ofNat]
    exact hx
  have h100f : F32.ofInt 100 = { man := 13107200, exp := -17 } := by decide
  have hdiv : F32.div (F32.ofInt (n : Int)) (F32.ofInt 100) =
      roundF32 false (m * 2 ^ ((e : Int) - 23 - -17).toNat)
        (13107200 * 2 ^ (-((e : Int) - 23 - -17)).toNat) := by
    rw [hofInt, h100f]
    unfold F32.div
    have hs : ¬ ((m : Int) < 0) := by omega
    simp [hs]
  have hab : 13107200 * 2 ^ (-((e : Int) - 23 - -17)).toNat ≤
      m * 2 ^ ((e : Int) - 23 - -17).toNat := by
    interval_cases e <;> simp at h100 ⊢ <;> omega
  have hbpos : 0 < 13107200 * 2 ^ (-((e : Int) - 23 - -17)).toNat := by positivity
  obtain ⟨m2, e2, hq, h23, _, _⟩ := roundF32_ge _ _ 1 hbpos hab (by omega) (by norm_num)
  have hm2 : 0 < m2 := by
    by_contra hc
    have : m2 = 0 := by omega
    rw [this] at h23
    simp at h23
  have h0 : F32.ofInt 0 = { man := 0, exp := 0 } := by decide
  have h1 : F32.ofInt 1 = { man := 8388608, exp := -23 } := by decide
  unfold sdlVolume Clamp F32.max F32.min
  rw [hdiv, hq, h0, h1, F32.zero_lt_true m2 e2 hm2]
  simp only [if_true]
  rw [F32.lt_one_false m2 e2 h23]
  simp only [Bool.false_eq_true, if_false]
  decide

/-- The level in closed form: the integer part of `clamp(v / 100, 0, 1) * 128`. -/
theorem sdlVolume_eq (v : Int) (h31 : v < 2 ^ 31) :
    sdlVolume v = min (max v 0) 100 * 128 / 100 := by
  by_cases h0 : v ≤ 0
  · rw [sdlVolume_low v h0, max_eq_right h0]
    decide
  · by_cases h100 : 100 ≤ v
    · rw [sdlVolume_high v h100 h31, max_eq_left (by omega), min_eq_right h100]
      decide
    · rw [sdlVolume_mid v (by omega) (by omega), max_eq_left (by omega),
        min_eq_left (by omega)]

theorem mixSample_full (s : Int) (h1 : -32768 ≤ s) (h2 : s ≤ 32767) :
    mixSample 0 s 128 = s := by
  unfold mixSample MIX_MAXVOLUME
  rw [Int.mul_tdiv_cancel s (by decide), Int.zero_add, max_eq_left h1, min_eq_left h2]

theorem mixSample_mute (s : Int) : mixSample 0 s 0 = 0 := by
  unfold mixSample
  simp

theorem MixAudioFormat_zero_dst (samples : List Int) (volume : Int) :
    MixAudioFormat (List.replicate samples.length 0) samples volume =
      samples.map (fun s => mixSample 0 s volume) := by
  unfold MixAudioFormat
  induction samples with
  | nil => rfl
  | cons s rest ih =>
    simp only [List.length_cons, List.replicate_succ, List.zipWith_cons_cons, List.map_cons]
    rw [ih]

/-- `ChangeVolumeOfSamples` at full and at zero volume on a non-empty buffer. -/
theorem ChangeVolumeOfSamples_ends (audio : Audio) (samples : List Int)
    (hne : samples ≠ []) (hrange : ∀ s ∈ samples, -32768 ≤ s ∧ s ≤ 32767) :
    audio.ChangeVolumeOfSamples samples 100 = some samples ∧
    audio.ChangeVolumeOfSamples samples 0 = some (List.replicate samples.length 0) := by
  have hlen : samples.length ≠ 0 := fun h => hne (List.length_eq_zero.mp h)
  have h100 : sdlVolume 100 = 128 := by decide
  have h0 : sdlVolume 0 = 0 := by decide
  unfold Audio.ChangeVolumeOfSamples
  simp only [hlen, if_false, h100, h0, MixAudioFormat_zero_dst]
  constructor
  · congr 1
    calc samples.map (fun s => mixSample 0 s 128) = samples.map id :=
          List.map_congr_left (fun s hs => mixSample_full s (hrange s hs).1 (hrange s hs).2)
      _ = samples := List.map_id _
  · congr 1
    rw [List.eq_replicate_iff]
    refine ⟨by simp, ?_⟩
    intro b hb
    obtain ⟨s, _, rfl⟩ := List.mem_map.mp hb
    exact mixSample_mute s

/-- C19 as stated fails on an empty buffer: `ChangeVolumeOfSamples` panics on
`&volumeAdjustedSamples[0]` and yields no output, at volume 0 and at volume
100 alike. -/
theorem ChangeVolumeOfSamples_empty_counterexample :
    sampleAudio.ChangeVolumeOfSamples [] 0 = none ∧
    sampleAudio.ChangeVolumeOfSamples [] 0 ≠ some (List.replicate ([] : List Int).length 0) ∧
    sampleAudio.ChangeVolumeOfSamples [] 100 = none := by
  decide

/-- C19, amended: for every volume `v` below `2 ^ 31` (so for every `int32`)
the level `ChangeVolumeOfSamples` computes in `float32` is the integer part of
`clamp(v / 100, 0, 1) * 128`: it lies in `[0, 128]`, is 0 for `v ≤ 0`, 128 for
`v ≥ 100`, and does not decrease when `v` grows; with the mixer
`out = 0 + in * level / 128` on 16-bit samples, on a non-empty buffer volume
100 returns the input samples and volume 0 returns as many zero samples. -/
theorem sdlVolume_level (v : Int) (h31 : v < 2 ^ 31) :
    sdlVolume v = min (max v 0) 100 * 128 / 100 ∧
    0 ≤ sdlVolume v ∧ sdlVolume v ≤ 128 ∧
    (v ≤ 0 → sdlVolume v = 0) ∧
    (100 ≤ v → sdlVolume v = 128) ∧
    (∀ w, w < 2 ^ 31 → v ≤ w → sdlVolume v ≤ sdlVolume w) ∧
    (∀ (audio : Audio) (samples : List Int), samples ≠ [] →
      (∀ s ∈ samples, -32768 ≤ s ∧ s ≤ 32767) →
      audio.ChangeVolumeOfSamples samples 100 = some samples ∧
      audio.ChangeVolumeOfSamples samples 0 = some (List.replicate samples.length 0)) := by
  have hv := sdlVolume_eq v h31
  refine ⟨hv, ?_, ?_, sdlVolume_low v, fun h => sdlVolume_high v h h31, ?_,
    ChangeVolumeOfSamples_ends⟩
  · rw [hv]
    simp only [min_def, max_def]
    split_ifs <;> omega
  · rw [hv]
    simp only [min_def, max_def]
    split_ifs <;> omega
  · intro w hw hvw
    rw [hv, sdlVolume_eq w hw]
    simp only [min_def, max_def]
    split_ifs <;> omega

/-- C19 amended, on volume 57 and a two-sample buffer. -/
theorem sdlVolume_level_witness :
    (57 : Int) < 2 ^ 31 ∧ sdlVolume 57 = 72 ∧
    ([1000, -32768] : List Int) ≠ [] ∧
    (∀ s ∈ ([1000, -32768] : List Int), -32768 ≤ s ∧ s ≤ 32767) ∧
    sampleAudio.ChangeVolumeOfSamples [1000, -32768] 100 = some [1000, -32768] ∧
    sampleAudio.ChangeVolumeOfSamples [1000, -32768] 0 = some [0, 0] :=
  ⟨by decide, (sdlVolume_level 57 (by decide)).1.trans (by decide), by decide, by decide,
    ((sdlVolume_level 57 (by decide)).2.2.2.2.2.2 sampleAudio [1000, -32768] (by decide)
      (by decide)).1,
    ((sdlVolume_level 57 (by decide)).2.2.2.2.2.2 sampleAudio [1000, -32768] (by decide)
      (by decide)).2⟩

/-! ## Theorems: events and the axis thresholds -/

theorem mapGet_mapSet_same {K V : Type} [DecidableEq K] (m : List (K × V)) (k : K)
    (v zero : V) : mapGet (mapSet m k v) k zero = v := by
  simp [mapGet, mapSet]

theorem mapGet_mapSet_other {K V : Type} [DecidableEq K] (m : List (K × V)) (k k1 : K)
    (v zero : V) (h : k ≠ k1) : mapGet (mapSet m k v) k1 zero = mapGet m k1 zero := by
  simp [mapGet, mapSet, h]

/-- C22: for a joystick axis event with value `v`, `ProcessEvent` stores for
that axis `Positive = (v > 0)`, `Negative = false` when the initial state of
the axis is known and is -32768, and `Positive = (v > 8000)`,
`Negative = (v < -8000)` otherwise; the two stored flags are never both true;
the other axes, the keys and the buttons are unchanged; on every manager a
`JoyAxisInput` is down exactly when the stored flag of its polarity is set,
and an axis with no stored state is not down. -/
theorem ProcessEvent_axis_thresholds (m : InputManager) (axis : Nat) (v : Int)
    (initial : Option Int) :
    (initial = some (-32768) →
      mapGet (m.ProcessEvent (.joyAxis axis v) initial).JoyAxes axis ⟨false, false⟩ =
        { Positive := decide (v > 0), Negative := false }) ∧
    (initial ≠ some (-32768) →
      mapGet (m.ProcessEvent (.joyAxis axis v) initial).JoyAxes axis ⟨false, false⟩ =
        { Positive := decide (v > 8000), Negative := decide (v < -8000) }) ∧
    ¬ ((mapGet (m.ProcessEvent (.joyAxis axis v) initial).JoyAxes axis
          ⟨false, false⟩).Positive = true ∧
       (mapGet (m.ProcessEvent (.joyAxis axis v) initial).JoyAxes axis
          ⟨false, false⟩).Negative = true) ∧
    (∀ other, other ≠ axis →
      mapGet (m.ProcessEvent (.joyAxis axis v) initial).JoyAxes other ⟨false, false⟩ =
        mapGet m.JoyAxes other ⟨false, false⟩) ∧
    (m.ProcessEvent (.joyAxis axis v) initial).Keyboard = m.Keyboard ∧
    (m.ProcessEvent (.joyAxis axis v) initial).JoyButtons = m.JoyButtons ∧
    (∀ (m2 : InputManager) (a : Nat),
      (JoyAxisInput.mk a true).IsDown m2 = (mapGet m2.JoyAxes a ⟨false, false⟩).Positive ∧
      (JoyAxisInput.mk a false).IsDown m2 = (mapGet m2.JoyAxes a ⟨false, false⟩).Negative) ∧
    (∀ (m2 : InputManager) (input : JoyAxisInput),
      (∀ kv ∈ m2.JoyAxes, kv.1 ≠ input.Axis) → input.IsDown m2 = false) := by
  have hmin : MinInt16 = -32768 := rfl
  refine ⟨?_, ?_, ?_, ?_, ?_, ?_, ?_, ?_⟩
  · intro h
    simp only [InputManager.ProcessEvent, hmin, h, if_true]
    exact mapGet_mapSet_same _ _ _ _
  · intro h
    simp only [InputManager.ProcessEvent, hmin, h, if_false]
    exact mapGet_mapSet_same _ _ _ _
  · by_cases h : initial = some (-32768)
    · simp only [InputManager.ProcessEvent, hmin, h, if_true, mapGet_mapSet_same]
      simp
    · simp only [InputManager.ProcessEvent, hmin, h, if_false, mapGet_mapSet_same]
      simp only [decide_eq_true_eq]
      omega
  · intro other ho
    by_cases h : initial = some (-32768)
    · simp only [InputManager.ProcessEvent, hmin, h, if_true]
      exact mapGet_mapSet_other _ _ _ _ _ (Ne.symm ho)
    · simp only [InputManager.ProcessEvent, hmin, h, if_false]
      exact mapGet_mapSet_other _ _ _ _ _ (Ne.symm ho)
  · by_cases h : initial = some (-32768) <;> simp [InputManager.ProcessEvent, hmin, h]
  · by_cases h : initial = some (-32768) <;> simp [InputManager.ProcessEvent, hmin, h]
  · intro m2 a
    exact ⟨rfl, rfl⟩
  · intro m2 input habs
    have hz := mapGet_absent m2.JoyAxes input.Axis (⟨false, false⟩ : AxisState) habs
    simp only [JoyAxisInput.IsDown, hz]
    simp

/-! ## Theorems: pressed implies held -/

theorem updateInput_inputs (m m1 : InputManager) (input : InputId)
    (h : m.updateInput input = some m1) :
    (m.Inputs input).isSome = true ∧ m1.Inputs = m.Inputs := by
  unfold InputManager.updateInput at h
  cases hu : m.Inputs input with
  | none => rw [hu] at h; cases h
  | some user =>
    rw [hu] at h
    simp only [Option.some.injEq] at h
    subst h
    exact ⟨rfl, rfl⟩

theorem updateLoop_some_bound (l : List InputId) :
    ∀ m m1 : InputManager, m.updateLoop l = some m1 →
      ∀ i ∈ l, (m.Inputs i).isSome = true := by
  induction l with
  | nil => intro m m1 _ i hi; cases hi
  | cons input rest ih =>
    intro m m1 h i hi
    simp only [InputManager.updateLoop] at h
    cases hs : m.updateInput input with
    | none => rw [hs] at h; cases h
    | some m0 =>
      rw [hs] at h
      obtain ⟨hb, he⟩ := updateInput_inputs m m0 input hs
      rcases List.mem_cons.mp hi with rfl | hr
      · exact hb
      · have := ih m0 m1 h i hr
        rwa [he] at this

/-- An `Update` that returns found every user binding set. -/
theorem Update_some_bound (m m1 : InputManager) (modState : Nat)
    (h : m.Update modState = some m1) : ∀ i, (m.Inputs i).isSome = true := by
  unfold InputManager.Update at h
  intro i
  cases hl : ({ m with Keymodifiers := modState } : InputManager).updateLoop allInputs with
  | none => simp only [hl] at h; cases h
  | some m0 =>
    exact updateLoop_some_bound allInputs _ m0 hl i (mem_allInputs i)

/-- C23: `Update` returns whenever every user binding is set, and after every
`Update` that returns, for every input `i`, `IsPressed[i]` implies
`IsDown[i]`, whatever the device state and the previous contents of `IsDown`,
`IsPressed` and `DownPrevious`. -/
theorem pressed_implies_held (m : InputManager) (modState : Nat) :
    ((∀ i, (m.Inputs i).isSome = true) → ∃ m1, m.Update modState = some m1) ∧
    ∀ m1, m.Update modState = some m1 →
      ∀ i, m1.IsPressed i = true → m1.IsDown i = true := by
  constructor
  · intro hbound
    obtain ⟨m1, h, _⟩ := Update_spec m modState hbound
    exact ⟨m1, h⟩
  · intro m1 h i hp
    obtain ⟨m2, h2, hs⟩ := Update_spec m modState (Update_some_bound m m1 modState h)
    rw [h] at h2
    cases h2
    rw [hs.2.2.2.2.2.2.2.2 i] at hp
    simp only [Bool.and_eq_true] at hp
    exact hp.1

/-- C23, on the default bindings with `z` newly down: A is pressed, and so
held. -/
theorem pressed_implies_held_witness :
    ∃ m1, (sampleManager.observe rawZ).Update 0 = some m1 ∧
      m1.IsPressed .A = true ∧ m1.IsDown .A = true := by
  have hp : ((sampleManager.observe rawZ).Update 0).map (fun m => m.IsPressed .A) =
      some true := by decide
  cases h : (sampleManager.observe rawZ).Update 0 with
  | none =>
    rw [h] at hp
    cases hp
  | some m1 =>
    rw [h] at hp
    have hp1 : m1.IsPressed .A = true := by simpa using hp
    exact ⟨m1, rfl, hp1, (pressed_implies_held (sampleManager.observe rawZ) 0).2 m1 h .A hp1⟩

/-! ## Theorems: one event or one step per cycle -/

theorem ProcessEvent_flags (m : InputManager) (event : Event) (initial : Option Int) :
    (m.ProcessEvent event initial).IsDown = m.IsDown ∧
    (m.ProcessEvent event initial).IsPressed = m.IsPressed ∧
    (m.ProcessEvent event initial).DownPrevious = m.DownPrevious ∧
    (m.ProcessEvent event initial).Inputs = m.Inputs := by
  cases event with
  | joyAxis axis value =>
    simp only [InputManager.ProcessEvent]
    split_ifs <;> exact ⟨rfl, rfl, rfl, rfl⟩
  | keyboard _ _ => exact ⟨rfl, rfl, rfl, rfl⟩
  | joyButton _ _ => exact ⟨rfl, rfl, rfl, rfl⟩
  | window _ _ => exact ⟨rfl, rfl, rfl, rfl⟩
  | quit => exact ⟨rfl, rfl, rfl, rfl⟩
  | other => exact ⟨rfl, rfl, rfl, rfl⟩

/-- C26: with an event waiting, `Application.Update` removes exactly the
oldest event, hands it to `InputManager.ProcessEvent` and to the window
manager, makes no outside call, leaves the core, the audio pipeline and the
flags `IsDown`, `IsPressed`, `DownPrevious` as they were (no
`InputManager.Update`, no emulation step), and returns false exactly when the
event is a quit event or the dispatch returned false, which happens exactly
for a close event of the main window; with no event waiting it removes
nothing and performs one `InputManager.Update` followed by one `Draw` of the
updated application, returning true. -/
theorem Update_event_or_step (app : Application) (env : UpdateEnv) :
    (∀ event rest, app.EventChannel = event :: rest →
      (app.Update env).1.state.EventChannel = rest ∧
      (app.Update env).1.state.GambatteDriver.InputManager =
        app.GambatteDriver.InputManager.ProcessEvent event env.axisInitialState ∧
      (app.Update env).1.state.WindowManager =
        (app.WindowManager.DispatchEventToAllGuiWindows event).1 ∧
      (app.Update env).1.trace = [] ∧
      (app.Update env).1.panicked = false ∧
      (app.Update env).1.state.GambatteDriver.Gambatte = app.GambatteDriver.Gambatte ∧
      (app.Update env).1.state.GambatteDriver.Audio = app.GambatteDriver.Audio ∧
      (app.Update env).1.state.GambatteDriver.BufferSize = app.GambatteDriver.BufferSize ∧
      (app.Update env).1.state.PopupOpenLastFrame = app.PopupOpenLastFrame ∧
      (app.Update env).1.state.GambatteDriver.InputManager.IsDown =
        app.GambatteDriver.InputManager.IsDown ∧
      (app.Update env).1.state.GambatteDriver.InputManager.IsPressed =
        app.GambatteDriver.InputManager.IsPressed ∧
      (app.Update env).1.state.GambatteDriver.InputManager.DownPrevious =
        app.GambatteDriver.InputManager.DownPrevious ∧
      ((app.Update env).2 = false ↔
        (event.isQuit = true ∨
          (app.WindowManager.DispatchEventToAllGuiWindows event).2 = false)) ∧
      ((app.WindowManager.DispatchEventToAllGuiWindows event).2 = false ↔
        event = .window app.WindowManager.MainWindow.Id WINDOWEVENT_CLOSE)) ∧
    (app.EventChannel = [] →
      (∀ i, (app.GambatteDriver.InputManager.Inputs i).isSome = true) →
      ∃ manager, app.GambatteDriver.InputManager.Update env.modState = some manager ∧
        ({ app with GambatteDriver :=
            { app.GambatteDriver with InputManager := manager } } : Application).EventChannel
          = [] ∧
        (app.Update env).1 =
          ({ app with GambatteDriver :=
              { app.GambatteDriver with InputManager := manager } } : Application).Draw
            env.driver env.drawAllGuiWindows ∧
        (app.Update env).2 = true) := by
  constructor
  · intro event rest hq
    have hf := ProcessEvent_flags app.GambatteDriver.InputManager event env.axisInitialState
    have hdisp : (app.WindowManager.DispatchEventToAllGuiWindows event).2 = false ↔
        event = .window app.WindowManager.MainWindow.Id WINDOWEVENT_CLOSE := by
      cases event with
      | window windowId e =>
        simp only [WindowManager.DispatchEventToAllGuiWindows]
        split_ifs with h1 h2
        · subst h1; subst h2; simp
        · simp only [Event.window.injEq]
          constructor
          · intro h; cases h
          · intro h; exact absurd h.1 h2
        · simp only [Event.window.injEq]
          constructor
          · intro h; cases h
          · intro h; exact absurd h.2 h1
      | keyboard _ _ => simp [WindowManager.DispatchEventToAllGuiWindows]
      | joyButton _ _ => simp [WindowManager.DispatchEventToAllGuiWindows]
      | joyAxis _ _ => simp [WindowManager.DispatchEventToAllGuiWindows]
      | quit => simp [WindowManager.DispatchEventToAllGuiWindows]
      | other => simp [WindowManager.DispatchEventToAllGuiWindows]
    refine ⟨?_, ?_, ?_, ?_, ?_, ?_, ?_, ?_, ?_, ?_, ?_, ?_, ?_, hdisp⟩
    all_goals simp only [Application.Update, hq]
    · exact hf.1
    · exact hf.2.1
    · exact hf.2.2.1
    · cases hd : (app.WindowManager.DispatchEventToAllGuiWindows event).2 <;>
        cases hquit : event.isQuit <;> simp
  · intro hq hbound
    obtain ⟨manager, hm, _⟩ :=
      Update_spec app.GambatteDriver.InputManager env.modState hbound
    refine ⟨manager, hm, hq, ?_, ?_⟩
    · simp only [Application.Update, hq, hm]
    · simp only [Application.Update, hq, hm]

/-- C26, on a queue holding a key press and then a quit event: the first
`Update` takes the key press and keeps running, the second takes the quit
event and returns false, the third finds the queue empty and draws. -/
theorem Update_event_or_step_witness :
    queuedApplication.EventChannel = [.keyboard K_z true, .quit] ∧
    (queuedApplication.Update sampleUpdateEnv).1.state.EventChannel = [.quit] ∧
    (queuedApplication.Update sampleUpdateEnv).2 = true ∧
    ((queuedApplication.Update sampleUpdateEnv).1.state.Update sampleUpdateEnv).2 = false ∧
    ∃ manager, startApplication.GambatteDriver.InputManager.Update
        sampleUpdateEnv.modState = some manager ∧
      (startApplication.Update sampleUpdateEnv).2 = true :=
  ⟨rfl,
    ((Update_event_or_step queuedApplication sampleUpdateEnv).1
      (.keyboard K_z true) [.quit] rfl).1,
    by decide, by decide,
    (fun ⟨manager, h⟩ => ⟨manager, h.1, h.2.2.2⟩)
      ((Update_event_or_step startApplication sampleUpdateEnv).2 rfl
        (fun i => by cases i <;> rfl))⟩

/-- C22, on axis 2 with value 5: a trigger axis stores positive, a stick axis
stores neither direction. -/
theorem ProcessEvent_axis_thresholds_witness :
    mapGet (sampleManager.ProcessEvent (.joyAxis 2 5) (some (-32768))).JoyAxes 2
      ⟨false, false⟩ = ⟨true, false⟩ ∧
    mapGet (sampleManager.ProcessEvent (.joyAxis 2 5) none).JoyAxes 2
      ⟨false, false⟩ = ⟨false, false⟩ :=
  ⟨((ProcessEvent_axis_thresholds sampleManager 2 5 (some (-32768))).1 rfl).trans
      (by decide),
    ((ProcessEvent_axis_thresholds sampleManager 2 5 none).2.1 (by decide)).trans
      (by decide)⟩

/-! ## Theorems: the audio slice of a frame -/

/-- C28: the audio buffer has (35112 + 2064) * 2 * 2 = 148704 = 37176 * 4
bytes, and for every sample count `n` in [0, 37176] the slice
`AudioBuffer[:n * GbSampleSize]` of `PlayAudio` is in bounds and has exactly
`n * 4` bytes, which are the first `n * 4` bytes of the buffer, and are what
`PlayAudio` hands to the audio pipeline without a panic. -/
theorem PlayAudio_slice_in_bounds (driver : GambatteDriver) (n : Int) (r : ResamplerAnswer)
    (h0 : 0 ≤ n) (h1 : n ≤ GbSamplesPerFrame + GbAudioBufferOverhead) :
    GbSamplesPerFrame + GbAudioBufferOverhead = 37176 ∧
    AudioBufferLen = 148704 ∧ AudioBufferLen = 37176 * GbSampleSize ∧
    ∃ samples, audioSlice driver.Gambatte.AudioBuffer (n * GbSampleSize) = some samples ∧
      (samples.length : Int) = n * 4 ∧
      (∀ k, k < samples.length → samples.get? k = some (driver.Gambatte.AudioBuffer k)) ∧
      (driver.PlayAudio n r).panicked = false ∧
      (driver.PlayAudio n r).trace.head? = some (.resamplerPut samples) := by
  have hsum : GbSamplesPerFrame + GbAudioBufferOverhead = 37176 := by decide
  have hlen : AudioBufferLen = 148704 := by decide
  have hsz : GbSampleSize = 4 := rfl
  rw [hsum] at h1
  refine ⟨hsum, hlen, by decide, ?_⟩
  have hs : audioSlice driver.Gambatte.AudioBuffer (n * GbSampleSize) =
      some ((List.range (n * GbSampleSize).toNat).map driver.Gambatte.AudioBuffer) := by
    unfold audioSlice
    rw [if_pos]
    rw [hlen, hsz]
    constructor <;> omega
  refine ⟨_, hs, ?_, ?_, ((PlayAudio_spec driver n r).2.2.1 _ hs).1,
    ((PlayAudio_spec driver n r).2.2.1 _ hs).2⟩
  · rw [List.length_map, List.length_range, hsz]
    omega
  · intro k hk
    rw [List.length_map, List.length_range] at hk
    simp [List.get?_eq_getElem?, hk]

/-- C28, on a frame of two samples: eight bytes are handed on. -/
theorem PlayAudio_slice_in_bounds_witness :
    (0 : Int) ≤ 2 ∧ (2 : Int) ≤ GbSamplesPerFrame + GbAudioBufferOverhead ∧
    ∃ samples, audioSlice startDriver.Gambatte.AudioBuffer (2 * GbSampleSize) = some samples ∧
      (samples.length : Int) = 2 * 4 :=
  ⟨by decide, by decide,
    (fun ⟨samples, h⟩ => ⟨samples, h.1, h.2.1⟩)
      (PlayAudio_slice_in_bounds startDriver 2 resamplerEmpty (by decide)
        (by decide)).2.2.2⟩

/-! ## Theorems: the checksum text -/

theorem checksumPart_eq (crc i : Nat) :
    checksumPart crc i = crc / 2 ^ (28 - i * 4) % 16 := by
  unfold checksumPart
  rw [Nat.shiftRight_eq_div_pow]
  exact Nat.and_pow_two_sub_one_eq_mod _ 4

theorem hexAlphabet_get (d : Nat) (h : d < 16) :
    hexAlphabet.get? d = some (hexAlphabet.getD d '0') := by
  interval_cases d <;> rfl

theorem hexAlphabet_injective (a b : Nat) (ha : a < 16) (hb : b < 16)
    (h : hexAlphabet.getD a '0' = hexAlphabet.getD b '0') : a = b := by
  interval_cases a <;> interval_cases b <;> first | rfl | (exact absurd h (by decide))

theorem crcChecksum_eq (crc : Nat) :
    crcChecksum crc = some ((List.range 8).map
      (fun i => hexAlphabet.getD (checksumPart crc i) '0')) := by
  have hp : ∀ i, checksumPart crc i < 16 := by
    intro i
    rw [checksumPart_eq]
    exact Nat.mod_lt _ (by decide)
  have hr : List.range 8 = [0, 1, 2, 3, 4, 5, 6, 7] := by decide
  unfold crcChecksum
  rw [hr]
  simp only [checksumLoop, hexAlphabet_get _ (hp _), List.map, List.nil_append,
    List.cons_append]

theorem checksumPart_lt (crc i : Nat) : checksumPart crc i < 16 := by
  rw [checksumPart_eq]
  exact Nat.mod_lt _ (by decide)

theorem crcChecksum_injective (c c2 : Nat) (hc : c < 2 ^ 32) (hc2 : c2 < 2 ^ 32)
    (h : crcChecksum c2 = crcChecksum c) : c2 = c := by
  rw [crcChecksum_eq, crcChecksum_eq] at h
  have hr : List.range 8 = [0, 1, 2, 3, 4, 5, 6, 7] := by decide
  rw [hr] at h
  simp only [List.map, Option.some.injEq, List.cons.injEq, and_true] at h
  obtain ⟨h0, h1, h2, h3, h4, h5, h6, h7⟩ := h
  have e0 := hexAlphabet_injective _ _ (checksumPart_lt c2 0) (checksumPart_lt c 0) h0
  have e1 := hexAlphabet_injective _ _ (checksumPart_lt c2 1) (checksumPart_lt c 1) h1
  have e2 := hexAlphabet_injective _ _ (checksumPart_lt c2 2) (checksumPart_lt c 2) h2
  have e3 := hexAlphabet_injective _ _ (checksumPart_lt c2 3) (checksumPart_lt c 3) h3
  have e4 := hexAlphabet_injective _ _ (checksumPart_lt c2 4) (checksumPart_lt c 4) h4
  have e5 := hexAlphabet_injective _ _ (checksumPart_lt c2 5) (checksumPart_lt c 5) h5
  have e6 := hexAlphabet_injective _ _ (checksumPart_lt c2 6) (checksumPart_lt c 6) h6
  have e7 := hexAlphabet_injective _ _ (checksumPart_lt c2 7) (checksumPart_lt c 7) h7
  rw [checksumPart_eq, checksumPart_eq] at e0 e1 e2 e3 e4 e5 e6 e7
  norm_num at e0 e1 e2 e3 e4 e5 e6 e7 hc hc2
  omega

theorem crcChecksum_eq_get (crc i : Nat) (hi : i < 8) :
    ((List.range 8).map (fun i => hexAlphabet.getD (checksumPart crc i) '0')).get? i =
      some (hexAlphabet.getD (checksumPart crc i) '0') := by
  simp [List.get?_eq_getElem?, hi]

/-- C30: for every 32-bit checksum `c` the loop of `DrawCrc` does not panic
and builds a string of exactly 8 characters, each taken from
`0123456789ABCDEF`; character `i` is the digit for
`(c >> (28 - 4 * i)) AND 0xf`, which is digit `7 - i` of `c` in base 16, so
the string is the zero-padded upper-case hexadecimal form of `c`, most
significant digit first; two 32-bit checksums with the same string are equal;
and `DrawCrc` shows the text `Reset r`, the revision, a blank and that
string. -/
theorem DrawCrc_checksum (c : Nat) (hc : c < 2 ^ 32) :
    hexAlphabet = ['0', '1', '2', '3', '4', '5', '6', '7', '8', '9',
      'A', 'B', 'C', 'D', 'E', 'F'] ∧
    ∃ cs, crcChecksum c = some cs ∧ cs.length = 8 ∧
      (∀ ch ∈ cs, ch ∈ hexAlphabet) ∧
      (∀ i, i < 8 → (c >>> (28 - i * 4)) &&& 0xf < 16 ∧
        cs.get? i = hexAlphabet.get? ((c >>> (28 - i * 4)) &&& 0xf) ∧
        (c >>> (28 - i * 4)) &&& 0xf = c / 16 ^ (7 - i) % 16) ∧
      c = (List.range 8).foldl
        (fun acc i => acc * 16 + ((c >>> (28 - i * 4)) &&& 0xf)) 0 ∧
      (∀ c2, c2 < 2 ^ 32 → crcChecksum c2 = some cs → c2 = c) ∧
      (∀ (src : GambatteSource) (revision now : Int),
        src.Gambatte.Cartridge.Crc32 = c →
        src.DrawCrc revision now = .done { src with
          TextElement :=
            { Text := "Reset r" ++ toString revision ++ " " ++ String.mk cs
              Timer := { DisappearTime := now + 4 * Second } } }) := by
  have hr : List.range 8 = [0, 1, 2, 3, 4, 5, 6, 7] := by decide
  refine ⟨rfl, _, crcChecksum_eq c, by simp, ?_, ?_, ?_, ?_, ?_⟩
  · intro ch hch
    simp only [List.mem_map] at hch
    obtain ⟨i, _, rfl⟩ := hch
    have hg := hexAlphabet_get _ (checksumPart_lt c i)
    exact List.get?_mem hg
  · intro i hi
    have hp := checksumPart_lt c i
    have he := checksumPart_eq c i
    unfold checksumPart at hp he
    refine ⟨hp, ?_, ?_⟩
    · rw [hexAlphabet_get _ hp, crcChecksum_eq_get c i hi]
      rfl
    · rw [he]
      interval_cases i <;> norm_num
  · have e : ∀ i, (c >>> (28 - i * 4)) &&& 0xf = c / 2 ^ (28 - i * 4) % 16 :=
      fun i => checksumPart_eq c i
    rw [hr]
    simp only [List.foldl, e]
    norm_num at hc ⊢
    omega
  · intro c2 hc2 h
    exact crcChecksum_injective c c2 hc hc2 (h.trans (crcChecksum_eq c).symm)
  · intro src revision now hsrc
    unfold GambatteSource.DrawCrc
    rw [hsrc, crcChecksum_eq c]
    rfl

/-- C30, on the checksum 0x00C0FFEE. -/
theorem DrawCrc_checksum_witness :
    (12648430 : Nat) < 2 ^ 32 ∧
    crcChecksum 12648430 = some ['0', '0', 'C', '0', 'F', 'F', 'E', 'E'] ∧
    ∃ cs, crcChecksum 12648430 = some cs ∧ cs.length = 8 ∧
      ∀ c2, c2 < 2 ^ 32 → crcChecksum c2 = some cs → c2 = 12648430 :=
  ⟨by decide, by decide,
    (fun ⟨cs, h⟩ => ⟨cs, h.1, h.2.1, h.2.2.2.2.2.1⟩)
      (DrawCrc_checksum 12648430 (by decide)).2⟩

/-! ## Theorems: the preview rectangle -/

theorem byteAt_some (pixels : GoSlice) (i : Int) (h0 : 0 ≤ i) (h1 : i < pixels.len) :
    ∃ b, byteAt pixels i = some b := by
  unfold byteAt
  rw [if_pos h0]
  exact GoSlice.index_of_lt pixels i.toNat (by omega)

theorem setPix_some (img : NRGBA) (i : Int) (v : Nat) (h0 : 0 ≤ i) (h1 : i < img.PixLen) :
    ∃ img1, img.setPix i v = some img1 ∧ img1.PixLen = img.PixLen ∧
      img1.Stride = img.Stride := by
  unfold NRGBA.setPix
  rw [if_pos ⟨h0, h1⟩]
  exact ⟨_, rfl, rfl, rfl⟩

theorem copyPixel_some (img : NRGBA) (pixels : GoSlice) (src dest : Int)
    (hs0 : 0 ≤ src) (hs1 : src + 4 ≤ pixels.len)
    (hd0 : 0 ≤ dest) (hd1 : dest + 4 ≤ img.PixLen) :
    ∃ img1, copyPixel img pixels src dest = some img1 ∧ img1.PixLen = img.PixLen ∧
      img1.Stride = img.Stride := by
  obtain ⟨b2, hb2⟩ := byteAt_some pixels (src + 2) (by omega) (by omega)
  obtain ⟨b1, hb1⟩ := byteAt_some pixels (src + 1) (by omega) (by omega)
  obtain ⟨b0, hb0⟩ := byteAt_some pixels (src + 0) (by omega) (by omega)
  obtain ⟨b3, hb3⟩ := byteAt_some pixels (src + 3) (by omega) (by omega)
  obtain ⟨i1, h1, l1, s1⟩ := setPix_some img (dest + 0) b2 (by omega) (by omega)
  obtain ⟨i2, h2, l2, s2⟩ := setPix_some i1 (dest + 1) b1 (by omega) (by omega)
  obtain ⟨i3, h3, l3, s3⟩ := setPix_some i2 (dest + 2) b0 (by omega) (by omega)
  obtain ⟨i4, h4, l4, s4⟩ := setPix_some i3 (dest + 3) b3 (by omega) (by omega)
  refine ⟨i4, ?_, by omega, by rw [s4, s3, s2, s1]⟩
  simp only [copyPixel, hb2, h1, hb1, h2, hb0, h3, hb3, h4]

theorem copyRow_some (pixels : GoSlice) (n : Nat) :
    ∀ (img : NRGBA) (src dest : Int), 0 ≤ src → src + 4 * n ≤ pixels.len →
      0 ≤ dest → dest + 4 * n ≤ img.PixLen →
      ∃ img1, copyRow pixels n img src dest = some img1 ∧ img1.PixLen = img.PixLen ∧
        img1.Stride = img.Stride := by
  induction n with
  | zero => intro img src dest _ _ _ _; exact ⟨img, rfl, rfl, rfl⟩
  | succ n ih =>
    intro img src dest hs0 hs1 hd0 hd1
    push_cast at hs1 hd1
    obtain ⟨i1, h1, l1, s1⟩ :=
      copyPixel_some img pixels src dest hs0 (by omega) hd0 (by omega)
    obtain ⟨i2, h2, l2, s2⟩ :=
      ih i1 (src + 4) (dest + 4) (by omega) (by omega) (by omega) (by omega)
    refine ⟨i2, ?_, by omega, by rw [s2, s1]⟩
    simp only [copyRow, h1, h2]

/-- The outer loop for rows of 40 pixels on an image with stride 640. -/
theorem copyRows_some (pixels : GoSlice) (n : Nat) :
    ∀ (img : NRGBA) (srcRow destRow : Int), img.Stride = 640 →
      0 ≤ srcRow → srcRow + 160 * n ≤ pixels.len →
      0 ≤ destRow → destRow + 640 * n ≤ img.PixLen + 480 →
      ∃ img1, copyRows pixels 40 n img srcRow destRow = some img1 ∧
        img1.PixLen = img.PixLen ∧ img1.Stride = img.Stride := by
  induction n with
  | zero => intro img srcRow destRow _ _ _ _ _; exact ⟨img, rfl, rfl, rfl⟩
  | succ n ih =>
    intro img srcRow destRow hst hs0 hs1 hd0 hd1
    push_cast at hs1 hd1
    obtain ⟨i1, h1, l1, s1⟩ :=
      copyRow_some pixels 40 img srcRow destRow hs0 (by omega) hd0 (by omega)
    have h40 : (40 : Int).toNat = 40 := rfl
    obtain ⟨i2, h2, l2, s2⟩ :=
      ih i1 (srcRow + 40 * 4) (destRow + i1.Stride) (by rw [s1, hst]) (by omega) (by omega)
        (by omega) (by omega)
    refine ⟨i2, ?_, by omega, by rw [s2, s1]⟩
    simp only [copyRows, h40, h1, h2]

/-- C29: for every slot in [1, 100] the preview rectangle of
`StateElement.Draw` has `x = ((slot - 1) mod 10) * 11 + 10`,
`y = ((slot - 1) / 10) * 6 + 10`, width 40 and height 36, and lies inside the
160 x 144 backbuffer: `0 <= x`, `x + 40 <= 160`, `0 <= y`, `y + 36 <= 144`.
A shown valid state is drawn by `CopyPixelsRGBANative` on that rectangle, and
on a backbuffer of the video size (92160 bytes, stride 640) with a snapshot
of at least 40 * 36 * 4 = 5760 bytes the copy, and so `Draw`, finishes
without an index panic and leaves the size of the image as it was. -/
theorem Draw_preview_in_bounds (se : StateElement) (target : Backbuffer) (now : Int)
    (drawEmpty : Backbuffer → Int → Int → Int → Int → Backbuffer)
    (hlo : 1 ≤ se.Slot) (hhi : se.Slot ≤ 100) :
    GbVideoWidth >>> 2 = 40 ∧ GbVideoHeight >>> 2 = 36 ∧
    (NewNRGBA GbVideoWidth GbVideoHeight).PixLen = 92160 ∧
    (NewNRGBA GbVideoWidth GbVideoHeight).Stride = 640 ∧
    (se.Slot - 1).tmod 10 = (se.Slot - 1) % 10 ∧
    (se.Slot - 1).tdiv 10 = (se.Slot - 1) / 10 ∧
    0 ≤ (se.Slot - 1) % 10 * 11 + 10 ∧ (se.Slot - 1) % 10 * 11 + 10 + 40 ≤ 160 ∧
    0 ≤ (se.Slot - 1) / 10 * 6 + 10 ∧ (se.Slot - 1) / 10 * 6 + 10 + 36 ≤ 144 ∧
    (se.Timer.ShouldShow now = true → se.ValidState = true →
      se.Draw target now drawEmpty =
        target.CopyPixelsRGBANative se.Snapshot ((se.Slot - 1) % 10 * 11 + 10)
          ((se.Slot - 1) / 10 * 6 + 10) 40 36) ∧
    (target.Image.PixLen = 92160 → target.Image.Stride = 640 →
      40 * 36 * 4 ≤ se.Snapshot.len →
      (∃ copied, target.CopyPixelsRGBANative se.Snapshot ((se.Slot - 1) % 10 * 11 + 10)
          ((se.Slot - 1) / 10 * 6 + 10) 40 36 = some copied ∧
        copied.Image.PixLen = 92160 ∧ copied.Image.Stride = 640) ∧
      ∃ drawn, se.Draw target now drawEmpty = some drawn) := by
  have hw : GbVideoWidth >>> 2 = 40 := by decide
  have hh : GbVideoHeight >>> 2 = 36 := by decide
  have hm : (se.Slot - 1).tmod 10 = (se.Slot - 1) % 10 :=
    Int.tmod_eq_emod (by omega) (by decide)
  have hd : (se.Slot - 1).tdiv 10 = (se.Slot - 1) / 10 :=
    Int.tdiv_eq_ediv (by omega) (by decide)
  have hdraw : se.Timer.ShouldShow now = true → se.ValidState = true →
      se.Draw target now drawEmpty =
        target.CopyPixelsRGBANative se.Snapshot ((se.Slot - 1) % 10 * 11 + 10)
          ((se.Slot - 1) / 10 * 6 + 10) 40 36 := by
    intro hshow hvalid
    simp only [StateElement.Draw, hshow, hvalid, hw, hh, hm, hd, Bool.not_true,
      Bool.false_eq_true, if_false, if_true]
  have hcopy : target.Image.PixLen = 92160 → target.Image.Stride = 640 →
      40 * 36 * 4 ≤ se.Snapshot.len →
      ∃ copied, target.CopyPixelsRGBANative se.Snapshot ((se.Slot - 1) % 10 * 11 + 10)
          ((se.Slot - 1) / 10 * 6 + 10) 40 36 = some copied ∧
        copied.Image.PixLen = 92160 ∧ copied.Image.Stride = 640 := by
    intro hpix hstride hlen
    have h36 : (36 : Int).toNat = 36 := rfl
    obtain ⟨img, himg, hl, hs⟩ :=
      copyRows_some se.Snapshot 36 target.Image 0
        (((se.Slot - 1) % 10 * 11 + 10) * 4 + ((se.Slot - 1) / 10 * 6 + 10) * 640)
        hstride (le_refl 0) (by omega) (by omega) (by rw [hpix]; omega)
    refine ⟨{ target with Image := img }, ?_, by rw [← hpix]; exact hl,
      by rw [← hstride]; exact hs⟩
    simp only [Backbuffer.CopyPixelsRGBANative, hstride, h36, himg]
  refine ⟨hw, hh, by decide, by decide, hm, hd, by omega, by omega, by omega, by omega,
    hdraw, ?_⟩
  intro hpix hstride hlen
  refine ⟨hcopy hpix hstride hlen, ?_⟩
  cases hshow : se.Timer.ShouldShow now with
  | false => exact ⟨target, by simp [StateElement.Draw, hshow]⟩
  | true =>
    cases hvalid : se.ValidState with
    | false =>
      refine ⟨drawEmpty target ((se.Slot - 1).tmod 10 * 11 + 10)
        ((se.Slot - 1).tdiv 10 * 6 + 10) (GbVideoWidth >>> 2) (GbVideoHeight >>> 2), ?_⟩
      simp only [StateElement.Draw, hshow, hvalid, Bool.not_true, Bool.false_eq_true,
        if_false]
    | true =>
      obtain ⟨copied, hc, _⟩ := hcopy hpix hstride hlen
      exact ⟨copied, by rw [hdraw hshow hvalid, hc]⟩

/-- C29, on slot 100 with a snapshot of 5760 bytes: the rectangle starts at
(109, 64) and the copy onto the video backbuffer finishes. -/
theorem Draw_preview_in_bounds_witness :
    (1 : Int) ≤ samplePreviewElement.Slot ∧ samplePreviewElement.Slot ≤ 100 ∧
    (samplePreviewElement.Slot - 1) % 10 * 11 + 10 = 109 ∧
    (samplePreviewElement.Slot - 1) / 10 * 6 + 10 = 64 ∧
    ∃ drawn, samplePreviewElement.Draw sampleBackbuffer 0 drawEmptyNothing = some drawn :=
  ⟨by decide, by decide, by decide, by decide,
    ((Draw_preview_in_bounds samplePreviewElement sampleBackbuffer 0 drawEmptyNothing
      (by decide) (by decide)).2.2.2.2.2.2.2.2.2.2.2 (by decide) (by decide)
      (List.length_replicate 5760 7).ge).2⟩

/-- A shown valid state whose snapshot is shorter than the preview stops the
copy in an index panic: here a snapshot of one byte. -/
theorem Draw_short_snapshot_panics :
    ({ sampleValidElement with Timer := { DisappearTime := 10 } } : StateElement).Draw
      sampleBackbuffer 0 drawEmptyNothing = none := by
  rfl

/-! ## Theorems: the path of a state file -/

/-- A ROM file name without a dot makes `UpdatePath` panic, after the
directory and the file name were stored and before the state is read. -/
theorem UpdatePath_without_dot (se : StateElement) (dir base : String)
    (read : Option GoSlice) (h : '.' ∉ base.toList) :
    IndexRune base '.' = -1 ∧
    se.UpdatePath dir base read =
      .panic { se with RomDirectory := dir, RomFileName := base } := by
  have hi : IndexRune base '.' = -1 := by
    unfold IndexRune
    rw [if_neg]
    rw [List.indexOf_lt_length]
    exact h
  refine ⟨hi, ?_⟩
  simp only [StateElement.UpdatePath, hi, stringPrefix]
  rw [if_neg (by omega)]

/-- C25, the code on two ROM file names: for `game` (no dot) `IndexRune`
gives -1 and `UpdatePath` panics in the slice expression; for `my.game.gbc`
the name is cut at the first dot, so the state path is built from `my`, not
from `my.game`; for `game.gbc` the name is `game` and the path of slot 1 is
`roms/game_1.gqs`. -/
theorem UpdatePath_cuts_at_first_dot :
    IndexRune "game" '.' = -1 ∧
    (sampleStateElement.UpdatePath "roms" "game" none).panicked = true ∧
    (sampleStateElement.UpdatePath "roms" "my.game.gbc" none).panicked = false ∧
    (sampleStateElement.UpdatePath "roms" "my.game.gbc" none).state.RomFileName = "my" ∧
    (sampleStateElement.UpdatePath "roms" "my.game.gbc" none).state.StatePath joinPlain =
      "roms/my_1.gqs" ∧
    (sampleStateElement.UpdatePath "roms" "game.gbc" none).state.RomFileName = "game" ∧
    (sampleStateElement.UpdatePath "roms" "game.gbc" none).state.StatePath joinPlain =
      "roms/game_1.gqs" := by
  refine ⟨by decide, by decide, by decide, by decide, by decide, by decide, by decide⟩

/-! ## Theorems: the bound on the queued audio -/

/-- `UpdateEmulator` leaves the buffer target as it was. -/
theorem UpdateEmulator_BufferSize (driver : GambatteDriver) (env : DriverEnv) :
    (driver.UpdateEmulator env).state.BufferSize = driver.BufferSize := by
  by_cases h : env.queuedDuration < driver.BufferSize
  · unfold GambatteDriver.UpdateEmulator
    rw [if_pos h]
    dsimp only
    rw [(PlayAudio_spec _ _ _).1]
    rfl
  · rw [(UpdateEmulator_above driver env (not_lt.mp h)).1]

/-- `UpdateEmulator` calls `sdl.QueueAudio` only below the buffer target. -/
theorem UpdateEmulator_queues_below (driver : GambatteDriver) (env : DriverEnv)
    (h : (driver.UpdateEmulator env).trace.any Effect.isQueueAudio = true) :
    env.queuedDuration < driver.BufferSize := by
  by_contra hn
  rw [(UpdateEmulator_above driver env (not_lt.mp hn)).2.1] at h
  simp [Effect.isQueueAudio] at h

theorem queueRun_bounded (frame : Int) (cycles : List QueueCycle) :
    ∀ (driver : GambatteDriver) (q0 : Int),
      0 ≤ q0 → q0 ≤ driver.BufferSize + frame →
      (∀ c ∈ cycles, 0 ≤ c.drained ∧ 0 ≤ c.added ∧ c.added ≤ frame) →
      ∀ q ∈ queueRun driver q0 cycles, 0 ≤ q ∧ q ≤ driver.BufferSize + frame := by
  induction cycles with
  | nil => intro driver q0 _ _ _ q hq; cases hq
  | cons c rest ih =>
    intro driver q0 h0 h1 hc q hq
    obtain ⟨hd, ha0, ha1⟩ := hc c (List.mem_cons_self _ _)
    have hleft0 : 0 ≤ max 0 (q0 - c.drained) := le_max_left _ _
    have hleft1 : max 0 (q0 - c.drained) ≤ driver.BufferSize + frame := by
      rw [max_le_iff]
      constructor <;> omega
    generalize hr : driver.UpdateEmulator
      { queuedDuration := max 0 (q0 - c.drained), core := c.core,
        resampler := c.resampler } = r at hq
    have hbelow := UpdateEmulator_queues_below driver
      { queuedDuration := max 0 (q0 - c.drained), core := c.core, resampler := c.resampler }
    have hsize := UpdateEmulator_BufferSize driver
      { queuedDuration := max 0 (q0 - c.drained), core := c.core, resampler := c.resampler }
    rw [hr] at hbelow hsize
    have hq1 : 0 ≤ (if r.trace.any Effect.isQueueAudio = true then
          max 0 (q0 - c.drained) + c.added else max 0 (q0 - c.drained)) ∧
        (if r.trace.any Effect.isQueueAudio = true then
          max 0 (q0 - c.drained) + c.added else max 0 (q0 - c.drained)) ≤
          driver.BufferSize + frame := by
      split_ifs with hany
      · have := hbelow hany
        dsimp only at this
        constructor <;> omega
      · exact ⟨hleft0, hleft1⟩
    simp only [queueRun, hr, List.mem_cons] at hq
    generalize (if r.trace.any Effect.isQueueAudio = true then
      max 0 (q0 - c.drained) + c.added else max 0 (q0 - c.drained)) = q1 at hq hq1
    rcases hq with rfl | hq
    · exact hq1
    · by_cases hp : r.panicked = true
      · rw [if_pos hp] at hq
        cases hq
      · rw [if_neg hp] at hq
        have := ih r.state q1 hq1.1 (by rw [hsize]; exact hq1.2)
          (fun c1 hc1 => hc c1 (List.mem_cons_of_mem _ hc1)) q hq
        rwa [hsize] at this

/-- C27: when every cycle of `UpdateEmulator` adds between nothing and one
frame's worth `frame` of audio if it queues a chunk, and the device only
drains the queue, a queued duration that starts within
`[0, BufferSize + frame]` is within `[0, BufferSize + frame]` after every
cycle; `UpdateEmulator` calls `sdl.QueueAudio` only when the queued duration
it read is below `BufferSize`, and it leaves `BufferSize` as it was. -/
theorem queued_duration_bounded (driver : GambatteDriver) (frame q0 : Int)
    (cycles : List QueueCycle)
    (h0 : 0 ≤ q0) (h1 : q0 ≤ driver.BufferSize + frame)
    (hc : ∀ c ∈ cycles, 0 ≤ c.drained ∧ 0 ≤ c.added ∧ c.added ≤ frame) :
    (∀ q ∈ queueRun driver q0 cycles, 0 ≤ q ∧ q ≤ driver.BufferSize + frame) ∧
    (∀ env : DriverEnv,
      (driver.UpdateEmulator env).trace.any Effect.isQueueAudio = true →
        env.queuedDuration < driver.BufferSize) ∧
    (∀ env : DriverEnv, driver.BufferSize ≤ env.queuedDuration →
      (driver.UpdateEmulator env).trace = [.sleep (driver.BufferSize.tdiv 4)]) ∧
    (∀ env : DriverEnv, (driver.UpdateEmulator env).state.BufferSize = driver.BufferSize) :=
  ⟨queueRun_bounded frame cycles driver q0 h0 h1 hc,
    fun env => UpdateEmulator_queues_below driver env,
    fun env h => (UpdateEmulator_above driver env h).2.1,
    fun env => UpdateEmulator_BufferSize driver env⟩

/-- C27, on six cycles with the default target of 68 ms and chunks of
17 ms: the queue fills to 68 ms, waits one cycle, is drained to 38 ms and
takes one more chunk. -/
theorem queued_duration_bounded_witness :
    (0 : Int) ≤ 0 ∧ (0 : Int) ≤ startDriver.BufferSize + 17 * Millisecond ∧
    (∀ c ∈ [cycleFill, cycleFill, cycleFill, cycleFill, cycleFill, cycleDrain],
      0 ≤ c.drained ∧ 0 ≤ c.added ∧ c.added ≤ 17 * Millisecond) ∧
    queueRun startDriver 0 [cycleFill, cycleFill, cycleFill, cycleFill, cycleFill, cycleDrain] =
      [17000000, 34000000, 51000000, 68000000, 68000000, 55000000] ∧
    ∀ q ∈ queueRun startDriver 0 [cycleFill, cycleFill, cycleFill, cycleFill, cycleFill, cycleDrain],
      0 ≤ q ∧ q ≤ startDriver.BufferSize + 17 * Millisecond :=
  ⟨by decide, by decide, by decide, by decide,
    (queued_duration_bounded startDriver (17 * Millisecond) 0
      [cycleFill, cycleFill, cycleFill, cycleFill, cycleFill, cycleDrain] (by decide) (by decide)
      (by decide)).1⟩

/-! ## Theorems: a failing audio device at start-up -/

theorem OpenDevice_failed_iff (audio : Audio) (name : String) (sdl : OpenAnswer) :
    ((audio.OpenDevice name sdl).failed = true ↔
      (sdl.device = none ∨ sdl.stream = none)) ∧
    ((audio.OpenDevice name sdl).failed = true → (audio.OpenDevice name sdl).state = audio) ∧
    ((audio.OpenDevice name sdl).failed = false →
      (audio.OpenDevice name sdl).state.Resampler.isSome = true) := by
  unfold Audio.OpenDevice
  cases hd : sdl.device with
  | none => simp
  | some d =>
    obtain ⟨device, spec⟩ := d
    cases hs : sdl.stream with
    | none => simp
    | some stream => simp

theorem NewApplication_some (eventChannel : List Event) (sdl : StartAnswers)
    (app : Application) (h : NewApplication eventChannel sdl = some app) :
    (NewAudio sdl.settings.AudioDeviceName sdl.settings.Volume sdl.audioDevices
      sdl.openAudio).failed = false ∧
    app.GambatteDriver.Audio =
      (NewAudio sdl.settings.AudioDeviceName sdl.settings.Volume sdl.audioDevices
        sdl.openAudio).state := by
  unfold NewApplication at h
  dsimp only at h
  cases hf : (NewAudio sdl.settings.AudioDeviceName sdl.settings.Volume sdl.audioDevices
      sdl.openAudio).failed with
  | true => simp [hf] at h
  | false =>
    refine ⟨rfl, ?_⟩
    cases hm : sdl.mainWindowWindow <;> cases hw : sdl.mainWindow <;>
      cases hi : sdl.inputDisplayWindow <;> cases hd : sdl.inputDisplay <;>
      simp only [hf, hm, hw, hi, hd, Bool.false_eq_true, if_false, if_true, Bool.not_true,
        Bool.not_false, reduceCtorEq, Option.some.injEq] at h
    rw [← h]

/-- C21, the code on a machine where SDL cannot open an audio device: at
start-up `NewAudio` returns its error with an unconfigured `Audio` (nil
resampler, zero spec), `NewApplication` returns no application and `main`
stops in the panic of `unrecoverableError`, whereas a start with a working
device runs; the same failure when the settings window re-opens the device is
dropped and the program carries on, the `Audio` fields as they were, after
the stream was freed and the device closed. -/
theorem NewApplication_aborts_without_audio :
    (NewAudio DefaultSettings.AudioDeviceName DefaultSettings.Volume [] openFails).failed
      = true ∧
    (NewAudio DefaultSettings.AudioDeviceName DefaultSettings.Volume [] openFails).state
      = { Device := 0, Spec := { Freq := 0, Format := 0, Channels := 0 }, Resampler := none,
          AvailableDevices := [], OpenedDeviceName := "", Volume := 1 } ∧
    (NewApplication [] startNoAudio).isSome = false ∧
    (main true startNoAudio).isAborted = true ∧
    (NewApplication [] startAllFine).isSome = true ∧
    (main true startAllFine).isAborted = false ∧
    (sampleAudio.OpenDevice SystemDefaultAudioDevice openFails).failed = true ∧
    SettingsModal.DrawAudioDevice sampleAudio true
        (fun deviceName => deviceName == SystemDefaultAudioDevice) (fun _ => openFails) =
      (sampleAudio, [.freeStream 1, .closeAudioDevice 2, .openAudioDevice ""]) := by
  refine ⟨rfl, rfl, rfl, rfl, rfl, rfl, rfl, by decide⟩

/-- A failing `OpenDevice` at start-up, for every set of answers: `NewAudio`
returns the error with the unconfigured `Audio`, `NewApplication` returns no
application and `main` stops; `OpenDevice` fails exactly when
`sdl.OpenAudioDevice` or `sdl.NewAudioStream` fails and then leaves every
field of `Audio` as it was; every application that `main` runs has an `Audio`
with a resampler. -/
theorem audio_failure_reported (sdl : StartAnswers) (eventChannel : List Event)
    (hfail : sdl.openAudio.device = none ∨ sdl.openAudio.stream = none) :
    (NewAudio sdl.settings.AudioDeviceName sdl.settings.Volume sdl.audioDevices
      sdl.openAudio).failed = true ∧
    (NewAudio sdl.settings.AudioDeviceName sdl.settings.Volume sdl.audioDevices
      sdl.openAudio).state =
      { Device := 0, Spec := { Freq := 0, Format := 0, Channels := 0 }, Resampler := none,
        AvailableDevices := sdl.audioDevices, OpenedDeviceName := "",
        Volume := sdl.settings.Volume } ∧
    NewApplication eventChannel sdl = none ∧
    (∀ initOk, (main initOk sdl).isAborted = true) ∧
    (∀ (audio : Audio) (name : String) (answer : OpenAnswer),
      ((audio.OpenDevice name answer).failed = true ↔
        (answer.device = none ∨ answer.stream = none)) ∧
      ((audio.OpenDevice name answer).failed = true →
        (audio.OpenDevice name answer).state = audio)) ∧
    (∀ (initOk : Bool) (answers : StartAnswers) (app : Application),
      main initOk answers = .running app →
        app.GambatteDriver.Audio.Resampler.isSome = true ∧
        answers.openAudio.device.isSome = true ∧
        answers.openAudio.stream.isSome = true) := by
  have hopen := fun (audio : Audio) (name : String) (answer : OpenAnswer) =>
    OpenDevice_failed_iff audio name answer
  have hf : (NewAudio sdl.settings.AudioDeviceName sdl.settings.Volume sdl.audioDevices
      sdl.openAudio).failed = true := (hopen _ _ _).1.mpr hfail
  have hnone : NewApplication eventChannel sdl = none := by
    unfold NewApplication
    dsimp only
    rw [if_pos hf]
  have hnone0 : NewApplication [] sdl = none := by
    unfold NewApplication
    dsimp only
    rw [if_pos hf]
  refine ⟨hf, (hopen _ _ _).2.1 hf, hnone, ?_, fun a n s => ⟨(hopen a n s).1, (hopen a n s).2.1⟩,
    ?_⟩
  · intro initOk
    cases initOk
    · rfl
    · simp only [main, hnone0, Bool.not_true, Bool.false_eq_true, if_false]
      rfl
  · intro initOk answers app hrun
    cases initOk
    · simp [main] at hrun
    · simp only [main, Bool.not_true, Bool.false_eq_true, if_false] at hrun
      cases hnew : NewApplication [] answers with
      | none => simp [hnew] at hrun
      | some app1 =>
        rw [hnew] at hrun
        simp only [Start.running.injEq] at hrun
        subst hrun
        obtain ⟨hok, haudio⟩ := NewApplication_some [] answers app1 hnew
        have hres := (hopen _ _ _).2.2 hok
        have hdev : ¬ (answers.openAudio.device = none ∨ answers.openAudio.stream = none) := by
          intro hbad
          have hfailed : (NewAudio answers.settings.AudioDeviceName answers.settings.Volume
              answers.audioDevices answers.openAudio).failed = true :=
            (hopen _ _ _).1.mpr hbad
          rw [hok] at hfailed
          cases hfailed
        rw [haudio]
        refine ⟨hres, ?_, ?_⟩
        · cases hd : answers.openAudio.device with
          | none => exact absurd (Or.inl hd) hdev
          | some _ => rfl
        · cases hs : answers.openAudio.stream with
          | none => exact absurd (Or.inr hs) hdev
          | some _ => rfl

/-! ## Theorems: the fade progress -/

theorem roundEvenDiv_le (x b n : Nat) (hb : 0 < b) (h : x ≤ n * b) :
    roundEvenDiv x b ≤ n := by
  unfold roundEvenDiv
  dsimp only
  by_cases he : x = n * b
  · subst he
    rw [Nat.mul_div_cancel _ hb, Nat.mul_mod_left]
    rw [if_pos (by omega)]
  · have hlt : x < n * b := lt_of_le_of_ne h he
    have hq : x / b < n := (Nat.div_lt_iff_lt_mul hb).mpr hlt
    split_ifs <;> omega

/-- A quotient below `2 ^ n` has a binary exponent below `n`. -/
theorem ratioExponent_lt (a b n : Nat) (ha : 0 < a) (hb : 0 < b) (h : a < b * 2 ^ n) :
    ratioExponent a b < n := by
  obtain ⟨hal, _⟩ := floorLog2_spec a ha
  obtain ⟨_, hbu⟩ := floorLog2_spec b hb
  have h1 : 2 ^ floorLog2 a < 2 ^ (floorLog2 b + 1 + n) := by
    rw [pow_add]
    calc 2 ^ floorLog2 a ≤ a := hal
      _ < b * 2 ^ n := h
      _ ≤ 2 ^ (floorLog2 b + 1) * 2 ^ n := Nat.mul_le_mul_right _ (Nat.le_of_lt hbu)
  have h2 : floorLog2 a < floorLog2 b + 1 + n :=
    (Nat.pow_lt_pow_iff_right (by norm_num : 1 < 2)).mp h1
  unfold ratioExponent
  dsimp only
  split_ifs with hc
  · by_contra hn
    have hd : (floorLog2 a : Int) - (floorLog2 b : Int) = (n : Int) := by omega
    rw [hd] at hc
    have e1 : (-(n : Int)).toNat = 0 := by omega
    rw [Int.toNat_ofNat, e1, pow_zero, Nat.mul_one] at hc
    omega
  · omega

/-- Rounding a quotient `a / b` that is at most `n` (with `n < 2 ^ 24`) gives
a value `m / 2 ^ k` that is at most `n`. -/
theorem roundF32_le (a b n : Nat) (hb : 0 < b) (hn : n < 2 ^ 24) (h : a ≤ n * b) :
    ∃ m k : Nat, roundF32 false a b = { man := (m : Int), exp := -(k : Int) } ∧
      m ≤ n * 2 ^ k := by
  by_cases ha : a = 0
  · subst ha
    exact ⟨0, 0, by rw [roundF32_zero]; rfl, Nat.zero_le _⟩
  · have hlt : a < b * 2 ^ 24 := by
      calc a ≤ n * b := h
        _ < 2 ^ 24 * b := Nat.mul_lt_mul_of_pos_right hn hb
        _ = b * 2 ^ 24 := Nat.mul_comm _ _
    have hr := ratioExponent_lt a b 24 (Nat.pos_of_ne_zero ha) hb hlt
    obtain ⟨k, hk⟩ : ∃ k : Nat, max (ratioExponent a b) (-126) - 23 = -(k : Int) :=
      ⟨(23 - max (ratioExponent a b) (-126)).toNat, by omega⟩
    unfold roundF32
    rw [if_neg ha]
    simp only [hk, Bool.false_eq_true, if_false]
    have e1 : (- -(k : Int)).toNat = k := by omega
    have e2 : (-(k : Int)).toNat = 0 := by omega
    rw [e1, e2, pow_zero, Nat.mul_one]
    refine ⟨_, k, rfl, roundEvenDiv_le _ _ _ hb ?_⟩
    calc a * 2 ^ k ≤ n * b * 2 ^ k := Nat.mul_le_mul_right _ h
      _ = n * 2 ^ k * b := by ring

/-- A positive integer below `2 ^ 24` converts to `float32` exactly. -/
theorem ofInt_exact (n : Nat) (hpos : 0 < n) (h24 : n < 2 ^ 24) :
    ∃ j : Nat, F32.ofInt (n : Int) = { man := ((n * 2 ^ j : Nat) : Int), exp := -(j : Int) } := by
  obtain ⟨e, he, hle⟩ := ratioExponent_of_le n 1 (by norm_num) hpos
  have he24 : e < 24 := by
    have : 2 ^ e < 2 ^ 24 := by omega
    exact (Nat.pow_lt_pow_iff_right (by norm_num : 1 < 2)).mp this
  have hneg : decide ((n : Int) < 0) = false := by simp
  unfold F32.ofInt
  rw [hneg, Int.natAbs_ofNat]
  unfold roundF32
  rw [if_neg (by omega)]
  have hmax : max (ratioExponent n 1) (-126) = (e : Int) := by rw [he]; omega
  simp only [hmax, Bool.false_eq_true, if_false]
  have e1 : (-((e : Int) - 23)).toNat = 23 - e := by omega
  have e2 : ((e : Int) - 23).toNat = 0 := by omega
  rw [e1, e2, pow_zero, Nat.mul_one, roundEvenDiv_one]
  refine ⟨23 - e, ?_⟩
  congr 1
  omega

/-- The quotient of a `float32` by itself is 1. -/
theorem roundF32_self (a : Nat) (ha : 0 < a) :
    roundF32 false a a = { man := 8388608, exp := -23 } := by
  have hr : ratioExponent a a = 0 := by
    unfold ratioExponent
    simp
  unfold roundF32
  rw [if_neg (by omega), hr]
  have hm : roundEvenDiv (a * 2 ^ 23) a = 8388608 := by
    unfold roundEvenDiv
    dsimp only
    rw [Nat.mul_comm a, Nat.mul_div_cancel _ ha, Nat.mul_mod_left]
    rw [if_pos (by omega)]
    norm_num
  have e1 : max (0 : Int) (-126) - 23 = -23 := by decide
  simp only [e1, Bool.false_eq_true, if_false]
  have e2 : (- (-23 : Int)).toNat = 23 := by decide
  have e3 : ((-23 : Int)).toNat = 0 := by decide
  rw [e2, e3, pow_zero, Nat.mul_one, hm]
  rfl

/-- In a reachable state of a fade the budget is the one `Reset` drew and the
countdown has not passed it. -/
theorem Reachable_fade_bounds (g : Gambatte) (h : Reachable g) :
    g.ResetStage = .FadeToBlack ∨ g.ResetStage = .Stalling →
      SamplesToFadeFor ≤ g.FadeSamplesTotal ∧
      g.FadeSamplesTotal < SamplesToFadeFor + GbSamplesPerFrame ∧
      g.FadeSamplesLeft ≤ g.FadeSamplesTotal := by
  have hfade : SamplesToFadeFor = 1234567 := rfl
  induction h with
  | init =>
    intro hs
    rcases hs with hs | hs <;> cases hs
  | reset g r _ _ h0 h1 _ =>
    intro _
    refine ⟨?_, ?_, le_refl _⟩
    · show SamplesToFadeFor ≤ SamplesToFadeFor + r
      omega
    · show SamplesToFadeFor + r < SamplesToFadeFor + GbSamplesPerFrame
      omega
  | tick g s hg hs0 ih =>
    cases hstage : g.ResetStage with
    | NotResetting =>
      rw [HandleReset_idle_eq g s hstage]
      intro hs
      rw [hstage] at hs
      rcases hs with hs | hs <;> cases hs
    | FadeToBlack =>
      obtain ⟨i1, i2, i3⟩ := ih (Or.inl hstage)
      have hleft := (Reachable_invariant g hg).fade_nonneg
      rw [HandleReset_fade_eq g s hstage, subInt_nonneg _ _ hleft hs0]
      split_ifs with hc
      · intro _
        refine ⟨i1, i2, ?_⟩
        show (0 : Int) ≤ g.FadeSamplesTotal
        omega
      · intro _
        refine ⟨i1, i2, ?_⟩
        show g.FadeSamplesLeft - s ≤ g.FadeSamplesTotal
        omega
    | Stalling =>
      obtain ⟨i1, i2, i3⟩ := ih (Or.inr hstage)
      rw [HandleReset_stall_eq g s hstage]
      split_ifs with hc
      · intro hs
        rcases hs with hs | hs <;> cases hs
      · intro _
        exact ⟨i1, i2, i3⟩
    | ResetDone =>
      rw [HandleReset_done_eq g s hstage]
      intro hs
      rcases hs with hs | hs <;> cases hs
  | other g g1 _ e1 e2 e3 _ ih =>
    intro hs
    rw [e1] at hs
    rw [e2, e3]
    exact ih hs

theorem scaled_le (p t jp jt : Nat) (h : p ≤ t) :
    p * 2 ^ jp * 2 ^ (-(jp : Int) - -(jt : Int)).toNat ≤
      1 * (t * 2 ^ jt * 2 ^ (-(-(jp : Int) - -(jt : Int))).toNat) := by
  rw [Nat.one_mul, Nat.mul_assoc, Nat.mul_assoc, ← pow_add, ← pow_add]
  have e : jp + (-(jp : Int) - -(jt : Int)).toNat = jt + (-(-(jp : Int) - -(jt : Int))).toNat := by
    omega
  rw [e]
  exact Nat.mul_le_mul_right _ h

/-- The quotient `float32(p) / float32(t)` for `0 ≤ p ≤ t < 2 ^ 24`, `t`
positive, is a value `m / 2 ^ k` between 0 and 1. -/
theorem fade_quotient_le_one (p t : Int) (hp : 0 ≤ p) (hpt : p ≤ t) (ht : 0 < t)
    (h24 : t < 2 ^ 24) :
    ∃ m k : Nat, F32.div (F32.ofInt p) (F32.ofInt t) = { man := (m : Int), exp := -(k : Int) } ∧
      m ≤ 1 * 2 ^ k := by
  obtain ⟨np, rfl⟩ := Int.eq_ofNat_of_zero_le hp
  obtain ⟨nt, rfl⟩ := Int.eq_ofNat_of_zero_le (le_of_lt ht)
  have hpt1 : np ≤ nt := by omega
  have ht1 : 0 < nt := by omega
  have h241 : nt < 2 ^ 24 := by omega
  obtain ⟨jt, hjt⟩ := ofInt_exact nt ht1 h241
  by_cases hp0 : np = 0
  · subst hp0
    refine ⟨0, 0, ?_, Nat.zero_le _⟩
    have h0 : F32.ofInt ((0 : Nat) : Int) = { man := 0, exp := 0 } := roundF32_zero _ _
    rw [h0]
    unfold F32.div
    simp only [Int.natAbs_zero, Nat.zero_mul]
    rw [roundF32_zero]
    rfl
  · obtain ⟨jp, hjp⟩ := ofInt_exact np (Nat.pos_of_ne_zero hp0) (by omega)
    rw [hjp, hjt]
    unfold F32.div
    have s1 : decide (((np * 2 ^ jp : Nat) : Int) < 0) = false := by simp
    have s2 : decide (((nt * 2 ^ jt : Nat) : Int) < 0) = false := by simp
    simp only [s1, s2, Int.natAbs_ofNat, bne_self_eq_false]
    refine roundF32_le _ _ 1 ?_ (by norm_num) (scaled_le np nt jp jt hpt1)
    exact Nat.mul_pos (Nat.mul_pos ht1 (Nat.two_pow_pos _)) (Nat.two_pow_pos _)

/-- The overlay alpha for a progress `m / 2 ^ k` between 0 and 1. -/
theorem alpha_range (m k : Nat) (h : m ≤ 1 * 2 ^ k) :
    0 ≤ (F32.mul (F32.ofInt 255) { man := (m : Int), exp := -(k : Int) }).toInt ∧
    (F32.mul (F32.ofInt 255) { man := (m : Int), exp := -(k : Int) }).toInt ≤ 255 := by
  have h255 : F32.ofInt 255 = { man := 16711680, exp := -16 } := by decide
  rw [h255]
  unfold F32.mul
  have s1 : decide ((16711680 : Int) < 0) = false := by decide
  have s2 : decide ((m : Int) < 0) = false := by simp
  have e1 : ((-16 : Int) + -(k : Int)).toNat = 0 := by omega
  have e2 : (-((-16 : Int) + -(k : Int))).toNat = 16 + k := by omega
  have ea : ((16711680 : Int) * (m : Int)).natAbs = 16711680 * m := by
    rw [Int.natAbs_mul]
    rfl
  simp only [s1, s2, e1, e2, ea, bne_self_eq_false, pow_zero, Nat.mul_one]
  obtain ⟨m2, k2, hr, hm2⟩ := roundF32_le (16711680 * m) (2 ^ (16 + k)) 255
    (Nat.two_pow_pos _) (by norm_num) (by
      rw [pow_add]
      have : 16711680 * m ≤ 16711680 * (1 * 2 ^ k) := Nat.mul_le_mul_left _ h
      calc 16711680 * m ≤ 16711680 * (1 * 2 ^ k) := this
        _ = 255 * (2 ^ 16 * 2 ^ k) := by norm_num; ring)
  rw [hr]
  unfold F32.toInt
  have e3 : (-(k2 : Int)).toNat = 0 := by omega
  have e4 : (- -(k2 : Int)).toNat = k2 := by omega
  simp only [e3, e4, pow_zero, mul_one]
  have hpos : (0 : Int) < 2 ^ k2 := by positivity
  have hdiv : ((m2 : Int)).tdiv (2 ^ k2) = (m2 : Int) / 2 ^ k2 :=
    Int.tdiv_eq_ediv (by omega) (le_of_lt hpos)
  rw [hdiv]
  constructor
  · exact Int.ediv_nonneg (by omega) (le_of_lt hpos)
  · have hm : (m2 : Int) ≤ 255 * 2 ^ k2 := by exact_mod_cast hm2
    have : (m2 : Int) / 2 ^ k2 ≤ (255 * 2 ^ k2) / 2 ^ k2 := Int.ediv_le_ediv hpos hm
    rwa [Int.mul_ediv_cancel _ (ne_of_gt hpos)] at this

/-- The progress and the alpha when nothing of the fade has passed. -/
theorem fade_start (g : Gambatte) (h : g.FadeSamplesLeft = g.FadeSamplesTotal) :
    fadePercentage g = { man := 0, exp := 0 } ∧
    ∀ src : GambatteSource, src.Gambatte = g → src.ApplyFade.A = 0 := by
  have hp : fadePercentage g = { man := 0, exp := 0 } := by
    unfold fadePercentage
    dsimp only
    rw [h, sub_self]
    have h0 : F32.ofInt 0 = { man := 0, exp := 0 } := roundF32_zero _ _
    rw [h0]
    unfold F32.div
    simp only [Int.natAbs_zero, Nat.zero_mul]
    rw [roundF32_zero]
  refine ⟨hp, ?_⟩
  intro src hsrc
  unfold GambatteSource.ApplyFade
  rw [hsrc, hp]
  decide

/-- The progress and the alpha when all of a fade of fewer than `2 ^ 24`
samples has passed. -/
theorem fade_end (g : Gambatte) (h : g.FadeSamplesLeft = 0) (ht : 0 < g.FadeSamplesTotal)
    (h24 : g.FadeSamplesTotal < 2 ^ 24) :
    fadePercentage g = { man := 8388608, exp := -23 } ∧
    ∀ src : GambatteSource, src.Gambatte = g → src.ApplyFade.A = 255 := by
  have hp : fadePercentage g = { man := 8388608, exp := -23 } := by
    unfold fadePercentage
    dsimp only
    rw [h, sub_zero]
    obtain ⟨nt, hnt⟩ := Int.eq_ofNat_of_zero_le (le_of_lt ht)
    rw [hnt] at ht h24 ⊢
    obtain ⟨j, hj⟩ := ofInt_exact nt (by omega) (by omega)
    rw [hj]
    unfold F32.div
    have s1 : decide (((nt * 2 ^ j : Nat) : Int) < 0) = false := by simp
    simp only [s1, Int.natAbs_ofNat, bne_self_eq_false, sub_self, neg_zero, Int.toNat_zero,
      pow_zero, Nat.mul_one]
    exact roundF32_self _ (Nat.mul_pos (by omega) (Nat.two_pow_pos _))
  refine ⟨hp, ?_⟩
  intro src hsrc
  unfold GambatteSource.ApplyFade
  rw [hsrc, hp]
  decide

/-- C24: in every reachable state whose stage is FadeToBlack or Stalling,
`FadeSamplesTotal` is positive (it is the budget drawn by `Reset`, in
[1234567, 1269679)) and `0 <= FadeSamplesLeft <= FadeSamplesTotal`; the
divisor `float32(FadeSamplesTotal)` of `ApplyFade` is not zero, the progress
it computes is a value `m / 2 ^ k` with `0 <= m <= 2 ^ k`, so in [0, 1], and
the alpha `byte(255 * percentage)` is in [0, 255] with no wrap-around; in
stage Stalling the progress is exactly 1 and the alpha 255; right after a
`Reset` the progress is 0 and the alpha 0. -/
theorem fade_progress_in_unit_interval (g : Gambatte) (hreach : Reachable g)
    (hstage : g.ResetStage = .FadeToBlack ∨ g.ResetStage = .Stalling) :
    0 < g.FadeSamplesTotal ∧ 0 ≤ g.FadeSamplesLeft ∧
    g.FadeSamplesLeft ≤ g.FadeSamplesTotal ∧
    0 < (F32.ofInt g.FadeSamplesTotal).man ∧
    (∃ m k : Nat, fadePercentage g = { man := (m : Int), exp := -(k : Int) } ∧ m ≤ 2 ^ k) ∧
    (∀ src : GambatteSource, src.Gambatte = g →
      src.fadeOverlay = some src.ApplyFade ∧
      src.ApplyFade.A = (F32.mul (F32.ofInt 255) (fadePercentage g)).toInt ∧
      0 ≤ src.ApplyFade.A ∧ src.ApplyFade.A ≤ 255) ∧
    (g.ResetStage = .Stalling →
      fadePercentage g = { man := 8388608, exp := -23 } ∧
      ∀ src : GambatteSource, src.Gambatte = g → src.ApplyFade.A = 255) ∧
    (∀ (g0 : Gambatte) (r : Int),
      fadePercentage (g0.Reset r) = { man := 0, exp := 0 } ∧
      ∀ src : GambatteSource, src.Gambatte = g0.Reset r → src.ApplyFade.A = 0) := by
  have hfade : SamplesToFadeFor = 1234567 := rfl
  have hframe : GbSamplesPerFrame = 35112 := rfl
  obtain ⟨b1, b2, b3⟩ := Reachable_fade_bounds g hreach hstage
  have hinv := Reachable_invariant g hreach
  have ht : 0 < g.FadeSamplesTotal := by omega
  have h24 : g.FadeSamplesTotal < 2 ^ 24 := by
    have : (2 : Int) ^ 24 = 16777216 := by norm_num
    omega
  obtain ⟨m, k, hq, hm⟩ := fade_quotient_le_one (g.FadeSamplesTotal - g.FadeSamplesLeft)
    g.FadeSamplesTotal (by have := hinv.fade_nonneg; omega)
    (by have := hinv.fade_nonneg; omega) ht h24
  have hpct : fadePercentage g = { man := (m : Int), exp := -(k : Int) } := hq
  refine ⟨ht, hinv.fade_nonneg, b3, ?_, ⟨m, k, hpct, by omega⟩, ?_, ?_, ?_⟩
  · obtain ⟨nt, hnt⟩ := Int.eq_ofNat_of_zero_le (le_of_lt ht)
    rw [hnt] at ht h24 ⊢
    obtain ⟨j, hj⟩ := ofInt_exact nt (by omega) (by omega)
    rw [hj]
    show (0 : Int) < ((nt * 2 ^ j : Nat) : Int)
    exact_mod_cast Nat.mul_pos (by omega) (Nat.two_pow_pos _)
  · intro src hsrc
    obtain ⟨a0, a1⟩ := alpha_range m k hm
    have hA : src.ApplyFade.A =
        (F32.mul (F32.ofInt 255) (fadePercentage g)).toInt % 256 := by
      unfold GambatteSource.ApplyFade
      rw [hsrc]
    have hmod : (F32.mul (F32.ofInt 255) (fadePercentage g)).toInt % 256 =
        (F32.mul (F32.ofInt 255) (fadePercentage g)).toInt := by
      rw [hpct]
      exact Int.emod_eq_of_lt a0 (by omega)
    refine ⟨?_, hA.trans hmod, ?_, ?_⟩
    · unfold GambatteSource.fadeOverlay
      rw [hsrc, if_pos hstage]
    · rw [hA, hmod, hpct]; exact a0
    · rw [hA, hmod, hpct]; exact a1
  · intro hst
    exact fade_end g (hinv.fade_done (Or.inl hst)) ht h24
  · intro g0 r
    exact fade_start (g0.Reset r) rfl

/-- C24, on the state right after a `Reset` with draw 17 and on that state
after one tick of 600000 samples. -/
theorem fade_progress_in_unit_interval_witness :
    Reachable (NewGambatte.Reset 17) ∧
    ((NewGambatte.Reset 17).ResetStage = .FadeToBlack ∨
      (NewGambatte.Reset 17).ResetStage = .Stalling) ∧
    (0 < (NewGambatte.Reset 17).FadeSamplesTotal ∧
      (NewGambatte.Reset 17).FadeSamplesLeft ≤ (NewGambatte.Reset 17).FadeSamplesTotal) ∧
    (0 < ((NewGambatte.Reset 17).HandleReset 600000).1.FadeSamplesTotal ∧
      ∃ m k : Nat, fadePercentage ((NewGambatte.Reset 17).HandleReset 600000).1 =
        { man := (m : Int), exp := -(k : Int) } ∧ m ≤ 2 ^ k) :=
  ⟨Reachable.reset NewGambatte 17 Reachable.init rfl (by decide) (by decide),
    Or.inl rfl,
    ⟨(fade_progress_in_unit_interval (NewGambatte.Reset 17)
        (Reachable.reset NewGambatte 17 Reachable.init rfl (by decide) (by decide))
        (Or.inl rfl)).1,
      (fade_progress_in_unit_interval (NewGambatte.Reset 17)
        (Reachable.reset NewGambatte 17 Reachable.init rfl (by decide) (by decide))
        (Or.inl rfl)).2.2.1⟩,
    ⟨(fade_progress_in_unit_interval ((NewGambatte.Reset 17).HandleReset 600000).1
        (Reachable.tick _ 600000
          (Reachable.reset NewGambatte 17 Reachable.init rfl (by decide) (by decide))
          (by decide))
        (Or.inl rfl)).1,
      (fade_progress_in_unit_interval ((NewGambatte.Reset 17).HandleReset 600000).1
        (Reachable.tick _ 600000
          (Reachable.reset NewGambatte 17 Reachable.init rfl (by decide) (by decide))
          (by decide))
        (Or.inl rfl)).2.2.2.2.1⟩⟩

end GambatteSpeedrun
